import Mathlib

/-!
# Stack reconciler: kind plugins

Shallow embedding of the four algorithm plugins of `pkg/reconciler/reconciler`
(`service_plugin.go`, `network_plugin.go`, `secret_plugin.go`, `config_plugin.go`).

Conventions of the embedding

* A Go `map[string]T` is an association list `List (String × T)`; a possibly nil map is an
  `Option` of it.  Go leaves the iteration order of a map unspecified; the embedding iterates in
  list order and every property about an iteration result is stated up to permutation.
* A Go `error` result is an `Option Error` (`none` is `nil`); a `(value, error)` result is an
  `Except Error value`.
* A function that can panic returns an `Option`; `none` is the panic.
* The backend client is a parameter: a record of state-passing functions over an arbitrary
  backend state `σ`.  Every call made through it is appended to `World.calls`.
* A `*ReconcileResource` argument that the callee mutates is passed by value and the mutated
  value is returned in the `Outcome`.
-/

namespace Stacks

/-! ## Go maps -/

/-- Read of key `k` in a Go map (the `v, ok := m[k]` form): `none` when the key is absent. -/
def mapGet {β : Type} : List (String × β) → String → Option β
  | [], _ => none
  | (k', v) :: rest, k => if k' = k then some v else mapGet rest k

/-- Assignment `m[k] = v` on a non-nil Go map. -/
def mapSet {β : Type} : List (String × β) → String → β → List (String × β)
  | [], k, v => [(k, v)]
  | (k', v') :: rest, k, v => if k' = k then (k, v) :: rest else (k', v') :: mapSet rest k v

/-- Read of key `k` in a possibly nil Go map; reading a nil map finds nothing. -/
def labelGet (m : Option (List (String × String))) (k : String) : Option String :=
  match m with
  | none => none
  | some l => mapGet l k

/-! ## Data model -/

/-- Modelled from the spec: the constant `types.StackLabel` (package `pkg/types`), the
well-known label `com.docker.stack.namespace`. -/
def StackLabel : String := "com.docker.stack.namespace"

/-- The `swarm.Version` revision; `Index` is a `uint64`. -/
structure Version where
  Index : Nat
deriving DecidableEq, Repr

/-- The `swarm.Meta` of a resource, reduced to its `Version`. -/
structure Meta where
  Version : Version
deriving DecidableEq, Repr

/-- Modelled from the spec: the record `interfaces.SnapshotResource`, with fields `ID`,
`Name` and `Meta` (holding the `Version`), declared outside the plugin sources. -/
structure SnapshotResource where
  ID : String
  Meta : Meta
  Name : String
deriving DecidableEq, Repr

/-- The zero value of `interfaces.SnapshotResource`. -/
def SnapshotResource.zero : SnapshotResource := ⟨"", ⟨⟨0⟩⟩, ""⟩

/-- An opaque sub-structure of a downstream spec, compared with `reflect.DeepEqual`. -/
abbrev Payload := String

/-- The `swarm.Annotations` of a spec: name and a possibly nil label map. -/
structure Annotations where
  Name : String
  Labels : Option (List (String × String))
deriving DecidableEq, Repr

/-- The `swarm.ServiceSpec` record. -/
structure ServiceSpec where
  Annotations : Annotations
  TaskTemplate : Payload
  Mode : Payload
  UpdateConfig : Option Payload
  RollbackConfig : Option Payload
  Networks : Option (List Payload)
  EndpointSpec : Option Payload
deriving DecidableEq, Repr

/-- The `swarm.SecretSpec` record. -/
structure SecretSpec where
  Annotations : Annotations
  Data : Option (List UInt8)
  Driver : Option Payload
  Templating : Option Payload
deriving DecidableEq, Repr

/-- The `swarm.ConfigSpec` record. -/
structure ConfigSpec where
  Annotations : Annotations
  Data : Option (List UInt8)
  Templating : Option Payload
deriving DecidableEq, Repr

/-- The `dockerTypes.NetworkCreate` record: its label map and the remaining settings. -/
structure NetworkCreate where
  Labels : Option (List (String × String))
  Settings : Payload
deriving DecidableEq, Repr

/-- The `dockerTypes.NetworkCreateRequest` record. -/
structure NetworkCreateRequest where
  Name : String
  NetworkCreate : NetworkCreate
deriving DecidableEq, Repr

/-- The `swarm.Service` object held downstream. -/
structure Service where
  ID : String
  Meta : Meta
  Spec : ServiceSpec
deriving DecidableEq, Repr

/-- The `swarm.Secret` object held downstream. -/
structure Secret where
  ID : String
  Meta : Meta
  Spec : SecretSpec
deriving DecidableEq, Repr

/-- The `swarm.Config` object held downstream. -/
structure Config where
  ID : String
  Meta : Meta
  Spec : ConfigSpec
deriving DecidableEq, Repr

/-- The `dockerTypes.NetworkResource` object held downstream. -/
structure NetworkResource where
  ID : String
  Name : String
  Labels : Option (List (String × String))
  Settings : Payload
deriving DecidableEq, Repr

/-- Modelled from the spec: the record `types.StackSpec`, the declared resources by kind
(services, configs and secrets as lists, networks as a map from name to settings, as the
plugins iterate them). -/
structure StackSpec where
  Services : List ServiceSpec
  Configs : List ConfigSpec
  Secrets : List SecretSpec
  Networks : List (String × NetworkCreate)
deriving DecidableEq, Repr

/-- Modelled from the spec: the record `interfaces.SnapshotStack`; it embeds a
`SnapshotResource` (its `ID`, `Name` and `Meta`). -/
structure SnapshotStack extends SnapshotResource where
  CurrentSpec : StackSpec
  PreviousSpec : StackSpec
  Services : List SnapshotResource
  Networks : List SnapshotResource
  Secrets : List SnapshotResource
  Configs : List SnapshotResource
deriving DecidableEq, Repr

/-- Modelled from the spec: the type `interfaces.ReconcileKind`. -/
inductive ReconcileKind where
  | ReconcileStack
  | ReconcileNetwork
  | ReconcileSecret
  | ReconcileConfig
  | ReconcileService
deriving DecidableEq, Repr

/-- Modelled from the spec: the type `interfaces.ReconcileState` of a goal mark,
one of None, Create, Update, Delete, Same; `ReconcileNone` is the zero value, which a
freshly built `ReconcileResource` carries until diffing sets the mark. -/
inductive ReconcileState where
  | ReconcileNone
  | ReconcileCreate
  | ReconcileUpdate
  | ReconcileDelete
  | ReconcileSame
deriving DecidableEq, Repr

/-- The dynamic value of the `Config` field (an empty interface) of a goal.  The `Ptr` forms are Go
pointers (`none` is a nil pointer of that type), the others are values. -/
inductive ConfigValue where
  | nil
  | servicePtr (p : Option ServiceSpec)
  | service (s : ServiceSpec)
  | secretPtr (p : Option SecretSpec)
  | secret (s : SecretSpec)
  | configPtr (p : Option ConfigSpec)
  | config (s : ConfigSpec)
  | networkPtr (p : Option NetworkCreateRequest)
deriving DecidableEq, Repr

/-- Modelled from the spec: the record `interfaces.ReconcileResource`,
with fields `Kind`, `SnapshotResource` (embedded), `Config` and `Mark`. -/
structure ReconcileResource extends SnapshotResource where
  Mark : ReconcileState
  Kind : ReconcileKind
  Config : ConfigValue
deriving DecidableEq, Repr

/-- A downstream object of one of the four kinds. -/
inductive Downstream where
  | service (o : Service)
  | network (o : NetworkResource)
  | secret (o : Secret)
  | config (o : Config)
deriving DecidableEq, Repr

/-- The label map of a downstream object. -/
def Downstream.labels : Downstream → Option (List (String × String))
  | .service o => o.Spec.Annotations.Labels
  | .network o => o.Labels
  | .secret o => o.Spec.Annotations.Labels
  | .config o => o.Spec.Annotations.Labels

/-! ## Errors -/

/-- The error classes the reconciler distinguishes; `Other` is an error of none of them. -/
inductive ErrorKind where
  | NotFound
  | VersionMismatch
  | InvalidArgument
  | Transient
  | Fatal
  | Other
deriving DecidableEq, Repr

/-- A Go `error` value: its class and its message. -/
structure Error where
  kind : ErrorKind
  msg : String
deriving DecidableEq, Repr

/-- The predicate `errdefs.IsNotFound`. -/
def IsNotFound (err : Error) : Bool :=
  decide (err.kind = ErrorKind.NotFound)

/-! ## Backend client -/

/-- Modelled from the spec: the constant `interfaces.DefaultCreateServiceArg2` (the encoded
registry auth passed on service creation), declared outside the plugin sources. -/
def DefaultCreateServiceArg2 : String := ""

/-- Modelled from the spec: the constant `interfaces.DefaultCreateServiceArg3`
(`queryRegistry=false`), declared outside the plugin sources. -/
def DefaultCreateServiceArg3 : Bool := false

/-- Modelled from the spec: the constant `interfaces.DefaultUpdateServiceArg4` (the service
update options), declared outside the plugin sources. -/
def DefaultUpdateServiceArg4 : Payload := ""

/-- Modelled from the spec: the constant `interfaces.DefaultUpdateServiceArg5`
(`queryRegistry=false`), declared outside the plugin sources. -/
def DefaultUpdateServiceArg5 : Bool := false

/-- Modelled from the spec: the constant `interfaces.DefaultGetServiceArg2`
(`insertDefaults=true`), declared outside the plugin sources. -/
def DefaultGetServiceArg2 : Bool := true

/-- The label requirements of a list call (`filters.Args` restricted to `label` entries): the
pairs of label name and label value a listed resource must carry. -/
abbrev Filters := List (String × String)

/-- Modelled from the spec: the helper `stackLabelFilter` (declared outside the plugin sources),
the list filter "stack-namespace label = stackID". -/
def stackLabelFilter (stackID : String) : Filters := [(StackLabel, stackID)]

/-- The response `dockerTypes.ServiceCreateResponse`. -/
structure ServiceCreateResponse where
  ID : String
  Warnings : List String
deriving DecidableEq, Repr

/-- The response `dockerTypes.ServiceUpdateResponse`. -/
structure ServiceUpdateResponse where
  Warnings : List String
deriving DecidableEq, Repr

/-- The methods of `interfaces.BackendClient` that the plugins call for lookup, listing,
create, update, remove and snapshot commit, as state-passing functions over a backend state
`σ`. -/
structure BackendClient (σ : Type) where
  CreateService : ServiceSpec → String → Bool → σ → Except Error ServiceCreateResponse × σ
  UpdateService : String → Nat → ServiceSpec → Payload → Bool → σ →
    Except Error ServiceUpdateResponse × σ
  RemoveService : String → σ → Option Error × σ
  CreateNetwork : NetworkCreateRequest → σ → Except Error String × σ
  RemoveNetwork : String → σ → Option Error × σ
  CreateSecret : SecretSpec → σ → Except Error String × σ
  UpdateSecret : String → Nat → SecretSpec → σ → Option Error × σ
  RemoveSecret : String → σ → Option Error × σ
  CreateConfig : ConfigSpec → σ → Except Error String × σ
  UpdateConfig : String → Nat → ConfigSpec → σ → Option Error × σ
  RemoveConfig : String → σ → Option Error × σ
  UpdateSnapshotStack : String → SnapshotStack → Nat → σ → Except Error SnapshotStack × σ
  GetService : String → Bool → σ → Except Error Service × σ
  GetServices : Filters → σ → Except Error (List Service) × σ
  GetNetwork : String → σ → Except Error NetworkResource × σ
  GetNetworks : Filters → σ → Except Error (List NetworkResource) × σ
  GetSecret : String → σ → Except Error Secret × σ
  GetSecrets : Filters → σ → Except Error (List Secret) × σ
  GetConfig : String → σ → Except Error Config × σ
  GetConfigs : Filters → σ → Except Error (List Config) × σ

/-- One call on the backend client, with its arguments. -/
inductive BackendCall where
  | CreateService (spec : ServiceSpec) (arg2 : String) (arg3 : Bool)
  | UpdateService (id : String) (version : Nat) (spec : ServiceSpec) (arg4 : Payload)
      (arg5 : Bool)
  | RemoveService (id : String)
  | CreateNetwork (request : NetworkCreateRequest)
  | RemoveNetwork (id : String)
  | CreateSecret (spec : SecretSpec)
  | UpdateSecret (id : String) (version : Nat) (spec : SecretSpec)
  | RemoveSecret (id : String)
  | CreateConfig (spec : ConfigSpec)
  | UpdateConfig (id : String) (version : Nat) (spec : ConfigSpec)
  | RemoveConfig (id : String)
  | UpdateSnapshotStack (id : String) (snapshot : SnapshotStack) (version : Nat)
  | GetService (id : String) (arg2 : Bool)
  | GetServices (filters : Filters)
  | GetNetwork (id : String)
  | GetNetworks (filters : Filters)
  | GetSecret (id : String)
  | GetSecrets (filters : Filters)
  | GetConfig (id : String)
  | GetConfigs (filters : Filters)
deriving DecidableEq, Repr

/-- The state a plugin operation runs in: the backend state and the calls issued so far. -/
structure World (σ : Type) where
  backend : σ
  calls : List BackendCall

/-- The world after call `c` moved the backend to `s`. -/
def World.after {σ : Type} (w : World σ) (c : BackendCall) (s : σ) : World σ :=
  { backend := s, calls := w.calls ++ [c] }

namespace BackendClient

variable {σ : Type}

/-- Issue `CreateService` and record the call. -/
def callCreateService (cli : BackendClient σ) (spec : ServiceSpec) (arg2 : String) (arg3 : Bool)
    (w : World σ) : Except Error ServiceCreateResponse × World σ :=
  let r := cli.CreateService spec arg2 arg3 w.backend
  (r.1, w.after (.CreateService spec arg2 arg3) r.2)

/-- Issue `UpdateService` and record the call. -/
def callUpdateService (cli : BackendClient σ) (id : String) (version : Nat) (spec : ServiceSpec)
    (arg4 : Payload) (arg5 : Bool) (w : World σ) :
    Except Error ServiceUpdateResponse × World σ :=
  let r := cli.UpdateService id version spec arg4 arg5 w.backend
  (r.1, w.after (.UpdateService id version spec arg4 arg5) r.2)

/-- Issue `RemoveService` and record the call. -/
def callRemoveService (cli : BackendClient σ) (id : String) (w : World σ) :
    Option Error × World σ :=
  let r := cli.RemoveService id w.backend
  (r.1, w.after (.RemoveService id) r.2)

/-- Issue `CreateNetwork` and record the call. -/
def callCreateNetwork (cli : BackendClient σ) (request : NetworkCreateRequest) (w : World σ) :
    Except Error String × World σ :=
  let r := cli.CreateNetwork request w.backend
  (r.1, w.after (.CreateNetwork request) r.2)

/-- Issue `RemoveNetwork` and record the call. -/
def callRemoveNetwork (cli : BackendClient σ) (id : String) (w : World σ) :
    Option Error × World σ :=
  let r := cli.RemoveNetwork id w.backend
  (r.1, w.after (.RemoveNetwork id) r.2)

/-- Issue `CreateSecret` and record the call. -/
def callCreateSecret (cli : BackendClient σ) (spec : SecretSpec) (w : World σ) :
    Except Error String × World σ :=
  let r := cli.CreateSecret spec w.backend
  (r.1, w.after (.CreateSecret spec) r.2)

/-- Issue `UpdateSecret` and record the call. -/
def callUpdateSecret (cli : BackendClient σ) (id : String) (version : Nat) (spec : SecretSpec)
    (w : World σ) : Option Error × World σ :=
  let r := cli.UpdateSecret id version spec w.backend
  (r.1, w.after (.UpdateSecret id version spec) r.2)

/-- Issue `RemoveSecret` and record the call. -/
def callRemoveSecret (cli : BackendClient σ) (id : String) (w : World σ) :
    Option Error × World σ :=
  let r := cli.RemoveSecret id w.backend
  (r.1, w.after (.RemoveSecret id) r.2)

/-- Issue `CreateConfig` and record the call. -/
def callCreateConfig (cli : BackendClient σ) (spec : ConfigSpec) (w : World σ) :
    Except Error String × World σ :=
  let r := cli.CreateConfig spec w.backend
  (r.1, w.after (.CreateConfig spec) r.2)

/-- Issue `UpdateConfig` and record the call. -/
def callUpdateConfig (cli : BackendClient σ) (id : String) (version : Nat) (spec : ConfigSpec)
    (w : World σ) : Option Error × World σ :=
  let r := cli.UpdateConfig id version spec w.backend
  (r.1, w.after (.UpdateConfig id version spec) r.2)

/-- Issue `RemoveConfig` and record the call. -/
def callRemoveConfig (cli : BackendClient σ) (id : String) (w : World σ) :
    Option Error × World σ :=
  let r := cli.RemoveConfig id w.backend
  (r.1, w.after (.RemoveConfig id) r.2)

/-- Issue `UpdateSnapshotStack` and record the call. -/
def callUpdateSnapshotStack (cli : BackendClient σ) (id : String) (snapshot : SnapshotStack)
    (version : Nat) (w : World σ) : Except Error SnapshotStack × World σ :=
  let r := cli.UpdateSnapshotStack id snapshot version w.backend
  (r.1, w.after (.UpdateSnapshotStack id snapshot version) r.2)

/-- Issue `GetService` and record the call. -/
def callGetService (cli : BackendClient σ) (id : String) (arg2 : Bool) (w : World σ) :
    Except Error Service × World σ :=
  let r := cli.GetService id arg2 w.backend
  (r.1, w.after (.GetService id arg2) r.2)

/-- Issue `GetServices` and record the call. -/
def callGetServices (cli : BackendClient σ) (filters : Filters) (w : World σ) :
    Except Error (List Service) × World σ :=
  let r := cli.GetServices filters w.backend
  (r.1, w.after (.GetServices filters) r.2)

/-- Issue `GetNetwork` and record the call. -/
def callGetNetwork (cli : BackendClient σ) (id : String) (w : World σ) :
    Except Error NetworkResource × World σ :=
  let r := cli.GetNetwork id w.backend
  (r.1, w.after (.GetNetwork id) r.2)

/-- Issue `GetNetworks` and record the call. -/
def callGetNetworks (cli : BackendClient σ) (filters : Filters) (w : World σ) :
    Except Error (List NetworkResource) × World σ :=
  let r := cli.GetNetworks filters w.backend
  (r.1, w.after (.GetNetworks filters) r.2)

/-- Issue `GetSecret` and record the call. -/
def callGetSecret (cli : BackendClient σ) (id : String) (w : World σ) :
    Except Error Secret × World σ :=
  let r := cli.GetSecret id w.backend
  (r.1, w.after (.GetSecret id) r.2)

/-- Issue `GetSecrets` and record the call. -/
def callGetSecrets (cli : BackendClient σ) (filters : Filters) (w : World σ) :
    Except Error (List Secret) × World σ :=
  let r := cli.GetSecrets filters w.backend
  (r.1, w.after (.GetSecrets filters) r.2)

/-- Issue `GetConfig` and record the call. -/
def callGetConfig (cli : BackendClient σ) (id : String) (w : World σ) :
    Except Error Config × World σ :=
  let r := cli.GetConfig id w.backend
  (r.1, w.after (.GetConfig id) r.2)

/-- Issue `GetConfigs` and record the call. -/
def callGetConfigs (cli : BackendClient σ) (filters : Filters) (w : World σ) :
    Except Error (List Config) × World σ :=
  let r := cli.GetConfigs filters w.backend
  (r.1, w.after (.GetConfigs filters) r.2)

end BackendClient

/-- What an operation on a `*ReconcileResource` leaves behind: the returned `error`, the
resource as mutated through the pointer, and the world. -/
structure Outcome (σ : Type) where
  err : Option Error
  resource : ReconcileResource
  world : World σ

/-! ## Active resources -/

/-- The wrapper `activeService` over a downstream service. -/
structure activeService extends SnapshotResource where
  service : Service
  stackID : String
deriving DecidableEq, Repr

/-- The wrapper `activeNetwork` over a downstream network. -/
structure activeNetwork extends SnapshotResource where
  network : NetworkResource
  stackID : String
deriving DecidableEq, Repr

/-- The wrapper `activeSecret` over a downstream secret. -/
structure activeSecret extends SnapshotResource where
  secret : Secret
  stackID : String
deriving DecidableEq, Repr

/-- The wrapper `activeConfig` over a downstream config. -/
structure activeConfig extends SnapshotResource where
  config : Config
  stackID : String
deriving DecidableEq, Repr

/-- The interface `ActiveResource`: a value of one of the four wrapper types. -/
inductive ActiveResource where
  | service (a : activeService)
  | network (a : activeNetwork)
  | secret (a : activeSecret)
  | config (a : activeConfig)
deriving DecidableEq, Repr

/-- The method `GetSnapshot` of the four wrappers. -/
def ActiveResource.GetSnapshot : ActiveResource → SnapshotResource
  | .service a => a.toSnapshotResource
  | .network a => a.toSnapshotResource
  | .secret a => a.toSnapshotResource
  | .config a => a.toSnapshotResource

/-- The method `GetStackID` of the four wrappers. -/
def ActiveResource.GetStackID : ActiveResource → String
  | .service a => a.stackID
  | .network a => a.stackID
  | .secret a => a.stackID
  | .config a => a.stackID

/-- The zero value `activeService` returned next to a lookup error. -/
def activeService.zero : activeService :=
  { ID := "", Meta := ⟨⟨0⟩⟩, Name := "", stackID := "",
    service := ⟨"", ⟨⟨0⟩⟩, ⟨⟨"", none⟩, "", "", none, none, none, none⟩⟩ }

/-- The zero value `activeNetwork` returned next to a lookup error. -/
def activeNetwork.zero : activeNetwork :=
  { ID := "", Meta := ⟨⟨0⟩⟩, Name := "", stackID := "", network := ⟨"", "", none, ""⟩ }

/-- The zero value `activeSecret` returned next to a lookup error. -/
def activeSecret.zero : activeSecret :=
  { ID := "", Meta := ⟨⟨0⟩⟩, Name := "", stackID := "",
    secret := ⟨"", ⟨⟨0⟩⟩, ⟨⟨"", none⟩, none, none, none⟩⟩ }

/-- The zero value `activeConfig` returned next to a lookup error. -/
def activeConfig.zero : activeConfig :=
  { ID := "", Meta := ⟨⟨0⟩⟩, Name := "", stackID := "",
    config := ⟨"", ⟨⟨0⟩⟩, ⟨⟨"", none⟩, none, none⟩⟩ }

/-- The downstream object an active resource wraps. -/
def ActiveResource.raw : ActiveResource → Downstream
  | .service a => Downstream.service a.service
  | .network a => Downstream.network a.network
  | .secret a => Downstream.secret a.secret
  | .config a => Downstream.config a.config

/-! ## Comparing label maps -/

/-- Modelled from the spec: the helper `compareMapsIgnoreStackLabel` (declared outside the plugin
sources), equality of two label maps "ignoring the stack-namespace label": every key other
than the stack-namespace label that one map holds is held by the other with the same value.
A nil map holds no key. -/
def compareMapsIgnoreStackLabel (one two : Option (List (String × String))) : Bool :=
  let left := one.getD []
  let right := two.getD []
  left.all (fun entry => decide (entry.1 = StackLabel) ||
    decide (mapGet right entry.1 = mapGet left entry.1)) &&
  right.all (fun entry => decide (entry.1 = StackLabel) ||
    decide (mapGet left entry.1 = mapGet right entry.1))

/-! ## Goal sets -/

/-- The loop shared by the four `storeGoals`: walk the goal map, skip the goals marked
`ReconcileDelete`, append the `SnapshotResource` of every other goal. -/
def collectGoals (goals : List (String × ReconcileResource)) : List SnapshotResource :=
  goals.foldl
    (fun acc entry =>
      if entry.2.Mark = ReconcileState.ReconcileDelete then acc
      else acc ++ [entry.2.toSnapshotResource])
    []

/-! ## Service plugin (`service_plugin.go`) -/

/-- The method `wrapService` of `InitializationService`: the active resource over a downstream
service, its stack ID read from the stack-namespace label (empty when the label is absent). -/
def InitializationService.wrapService (service : Service) : ActiveResource :=
  let stackID : String :=
    match labelGet service.Spec.Annotations.Labels StackLabel with
    | some value => value
    | none => ""
  ActiveResource.service
    { ID := service.ID, Meta := service.Meta, Name := service.Spec.Annotations.Name, service := service,
      stackID := stackID }

/-- The method `GetActiveResource` of `InitializationService` (the resource is passed by value):
the returned pair and the world after the lookup. -/
def InitializationService.GetActiveResource {σ : Type} (cli : BackendClient σ)
    (resource : ReconcileResource) (w : World σ) : (ActiveResource × Option Error) × World σ :=
  match cli.callGetService resource.ID DefaultGetServiceArg2 w with
  | (.error err, w1) => ((ActiveResource.service activeService.zero, some err), w1)
  | (.ok service, w1) => ((InitializationService.wrapService service, none), w1)

/-- The plugin state `algorithmService` (the embedded client is passed separately). -/
structure algorithmService where
  requestedResource : Option ReconcileResource
  stackID : String
  stackSpec : StackSpec
  goals : List (String × ReconcileResource)

namespace algorithmService

variable {σ : Type}

/-- The method `GetKind`: always `ReconcileService`. -/
def GetKind (_a : algorithmService) : ReconcileKind := ReconcileKind.ReconcileService

/-- The method `lookupServiceSpec`: the first declared service spec named `name`, `none` for
the nil pointer.  The source returns a pointer to a copy of the
spec that shares its label map with the declared spec; the embedding returns the spec by
value, without that sharing. -/
def lookupServiceSpec (a : algorithmService) (name : String) : Option ServiceSpec :=
  a.stackSpec.Services.find? (fun serviceSpec => decide (name = serviceSpec.Annotations.Name))

/-- The method `getSpecifiedResourceNames`: the declared names, in declaration order. -/
def getSpecifiedResourceNames (a : algorithmService) : List String :=
  a.stackSpec.Services.map (fun serviceSpec => serviceSpec.Annotations.Name)

/-- The method `addCreateResourceGoal`; `none` is the nil dereference of a missing spec. -/
def addCreateResourceGoal (a : algorithmService) (specName : String) :
    Option (ReconcileResource × algorithmService) :=
  match a.lookupServiceSpec specName with
  | none => none
  | some serviceSpec =>
    let resource : ReconcileResource :=
      { ID := "", Meta := ⟨⟨0⟩⟩, Name := serviceSpec.Annotations.Name,
        Mark := ReconcileState.ReconcileNone,
        Config := ConfigValue.servicePtr (some serviceSpec), Kind := a.GetKind }
    some (resource, { a with goals := mapSet a.goals specName resource })

/-- The method `addRemoveResourceGoal`; `none` is the failed type assertion on an active
resource of another kind. -/
def addRemoveResourceGoal (a : algorithmService) (activeResource : ActiveResource) :
    Option (ReconcileResource × algorithmService) :=
  match activeResource with
  | .service activeService =>
    let resource : ReconcileResource :=
      { activeService.toSnapshotResource with
        Mark := ReconcileState.ReconcileNone,
        Kind := a.GetKind, Config := ConfigValue.service activeService.service.Spec }
    some (resource, { a with goals := mapSet a.goals activeService.Name resource })
  | _ => none

/-- The method `storeGoals`: the returned pair and the world after the commit attempt. -/
def storeGoals (cli : BackendClient σ) (a : algorithmService) (previous : SnapshotStack)
    (w : World σ) : (SnapshotStack × Option Error) × World σ :=
  let goalServices := collectGoals a.goals
  let updated : SnapshotStack := { previous with Services := goalServices }
  match cli.callUpdateSnapshotStack a.stackID updated updated.Meta.Version.Index w with
  | (.error err, w1) => ((previous, some err), w1)
  | (.ok current, w1) => ((current, none), w1)

/-- The method `CreateResource`; `none` is the panic of the type assertion or of the nil
pointer dereference.  The goal is passed and returned by value: the source writes through the
pointer that the goal map may also hold, an aliasing this embedding does not carry, so the
plugin's goal map is not part of the result. -/
def CreateResource (cli : BackendClient σ) (a : algorithmService) (resource : ReconcileResource)
    (w : World σ) : Option (Outcome σ) :=
  match resource.Config with
  | .servicePtr (some serviceSpec) =>
    let labels : List (String × String) :=
      match serviceSpec.Annotations.Labels with
      | none => []
      | some m => m
    let serviceSpec : ServiceSpec :=
      { serviceSpec with
        Annotations :=
          { serviceSpec.Annotations with Labels := some (mapSet labels StackLabel a.stackID) } }
    let resource : ReconcileResource :=
      { resource with Config := ConfigValue.servicePtr (some serviceSpec) }
    match cli.callCreateService serviceSpec DefaultCreateServiceArg2 DefaultCreateServiceArg3 w with
    | (.error err, w1) => some ⟨some err, resource, w1⟩
    | (.ok resp, w1) => some ⟨none, { resource with ID := resp.ID }, w1⟩
  | _ => none

/-- The method `DeleteResource`. -/
def DeleteResource (cli : BackendClient σ) (_a : algorithmService)
    (resource : ReconcileResource) (w : World σ) : Outcome σ :=
  match cli.callRemoveService resource.ID w with
  | (some err, w1) =>
    if !IsNotFound err then ⟨some err, resource, w1⟩
    else ⟨none, { resource with ID := "" }, w1⟩
  | (none, w1) => ⟨none, { resource with ID := "" }, w1⟩

/-- The method `UpdateResource` (the resource is passed by value); `none` is the panic of the
type assertion or of the nil pointer dereference. -/
def UpdateResource (cli : BackendClient σ) (_a : algorithmService)
    (resource : ReconcileResource) (w : World σ) : Option (Option Error × World σ) :=
  match resource.Config with
  | .servicePtr (some serviceSpec) =>
    match cli.callUpdateService resource.ID resource.Meta.Version.Index serviceSpec
        DefaultUpdateServiceArg4 DefaultUpdateServiceArg5 w with
    | (.error err, w1) => some (some err, w1)
    | (.ok _, w1) => some (none, w1)
  | _ => none

/-- The method `lookupSpecifiedResource`: the declared spec as an interface value. -/
def lookupSpecifiedResource (a : algorithmService) (name : String) : ConfigValue :=
  ConfigValue.servicePtr (a.lookupServiceSpec name)

/-- The method `getGoalResources`: the goals of the goal map. -/
def getGoalResources (a : algorithmService) : List ReconcileResource :=
  a.goals.map (fun entry => entry.2)

/-- The method `getGoalResource`: the first goal met whose `Name` is `name`, `none` for the nil
pointer. -/
def getGoalResource (a : algorithmService) (name : String) : Option ReconcileResource :=
  (a.goals.find? (fun entry => decide (name = entry.2.Name))).map (fun entry => entry.2)

/-- The method `GetActiveResources`: the returned pair and the world after the list call. -/
def GetActiveResources (cli : BackendClient σ) (a : algorithmService) (w : World σ) :
    (List ActiveResource × Option Error) × World σ :=
  match cli.callGetServices (stackLabelFilter a.stackID) w with
  | (.error err, w1) => (([], some err), w1)
  | (.ok services, w1) => ((services.map InitializationService.wrapService, none), w1)

/-- The method `hasSameConfiguration` (the resource is passed by value); `none` is the panic of
a failed type assertion or of the nil pointer dereference. -/
def hasSameConfiguration (_a : algorithmService) (resource : ReconcileResource)
    (actual : ActiveResource) : Option Bool :=
  match resource.Config, actual with
  | .servicePtr (some one), .service active =>
    let two := active.service.Spec
    some (decide (one.Annotations.Name = two.Annotations.Name) &&
      compareMapsIgnoreStackLabel one.Annotations.Labels two.Annotations.Labels &&
      decide (one.TaskTemplate = two.TaskTemplate) &&
      decide (one.Mode = two.Mode) &&
      decide (one.UpdateConfig = two.UpdateConfig) &&
      decide (one.RollbackConfig = two.RollbackConfig) &&
      decide (one.Networks = two.Networks) &&
      decide (one.EndpointSpec = two.EndpointSpec))
  | _, _ => none

end algorithmService

/-! ## Network plugin (`network_plugin.go`) -/

/-- The method `wrapNetwork` of `InitializationNetwork`: the active resource over a downstream
network, its stack ID read from the stack-namespace label (empty when the label is absent). -/
def InitializationNetwork.wrapNetwork (network : NetworkResource) : ActiveResource :=
  let stackID : String :=
    match labelGet network.Labels StackLabel with
    | some value => value
    | none => ""
  ActiveResource.network
    { ID := network.ID, Meta := ⟨⟨0⟩⟩, Name := network.Name, network := network,
      stackID := stackID }

/-- The method `GetActiveResource` of `InitializationNetwork` (the resource is passed by value):
the returned pair and the world after the lookup. -/
def InitializationNetwork.GetActiveResource {σ : Type} (cli : BackendClient σ)
    (resource : ReconcileResource) (w : World σ) : (ActiveResource × Option Error) × World σ :=
  match cli.callGetNetwork resource.ID w with
  | (.error err, w1) => ((ActiveResource.network activeNetwork.zero, some err), w1)
  | (.ok network, w1) => ((InitializationNetwork.wrapNetwork network, none), w1)

/-- The plugin state `algorithmNetwork` (the embedded client is passed separately). -/
structure algorithmNetwork where
  requestedResource : Option ReconcileResource
  stackID : String
  stackSpec : StackSpec
  goals : List (String × ReconcileResource)

namespace algorithmNetwork

variable {σ : Type}

/-- The method `GetKind`: always `ReconcileNetwork`. -/
def GetKind (_a : algorithmNetwork) : ReconcileKind := ReconcileKind.ReconcileNetwork

/-- The method `lookupNetworkSpec`: a request built from the declared network stored under
key `name`, `none` for the nil pointer. -/
def lookupNetworkSpec (a : algorithmNetwork) (name : String) : Option NetworkCreateRequest :=
  match a.stackSpec.Networks.find? (fun entry => decide (name = entry.1)) with
  | some entry => some { Name := name, NetworkCreate := entry.2 }
  | none => none

/-- The method `getSpecifiedResourceNames`: the keys of the declared network map. -/
def getSpecifiedResourceNames (a : algorithmNetwork) : List String :=
  a.stackSpec.Networks.map (fun entry => entry.1)

/-- The method `addCreateResourceGoal`; `none` is the nil dereference of a missing spec. -/
def addCreateResourceGoal (a : algorithmNetwork) (specName : String) :
    Option (ReconcileResource × algorithmNetwork) :=
  match a.lookupNetworkSpec specName with
  | none => none
  | some networkCreateRequest =>
    let resource : ReconcileResource :=
      { ID := "", Meta := ⟨⟨0⟩⟩, Name := networkCreateRequest.Name,
        Mark := ReconcileState.ReconcileNone,
        Config := ConfigValue.networkPtr (some networkCreateRequest), Kind := a.GetKind }
    some (resource, { a with goals := mapSet a.goals specName resource })

/-- The method `addRemoveResourceGoal`; `none` is the failed type assertion on an active
resource of another kind. -/
def addRemoveResourceGoal (a : algorithmNetwork) (activeResource : ActiveResource) :
    Option (ReconcileResource × algorithmNetwork) :=
  match activeResource with
  | .network activeNetwork =>
    let resource : ReconcileResource :=
      { activeNetwork.toSnapshotResource with
        Mark := ReconcileState.ReconcileNone,
        Kind := a.GetKind,
        Config := ConfigValue.networkPtr (a.lookupNetworkSpec activeNetwork.Name) }
    some (resource, { a with goals := mapSet a.goals activeNetwork.Name resource })
  | _ => none

/-- The method `storeGoals`: the returned pair and the world after the commit attempt. -/
def storeGoals (cli : BackendClient σ) (a : algorithmNetwork) (previous : SnapshotStack)
    (w : World σ) : (SnapshotStack × Option Error) × World σ :=
  let goalNetworks := collectGoals a.goals
  let updated : SnapshotStack := { previous with Networks := goalNetworks }
  match cli.callUpdateSnapshotStack a.stackID updated updated.Meta.Version.Index w with
  | (.error err, w1) => ((previous, some err), w1)
  | (.ok current, w1) => ((current, none), w1)

/-- The method `CreateResource`; `none` is the panic of the type assertion or of the nil
pointer dereference.  The goal is passed and returned by value: the source writes through the
pointer that the goal map may also hold, an aliasing this embedding does not carry, so the
plugin's goal map is not part of the result. -/
def CreateResource (cli : BackendClient σ) (a : algorithmNetwork) (resource : ReconcileResource)
    (w : World σ) : Option (Outcome σ) :=
  match resource.Config with
  | .networkPtr (some networkCreateRequest) =>
    let labels : List (String × String) :=
      match networkCreateRequest.NetworkCreate.Labels with
      | none => []
      | some m => m
    let networkCreateRequest : NetworkCreateRequest :=
      { networkCreateRequest with
        NetworkCreate :=
          { networkCreateRequest.NetworkCreate with
            Labels := some (mapSet labels StackLabel a.stackID) } }
    let resource : ReconcileResource :=
      { resource with Config := ConfigValue.networkPtr (some networkCreateRequest) }
    match cli.callCreateNetwork networkCreateRequest w with
    | (.error err, w1) => some ⟨some err, resource, w1⟩
    | (.ok id, w1) => some ⟨none, { resource with ID := id }, w1⟩
  | _ => none

/-- The method `DeleteResource`. -/
def DeleteResource (cli : BackendClient σ) (_a : algorithmNetwork)
    (resource : ReconcileResource) (w : World σ) : Outcome σ :=
  match cli.callRemoveNetwork resource.ID w with
  | (some err, w1) =>
    if !IsNotFound err then ⟨some err, resource, w1⟩
    else ⟨none, { resource with ID := "" }, w1⟩
  | (none, w1) => ⟨none, { resource with ID := "" }, w1⟩

/-- The method `UpdateResource`: networks are never updated, it returns nil at once. -/
def UpdateResource (_cli : BackendClient σ) (_a : algorithmNetwork)
    (_resource : ReconcileResource) (w : World σ) : Option (Option Error × World σ) :=
  some (none, w)

/-- The method `lookupSpecifiedResource`: the declared spec as an interface value. -/
def lookupSpecifiedResource (a : algorithmNetwork) (name : String) : ConfigValue :=
  ConfigValue.networkPtr (a.lookupNetworkSpec name)

/-- The method `getGoalResources`: the goals of the goal map. -/
def getGoalResources (a : algorithmNetwork) : List ReconcileResource :=
  a.goals.map (fun entry => entry.2)

/-- The method `getGoalResource`: the first goal met whose `Name` is `name`, `none` for the nil
pointer. -/
def getGoalResource (a : algorithmNetwork) (name : String) : Option ReconcileResource :=
  (a.goals.find? (fun entry => decide (name = entry.2.Name))).map (fun entry => entry.2)

/-- The method `GetActiveResources`: the returned pair and the world after the list call. -/
def GetActiveResources (cli : BackendClient σ) (a : algorithmNetwork) (w : World σ) :
    (List ActiveResource × Option Error) × World σ :=
  match cli.callGetNetworks (stackLabelFilter a.stackID) w with
  | (.error err, w1) => (([], some err), w1)
  | (.ok networks, w1) => ((networks.map InitializationNetwork.wrapNetwork, none), w1)

/-- The method `hasSameConfiguration`: networks cannot be updated, it returns true without a
look at its arguments. -/
def hasSameConfiguration (_a : algorithmNetwork) (_resource : ReconcileResource)
    (_actual : ActiveResource) : Option Bool :=
  some true

end algorithmNetwork

/-! ## Secret plugin (`secret_plugin.go`) -/

/-- The method `wrapSecret` of `InitializationSecret`: the active resource over a downstream
secret, its stack ID read from the stack-namespace label (empty when the label is absent). -/
def InitializationSecret.wrapSecret (secret : Secret) : ActiveResource :=
  let stackID : String :=
    match labelGet secret.Spec.Annotations.Labels StackLabel with
    | some value => value
    | none => ""
  ActiveResource.secret
    { ID := secret.ID, Meta := secret.Meta, Name := secret.Spec.Annotations.Name, secret := secret,
      stackID := stackID }

/-- The method `GetActiveResource` of `InitializationSecret` (the resource is passed by value):
the returned pair and the world after the lookup. -/
def InitializationSecret.GetActiveResource {σ : Type} (cli : BackendClient σ)
    (resource : ReconcileResource) (w : World σ) : (ActiveResource × Option Error) × World σ :=
  match cli.callGetSecret resource.ID w with
  | (.error err, w1) => ((ActiveResource.secret activeSecret.zero, some err), w1)
  | (.ok secret, w1) => ((InitializationSecret.wrapSecret secret, none), w1)

/-- The plugin state `algorithmSecret` (the embedded client is passed separately). -/
structure algorithmSecret where
  requestedResource : Option ReconcileResource
  stackID : String
  stackSpec : StackSpec
  goals : List (String × ReconcileResource)

namespace algorithmSecret

variable {σ : Type}

/-- The method `GetKind`: always `ReconcileSecret`. -/
def GetKind (_a : algorithmSecret) : ReconcileKind := ReconcileKind.ReconcileSecret

/-- The method `lookupSecretSpec`: the first declared secret spec named `name`, `none` for
the nil pointer.  The source returns a pointer to a copy of the
spec that shares its label map with the declared spec; the embedding returns the spec by
value, without that sharing. -/
def lookupSecretSpec (a : algorithmSecret) (name : String) : Option SecretSpec :=
  a.stackSpec.Secrets.find? (fun secretSpec => decide (name = secretSpec.Annotations.Name))

/-- The method `getSpecifiedResourceNames`: the declared names, in declaration order. -/
def getSpecifiedResourceNames (a : algorithmSecret) : List String :=
  a.stackSpec.Secrets.map (fun secretSpec => secretSpec.Annotations.Name)

/-- The method `addCreateResourceGoal`; `none` is the nil dereference of a missing spec. -/
def addCreateResourceGoal (a : algorithmSecret) (specName : String) :
    Option (ReconcileResource × algorithmSecret) :=
  match a.lookupSecretSpec specName with
  | none => none
  | some secretSpec =>
    let resource : ReconcileResource :=
      { ID := "", Meta := ⟨⟨0⟩⟩, Name := secretSpec.Annotations.Name,
        Mark := ReconcileState.ReconcileNone,
        Config := ConfigValue.secretPtr (some secretSpec), Kind := a.GetKind }
    some (resource, { a with goals := mapSet a.goals specName resource })

/-- The method `addRemoveResourceGoal`; `none` is the failed type assertion on an active
resource of another kind. -/
def addRemoveResourceGoal (a : algorithmSecret) (activeResource : ActiveResource) :
    Option (ReconcileResource × algorithmSecret) :=
  match activeResource with
  | .secret activeSecret =>
    let resource : ReconcileResource :=
      { activeSecret.toSnapshotResource with
        Mark := ReconcileState.ReconcileNone,
        Kind := a.GetKind, Config := ConfigValue.secret activeSecret.secret.Spec }
    some (resource, { a with goals := mapSet a.goals activeSecret.Name resource })
  | _ => none

/-- The method `storeGoals`: the returned pair and the world after the commit attempt. -/
def storeGoals (cli : BackendClient σ) (a : algorithmSecret) (previous : SnapshotStack)
    (w : World σ) : (SnapshotStack × Option Error) × World σ :=
  let goalSecrets := collectGoals a.goals
  let updated : SnapshotStack := { previous with Secrets := goalSecrets }
  match cli.callUpdateSnapshotStack a.stackID updated updated.Meta.Version.Index w with
  | (.error err, w1) => ((previous, some err), w1)
  | (.ok current, w1) => ((current, none), w1)

/-- The method `CreateResource`; `none` is the panic of the type assertion or of the nil
pointer dereference.  The goal is passed and returned by value: the source writes through the
pointer that the goal map may also hold, an aliasing this embedding does not carry, so the
plugin's goal map is not part of the result. -/
def CreateResource (cli : BackendClient σ) (a : algorithmSecret) (resource : ReconcileResource)
    (w : World σ) : Option (Outcome σ) :=
  match resource.Config with
  | .secretPtr (some secretSpec) =>
    let labels : List (String × String) :=
      match secretSpec.Annotations.Labels with
      | none => []
      | some m => m
    let secretSpec : SecretSpec :=
      { secretSpec with
        Annotations :=
          { secretSpec.Annotations with Labels := some (mapSet labels StackLabel a.stackID) } }
    let resource : ReconcileResource :=
      { resource with Config := ConfigValue.secretPtr (some secretSpec) }
    match cli.callCreateSecret secretSpec w with
    | (.error err, w1) => some ⟨some err, resource, w1⟩
    | (.ok id, w1) => some ⟨none, { resource with ID := id }, w1⟩
  | _ => none

/-- The method `DeleteResource`. -/
def DeleteResource (cli : BackendClient σ) (_a : algorithmSecret)
    (resource : ReconcileResource) (w : World σ) : Outcome σ :=
  match cli.callRemoveSecret resource.ID w with
  | (some err, w1) =>
    if !IsNotFound err then ⟨some err, resource, w1⟩
    else ⟨none, { resource with ID := "" }, w1⟩
  | (none, w1) => ⟨none, { resource with ID := "" }, w1⟩

/-- The method `UpdateResource` (the resource is passed by value); `none` is the panic of the
type assertion or of the nil pointer dereference. -/
def UpdateResource (cli : BackendClient σ) (_a : algorithmSecret)
    (resource : ReconcileResource) (w : World σ) : Option (Option Error × World σ) :=
  match resource.Config with
  | .secretPtr (some secretSpec) =>
    match cli.callUpdateSecret resource.ID resource.Meta.Version.Index secretSpec w with
    | (some err, w1) => some (some err, w1)
    | (none, w1) => some (none, w1)
  | _ => none

/-- The method `lookupSpecifiedResource`: the declared spec as an interface value. -/
def lookupSpecifiedResource (a : algorithmSecret) (name : String) : ConfigValue :=
  ConfigValue.secretPtr (a.lookupSecretSpec name)

/-- The method `getGoalResources`: the goals of the goal map. -/
def getGoalResources (a : algorithmSecret) : List ReconcileResource :=
  a.goals.map (fun entry => entry.2)

/-- The method `getGoalResource`: the first goal met whose `Name` is `name`, `none` for the nil
pointer. -/
def getGoalResource (a : algorithmSecret) (name : String) : Option ReconcileResource :=
  (a.goals.find? (fun entry => decide (name = entry.2.Name))).map (fun entry => entry.2)

/-- The method `GetActiveResources`: the returned pair and the world after the list call. -/
def GetActiveResources (cli : BackendClient σ) (a : algorithmSecret) (w : World σ) :
    (List ActiveResource × Option Error) × World σ :=
  match cli.callGetSecrets (stackLabelFilter a.stackID) w with
  | (.error err, w1) => (([], some err), w1)
  | (.ok secrets, w1) => ((secrets.map InitializationSecret.wrapSecret, none), w1)

/-- The method `hasSameConfiguration` (the resource is passed by value); `none` is the panic of
a failed type assertion or of the nil pointer dereference. -/
def hasSameConfiguration (_a : algorithmSecret) (resource : ReconcileResource)
    (actual : ActiveResource) : Option Bool :=
  match resource.Config, actual with
  | .secretPtr (some one), .secret active =>
    let two := active.secret.Spec
    some (decide (one.Annotations.Name = two.Annotations.Name) &&
      compareMapsIgnoreStackLabel one.Annotations.Labels two.Annotations.Labels &&
      decide (one.Data = two.Data) &&
      decide (one.Driver = two.Driver) &&
      decide (one.Templating = two.Templating))
  | _, _ => none

end algorithmSecret

/-! ## Config plugin (`config_plugin.go`) -/

/-- The method `wrapConfig` of `InitializationConfig`: the active resource over a downstream
config, its stack ID read from the stack-namespace label (empty when the label is absent). -/
def InitializationConfig.wrapConfig (config : Config) : ActiveResource :=
  let stackID : String :=
    match labelGet config.Spec.Annotations.Labels StackLabel with
    | some value => value
    | none => ""
  ActiveResource.config
    { ID := config.ID, Meta := config.Meta, Name := config.Spec.Annotations.Name, config := config,
      stackID := stackID }

/-- The method `GetActiveResource` of `InitializationConfig` (the resource is passed by value):
the returned pair and the world after the lookup. -/
def InitializationConfig.GetActiveResource {σ : Type} (cli : BackendClient σ)
    (resource : ReconcileResource) (w : World σ) : (ActiveResource × Option Error) × World σ :=
  match cli.callGetConfig resource.ID w with
  | (.error err, w1) => ((ActiveResource.config activeConfig.zero, some err), w1)
  | (.ok config, w1) => ((InitializationConfig.wrapConfig config, none), w1)

/-- The plugin state `algorithmConfig` (the embedded client is passed separately). -/
structure algorithmConfig where
  requestedResource : Option ReconcileResource
  stackID : String
  stackSpec : StackSpec
  goals : List (String × ReconcileResource)

namespace algorithmConfig

variable {σ : Type}

/-- The method `GetKind`: always `ReconcileConfig`. -/
def GetKind (_a : algorithmConfig) : ReconcileKind := ReconcileKind.ReconcileConfig

/-- The method `lookupConfigSpec`: the first declared config spec named `name`, `none` for
the nil pointer.  The source returns a pointer to a copy of the
spec that shares its label map with the declared spec; the embedding returns the spec by
value, without that sharing. -/
def lookupConfigSpec (a : algorithmConfig) (name : String) : Option ConfigSpec :=
  a.stackSpec.Configs.find? (fun configSpec => decide (name = configSpec.Annotations.Name))

/-- The method `getSpecifiedResourceNames`: the declared names, in declaration order. -/
def getSpecifiedResourceNames (a : algorithmConfig) : List String :=
  a.stackSpec.Configs.map (fun configSpec => configSpec.Annotations.Name)

/-- The method `addCreateResourceGoal`; `none` is the nil dereference of a missing spec. -/
def addCreateResourceGoal (a : algorithmConfig) (specName : String) :
    Option (ReconcileResource × algorithmConfig) :=
  match a.lookupConfigSpec specName with
  | none => none
  | some configSpec =>
    let resource : ReconcileResource :=
      { ID := "", Meta := ⟨⟨0⟩⟩, Name := configSpec.Annotations.Name,
        Mark := ReconcileState.ReconcileNone,
        Config := ConfigValue.configPtr (some configSpec), Kind := a.GetKind }
    some (resource, { a with goals := mapSet a.goals specName resource })

/-- The method `addRemoveResourceGoal`; `none` is the failed type assertion on an active
resource of another kind. -/
def addRemoveResourceGoal (a : algorithmConfig) (activeResource : ActiveResource) :
    Option (ReconcileResource × algorithmConfig) :=
  match activeResource with
  | .config activeConfig =>
    let resource : ReconcileResource :=
      { activeConfig.toSnapshotResource with
        Mark := ReconcileState.ReconcileNone,
        Kind := a.GetKind, Config := ConfigValue.config activeConfig.config.Spec }
    some (resource, { a with goals := mapSet a.goals activeConfig.Name resource })
  | _ => none

/-- The method `storeGoals`: the returned pair and the world after the commit attempt. -/
def storeGoals (cli : BackendClient σ) (a : algorithmConfig) (previous : SnapshotStack)
    (w : World σ) : (SnapshotStack × Option Error) × World σ :=
  let goalConfigs := collectGoals a.goals
  let updated : SnapshotStack := { previous with Configs := goalConfigs }
  match cli.callUpdateSnapshotStack a.stackID updated updated.Meta.Version.Index w with
  | (.error err, w1) => ((previous, some err), w1)
  | (.ok current, w1) => ((current, none), w1)

/-- The method `CreateResource`; `none` is the panic of the type assertion or of the nil
pointer dereference.  The goal is passed and returned by value: the source writes through the
pointer that the goal map may also hold, an aliasing this embedding does not carry, so the
plugin's goal map is not part of the result. -/
def CreateResource (cli : BackendClient σ) (a : algorithmConfig) (resource : ReconcileResource)
    (w : World σ) : Option (Outcome σ) :=
  match resource.Config with
  | .configPtr (some configSpec) =>
    let labels : List (String × String) :=
      match configSpec.Annotations.Labels with
      | none => []
      | some m => m
    let configSpec : ConfigSpec :=
      { configSpec with
        Annotations :=
          { configSpec.Annotations with Labels := some (mapSet labels StackLabel a.stackID) } }
    let resource : ReconcileResource :=
      { resource with Config := ConfigValue.configPtr (some configSpec) }
    match cli.callCreateConfig configSpec w with
    | (.error err, w1) => some ⟨some err, resource, w1⟩
    | (.ok id, w1) => some ⟨none, { resource with ID := id }, w1⟩
  | _ => none

/-- The method `DeleteResource`. -/
def DeleteResource (cli : BackendClient σ) (_a : algorithmConfig)
    (resource : ReconcileResource) (w : World σ) : Outcome σ :=
  match cli.callRemoveConfig resource.ID w with
  | (some err, w1) =>
    if !IsNotFound err then ⟨some err, resource, w1⟩
    else ⟨none, { resource with ID := "" }, w1⟩
  | (none, w1) => ⟨none, { resource with ID := "" }, w1⟩

/-- The method `UpdateResource` (the resource is passed by value); `none` is the panic of the
type assertion or of the nil pointer dereference. -/
def UpdateResource (cli : BackendClient σ) (_a : algorithmConfig)
    (resource : ReconcileResource) (w : World σ) : Option (Option Error × World σ) :=
  match resource.Config with
  | .configPtr (some configSpec) =>
    match cli.callUpdateConfig resource.ID resource.Meta.Version.Index configSpec w with
    | (some err, w1) => some (some err, w1)
    | (none, w1) => some (none, w1)
  | _ => none

/-- The method `lookupSpecifiedResource`: the declared spec as an interface value. -/
def lookupSpecifiedResource (a : algorithmConfig) (name : String) : ConfigValue :=
  ConfigValue.configPtr (a.lookupConfigSpec name)

/-- The method `getGoalResources`: the goals of the goal map. -/
def getGoalResources (a : algorithmConfig) : List ReconcileResource :=
  a.goals.map (fun entry => entry.2)

/-- The method `getGoalResource`: the first goal met whose `Name` is `name`, `none` for the nil
pointer. -/
def getGoalResource (a : algorithmConfig) (name : String) : Option ReconcileResource :=
  (a.goals.find? (fun entry => decide (name = entry.2.Name))).map (fun entry => entry.2)

/-- The method `GetActiveResources`: the returned pair and the world after the list call. -/
def GetActiveResources (cli : BackendClient σ) (a : algorithmConfig) (w : World σ) :
    (List ActiveResource × Option Error) × World σ :=
  match cli.callGetConfigs (stackLabelFilter a.stackID) w with
  | (.error err, w1) => (([], some err), w1)
  | (.ok configs, w1) => ((configs.map InitializationConfig.wrapConfig, none), w1)

/-- The method `hasSameConfiguration` (the resource is passed by value); `none` is the panic of
a failed type assertion or of the nil pointer dereference. -/
def hasSameConfiguration (_a : algorithmConfig) (resource : ReconcileResource)
    (actual : ActiveResource) : Option Bool :=
  match resource.Config, actual with
  | .configPtr (some one), .config active =>
    let two := active.config.Spec
    some (decide (one.Annotations.Name = two.Annotations.Name) &&
      compareMapsIgnoreStackLabel one.Annotations.Labels two.Annotations.Labels &&
      decide (one.Data = two.Data) &&
      decide (one.Templating = two.Templating))
  | _, _ => none

end algorithmConfig

/-! ## The plugin interface -/

/-- The interface `AlgorithmPlugin`: a value of one of the four plugin types. -/
inductive AlgorithmPlugin where
  | service (a : algorithmService)
  | network (a : algorithmNetwork)
  | secret (a : algorithmSecret)
  | config (a : algorithmConfig)

namespace AlgorithmPlugin

variable {σ : Type}

/-- The stack ID the plugin is bound to. -/
def stackID : AlgorithmPlugin → String
  | .service a => a.stackID
  | .network a => a.stackID
  | .secret a => a.stackID
  | .config a => a.stackID

/-- The goal map of the plugin. -/
def goals : AlgorithmPlugin → List (String × ReconcileResource)
  | .service a => a.goals
  | .network a => a.goals
  | .secret a => a.goals
  | .config a => a.goals

/-- Dispatch of `GetKind`. -/
def GetKind : AlgorithmPlugin → ReconcileKind
  | .service a => a.GetKind
  | .network a => a.GetKind
  | .secret a => a.GetKind
  | .config a => a.GetKind

/-- Dispatch of `getSpecifiedResourceNames`. -/
def getSpecifiedResourceNames : AlgorithmPlugin → List String
  | .service a => a.getSpecifiedResourceNames
  | .network a => a.getSpecifiedResourceNames
  | .secret a => a.getSpecifiedResourceNames
  | .config a => a.getSpecifiedResourceNames

/-- Dispatch of `addCreateResourceGoal`. -/
def addCreateResourceGoal (p : AlgorithmPlugin) (specName : String) :
    Option (ReconcileResource × AlgorithmPlugin) :=
  match p with
  | .service a => (a.addCreateResourceGoal specName).map (fun r => (r.1, .service r.2))
  | .network a => (a.addCreateResourceGoal specName).map (fun r => (r.1, .network r.2))
  | .secret a => (a.addCreateResourceGoal specName).map (fun r => (r.1, .secret r.2))
  | .config a => (a.addCreateResourceGoal specName).map (fun r => (r.1, .config r.2))

/-- Dispatch of `addRemoveResourceGoal`. -/
def addRemoveResourceGoal (p : AlgorithmPlugin) (activeResource : ActiveResource) :
    Option (ReconcileResource × AlgorithmPlugin) :=
  match p with
  | .service a => (a.addRemoveResourceGoal activeResource).map (fun r => (r.1, .service r.2))
  | .network a => (a.addRemoveResourceGoal activeResource).map (fun r => (r.1, .network r.2))
  | .secret a => (a.addRemoveResourceGoal activeResource).map (fun r => (r.1, .secret r.2))
  | .config a => (a.addRemoveResourceGoal activeResource).map (fun r => (r.1, .config r.2))

/-- Dispatch of `storeGoals`. -/
def storeGoals (cli : BackendClient σ) (p : AlgorithmPlugin) (previous : SnapshotStack)
    (w : World σ) : (SnapshotStack × Option Error) × World σ :=
  match p with
  | .service a => a.storeGoals cli previous w
  | .network a => a.storeGoals cli previous w
  | .secret a => a.storeGoals cli previous w
  | .config a => a.storeGoals cli previous w

/-- Dispatch of `CreateResource`. -/
def CreateResource (cli : BackendClient σ) (p : AlgorithmPlugin) (resource : ReconcileResource)
    (w : World σ) : Option (Outcome σ) :=
  match p with
  | .service a => a.CreateResource cli resource w
  | .network a => a.CreateResource cli resource w
  | .secret a => a.CreateResource cli resource w
  | .config a => a.CreateResource cli resource w

/-- Dispatch of `DeleteResource`. -/
def DeleteResource (cli : BackendClient σ) (p : AlgorithmPlugin) (resource : ReconcileResource)
    (w : World σ) : Outcome σ :=
  match p with
  | .service a => a.DeleteResource cli resource w
  | .network a => a.DeleteResource cli resource w
  | .secret a => a.DeleteResource cli resource w
  | .config a => a.DeleteResource cli resource w

/-- Dispatch of `UpdateResource`. -/
def UpdateResource (cli : BackendClient σ) (p : AlgorithmPlugin) (resource : ReconcileResource)
    (w : World σ) : Option (Option Error × World σ) :=
  match p with
  | .service a => a.UpdateResource cli resource w
  | .network a => a.UpdateResource cli resource w
  | .secret a => a.UpdateResource cli resource w
  | .config a => a.UpdateResource cli resource w

/-- Dispatch of `GetActiveResource` (promoted from the embedded initialization support). -/
def GetActiveResource (cli : BackendClient σ) (p : AlgorithmPlugin) (resource : ReconcileResource)
    (w : World σ) : (ActiveResource × Option Error) × World σ :=
  match p with
  | .service _ => InitializationService.GetActiveResource cli resource w
  | .network _ => InitializationNetwork.GetActiveResource cli resource w
  | .secret _ => InitializationSecret.GetActiveResource cli resource w
  | .config _ => InitializationConfig.GetActiveResource cli resource w

/-- Dispatch of `GetActiveResources`. -/
def GetActiveResources (cli : BackendClient σ) (p : AlgorithmPlugin) (w : World σ) :
    (List ActiveResource × Option Error) × World σ :=
  match p with
  | .service a => a.GetActiveResources cli w
  | .network a => a.GetActiveResources cli w
  | .secret a => a.GetActiveResources cli w
  | .config a => a.GetActiveResources cli w

/-- Dispatch of `lookupSpecifiedResource`. -/
def lookupSpecifiedResource (p : AlgorithmPlugin) (name : String) : ConfigValue :=
  match p with
  | .service a => a.lookupSpecifiedResource name
  | .network a => a.lookupSpecifiedResource name
  | .secret a => a.lookupSpecifiedResource name
  | .config a => a.lookupSpecifiedResource name

/-- Dispatch of `getGoalResources`. -/
def getGoalResources : AlgorithmPlugin → List ReconcileResource
  | .service a => a.getGoalResources
  | .network a => a.getGoalResources
  | .secret a => a.getGoalResources
  | .config a => a.getGoalResources

/-- Dispatch of `getGoalResource`. -/
def getGoalResource (p : AlgorithmPlugin) (name : String) : Option ReconcileResource :=
  match p with
  | .service a => a.getGoalResource name
  | .network a => a.getGoalResource name
  | .secret a => a.getGoalResource name
  | .config a => a.getGoalResource name

/-- Dispatch of `hasSameConfiguration`. -/
def hasSameConfiguration (p : AlgorithmPlugin) (resource : ReconcileResource)
    (actual : ActiveResource) : Option Bool :=
  match p with
  | .service a => a.hasSameConfiguration resource actual
  | .network a => a.hasSameConfiguration resource actual
  | .secret a => a.hasSameConfiguration resource actual
  | .config a => a.hasSameConfiguration resource actual

end AlgorithmPlugin

/-! ## A keyed-store backend -/

/-- Modelled from the spec: the state behind the `BackendClient` capability set (the downstream
orchestrator and the snapshot store are outside the plugin sources), as keyed collections of
the downstream objects of each kind, the snapshot store `StackID → SnapshotStack`, and a
counter for fresh identifiers. -/
structure Store where
  services : List Service
  networks : List NetworkResource
  secrets : List Secret
  configs : List Config
  snapshots : List (String × SnapshotStack)
  nextID : Nat
deriving DecidableEq, Repr

namespace Store

/-- Modelled from the spec: the NotFound error of a lookup, update or remove of an absent
object. -/
def errNotFound (id : String) : Error := ⟨ErrorKind.NotFound, id⟩

/-- Modelled from the spec: the VersionMismatch error of `UpdateSnapshotStack`. -/
def errVersionMismatch (id : String) : Error := ⟨ErrorKind.VersionMismatch, id⟩

/-- Modelled from the spec: a bumped `uint64` revision. -/
def bump (m : Meta) : Meta := ⟨⟨(m.Version.Index + 1) % 2 ^ 64⟩⟩

/-- Modelled from the spec: downstream Create for services; stores the submitted spec under a
fresh identifier and returns the identifier. -/
def CreateService (spec : ServiceSpec) (_arg2 : String) (_arg3 : Bool) (st : Store) :
    Except Error ServiceCreateResponse × Store :=
  let id := toString st.nextID
  (.ok ⟨id, []⟩,
    { st with services := st.services ++ [⟨id, ⟨⟨0⟩⟩, spec⟩], nextID := st.nextID + 1 })

/-- Modelled from the spec: downstream Update for services; NotFound when absent, otherwise
replaces the stored spec and bumps the version. -/
def UpdateService (id : String) (_version : Nat) (spec : ServiceSpec) (_arg4 : Payload)
    (_arg5 : Bool) (st : Store) : Except Error ServiceUpdateResponse × Store :=
  if st.services.any (fun o => decide (o.ID = id)) then
    (.ok ⟨[]⟩,
      { st with
        services := st.services.map
          (fun o => if o.ID = id then { o with Meta := bump o.Meta, Spec := spec } else o) })
  else (.error (errNotFound id), st)

/-- Modelled from the spec: downstream Remove for services; NotFound when absent. -/
def RemoveService (id : String) (st : Store) : Option Error × Store :=
  if st.services.any (fun o => decide (o.ID = id)) then
    (none, { st with services := st.services.filter (fun o => decide (o.ID ≠ id)) })
  else (some (errNotFound id), st)

/-- Modelled from the spec: downstream Create for networks. -/
def CreateNetwork (request : NetworkCreateRequest) (st : Store) : Except Error String × Store :=
  let id := toString st.nextID
  (.ok id,
    { st with
      networks := st.networks ++
        [⟨id, request.Name, request.NetworkCreate.Labels, request.NetworkCreate.Settings⟩],
      nextID := st.nextID + 1 })

/-- Modelled from the spec: downstream Remove for networks; NotFound when absent. -/
def RemoveNetwork (id : String) (st : Store) : Option Error × Store :=
  if st.networks.any (fun o => decide (o.ID = id)) then
    (none, { st with networks := st.networks.filter (fun o => decide (o.ID ≠ id)) })
  else (some (errNotFound id), st)

/-- Modelled from the spec: downstream Create for secrets. -/
def CreateSecret (spec : SecretSpec) (st : Store) : Except Error String × Store :=
  let id := toString st.nextID
  (.ok id, { st with secrets := st.secrets ++ [⟨id, ⟨⟨0⟩⟩, spec⟩], nextID := st.nextID + 1 })

/-- Modelled from the spec: downstream Update for secrets; NotFound when absent, otherwise
replaces the stored spec and bumps the version. -/
def UpdateSecret (id : String) (_version : Nat) (spec : SecretSpec) (st : Store) :
    Option Error × Store :=
  if st.secrets.any (fun o => decide (o.ID = id)) then
    (none,
      { st with
        secrets := st.secrets.map
          (fun o => if o.ID = id then { o with Meta := bump o.Meta, Spec := spec } else o) })
  else (some (errNotFound id), st)

/-- Modelled from the spec: downstream Remove for secrets; NotFound when absent. -/
def RemoveSecret (id : String) (st : Store) : Option Error × Store :=
  if st.secrets.any (fun o => decide (o.ID = id)) then
    (none, { st with secrets := st.secrets.filter (fun o => decide (o.ID ≠ id)) })
  else (some (errNotFound id), st)

/-- Modelled from the spec: downstream Create for configs. -/
def CreateConfig (spec : ConfigSpec) (st : Store) : Except Error String × Store :=
  let id := toString st.nextID
  (.ok id, { st with configs := st.configs ++ [⟨id, ⟨⟨0⟩⟩, spec⟩], nextID := st.nextID + 1 })

/-- Modelled from the spec: downstream Update for configs; NotFound when absent, otherwise
replaces the stored spec and bumps the version. -/
def UpdateConfig (id : String) (_version : Nat) (spec : ConfigSpec) (st : Store) :
    Option Error × Store :=
  if st.configs.any (fun o => decide (o.ID = id)) then
    (none,
      { st with
        configs := st.configs.map
          (fun o => if o.ID = id then { o with Meta := bump o.Meta, Spec := spec } else o) })
  else (some (errNotFound id), st)

/-- Modelled from the spec: downstream Remove for configs; NotFound when absent. -/
def RemoveConfig (id : String) (st : Store) : Option Error × Store :=
  if st.configs.any (fun o => decide (o.ID = id)) then
    (none, { st with configs := st.configs.filter (fun o => decide (o.ID ≠ id)) })
  else (some (errNotFound id), st)

/-- Modelled from the spec: the snapshot store operation `UpdateSnapshotStack`: NotFound when
no snapshot is stored under `id`, VersionMismatch when the stored version differs from
`expectedVersion`; on success the version is incremented and the stored value returned. -/
def UpdateSnapshotStack (id : String) (snapshot : SnapshotStack) (expectedVersion : Nat)
    (st : Store) : Except Error SnapshotStack × Store :=
  match mapGet st.snapshots id with
  | none => (.error (errNotFound id), st)
  | some stored =>
    if stored.Meta.Version.Index ≠ expectedVersion then (.error (errVersionMismatch id), st)
    else
      let current : SnapshotStack := { snapshot with Meta := bump stored.Meta }
      (.ok current, { st with snapshots := mapSet st.snapshots id current })

/-- Modelled from the spec: whether a label map meets every label requirement of a list
filter. -/
def matchesFilters (labels : Option (List (String × String))) (filters : Filters) : Bool :=
  filters.all (fun requirement => decide (labelGet labels requirement.1 = some requirement.2))

/-- Modelled from the spec: downstream Get for services, "fetch one by ID; fails NotFound when
absent". -/
def GetService (id : String) (_arg2 : Bool) (st : Store) : Except Error Service × Store :=
  match st.services.find? (fun o => decide (o.ID = id)) with
  | some o => (.ok o, st)
  | none => (.error (errNotFound id), st)

/-- Modelled from the spec: downstream list for services: the stored services that meet the label
filter. -/
def GetServices (filters : Filters) (st : Store) : Except Error (List Service) × Store :=
  (.ok (st.services.filter (fun o => matchesFilters o.Spec.Annotations.Labels filters)), st)

/-- Modelled from the spec: downstream Get for networks, "fetch one by ID; fails NotFound when
absent". -/
def GetNetwork (id : String) (st : Store) : Except Error NetworkResource × Store :=
  match st.networks.find? (fun o => decide (o.ID = id)) with
  | some o => (.ok o, st)
  | none => (.error (errNotFound id), st)

/-- Modelled from the spec: downstream list for networks: the stored networks that meet the label
filter. -/
def GetNetworks (filters : Filters) (st : Store) : Except Error (List NetworkResource) × Store :=
  (.ok (st.networks.filter (fun o => matchesFilters o.Labels filters)), st)

/-- Modelled from the spec: downstream Get for secrets, "fetch one by ID; fails NotFound when
absent". -/
def GetSecret (id : String) (st : Store) : Except Error Secret × Store :=
  match st.secrets.find? (fun o => decide (o.ID = id)) with
  | some o => (.ok o, st)
  | none => (.error (errNotFound id), st)

/-- Modelled from the spec: downstream list for secrets: the stored secrets that meet the label
filter. -/
def GetSecrets (filters : Filters) (st : Store) : Except Error (List Secret) × Store :=
  (.ok (st.secrets.filter (fun o => matchesFilters o.Spec.Annotations.Labels filters)), st)

/-- Modelled from the spec: downstream Get for configs, "fetch one by ID; fails NotFound when
absent". -/
def GetConfig (id : String) (st : Store) : Except Error Config × Store :=
  match st.configs.find? (fun o => decide (o.ID = id)) with
  | some o => (.ok o, st)
  | none => (.error (errNotFound id), st)

/-- Modelled from the spec: downstream list for configs: the stored configs that meet the label
filter. -/
def GetConfigs (filters : Filters) (st : Store) : Except Error (List Config) × Store :=
  (.ok (st.configs.filter (fun o => matchesFilters o.Spec.Annotations.Labels filters)), st)

/-- Modelled from the spec: the keyed store as a `BackendClient`. -/
def client : BackendClient Store where
  CreateService := CreateService
  UpdateService := UpdateService
  RemoveService := RemoveService
  CreateNetwork := CreateNetwork
  RemoveNetwork := RemoveNetwork
  CreateSecret := CreateSecret
  UpdateSecret := UpdateSecret
  RemoveSecret := RemoveSecret
  CreateConfig := CreateConfig
  UpdateConfig := UpdateConfig
  RemoveConfig := RemoveConfig
  UpdateSnapshotStack := UpdateSnapshotStack
  GetService := GetService
  GetServices := GetServices
  GetNetwork := GetNetwork
  GetNetworks := GetNetworks
  GetSecret := GetSecret
  GetSecrets := GetSecrets
  GetConfig := GetConfig
  GetConfigs := GetConfigs

/-- The empty store. -/
def empty : Store := ⟨[], [], [], [], [], 1⟩

/-- The downstream resource of kind `k` the store holds under identifier `id` (the first one
found); `none` when it holds none.  Stacks are not downstream resources. -/
def lookup (st : Store) (k : ReconcileKind) (id : String) : Option Downstream :=
  match k with
  | .ReconcileService =>
    (st.services.find? (fun o => decide (o.ID = id))).map Downstream.service
  | .ReconcileNetwork =>
    (st.networks.find? (fun o => decide (o.ID = id))).map Downstream.network
  | .ReconcileSecret =>
    (st.secrets.find? (fun o => decide (o.ID = id))).map Downstream.secret
  | .ReconcileConfig =>
    (st.configs.find? (fun o => decide (o.ID = id))).map Downstream.config
  | .ReconcileStack => none

/-- The identifier the store hands out next is held by no resource yet. -/
def Fresh (st : Store) : Prop :=
  ∀ k : ReconcileKind, lookup st k (toString st.nextID) = none

end Store

/-! ## Observations on goals and calls -/

/-- The `Config` of a goal is a declared spec of kind `k`: a non-nil pointer to the spec type
the plugin of kind `k` declares (what `addCreateResourceGoal` stores). -/
def ConfigValue.isDeclaredSpec (k : ReconcileKind) : ConfigValue → Bool
  | .servicePtr (some _) => decide (k = ReconcileKind.ReconcileService)
  | .networkPtr (some _) => decide (k = ReconcileKind.ReconcileNetwork)
  | .secretPtr (some _) => decide (k = ReconcileKind.ReconcileSecret)
  | .configPtr (some _) => decide (k = ReconcileKind.ReconcileConfig)
  | _ => false

/-- The resource kind a backend create call creates; `none` for every other call. -/
def BackendCall.createKind : BackendCall → Option ReconcileKind
  | .CreateService _ _ _ => some ReconcileKind.ReconcileService
  | .CreateNetwork _ => some ReconcileKind.ReconcileNetwork
  | .CreateSecret _ => some ReconcileKind.ReconcileSecret
  | .CreateConfig _ => some ReconcileKind.ReconcileConfig
  | _ => none

/-- The label map of the spec a backend create call submits; nil for every other call. -/
def BackendCall.submittedLabels : BackendCall → Option (List (String × String))
  | .CreateService spec _ _ => spec.Annotations.Labels
  | .CreateNetwork request => request.NetworkCreate.Labels
  | .CreateSecret spec => spec.Annotations.Labels
  | .CreateConfig spec => spec.Annotations.Labels
  | _ => none

/-- The list of a snapshot that belongs to kind `k`; a stack has none. -/
def SnapshotStack.kindList (snapshot : SnapshotStack) : ReconcileKind → List SnapshotResource
  | .ReconcileService => snapshot.Services
  | .ReconcileNetwork => snapshot.Networks
  | .ReconcileSecret => snapshot.Secrets
  | .ReconcileConfig => snapshot.Configs
  | .ReconcileStack => []

/-- The snapshot with the list of kind `k` replaced by `l`. -/
def SnapshotStack.setKindList (snapshot : SnapshotStack) (k : ReconcileKind)
    (l : List SnapshotResource) : SnapshotStack :=
  match k with
  | .ReconcileService => { snapshot with Services := l }
  | .ReconcileNetwork => { snapshot with Networks := l }
  | .ReconcileSecret => { snapshot with Secrets := l }
  | .ReconcileConfig => { snapshot with Configs := l }
  | .ReconcileStack => snapshot

/-- The kind of an active resource. -/
def ActiveResource.kind : ActiveResource → ReconcileKind
  | .service _ => ReconcileKind.ReconcileService
  | .network _ => ReconcileKind.ReconcileNetwork
  | .secret _ => ReconcileKind.ReconcileSecret
  | .config _ => ReconcileKind.ReconcileConfig

/-- One goal registration: `addCreateResourceGoal` or `addRemoveResourceGoal`. -/
inductive GoalOp where
  | create (specName : String)
  | remove (activeResource : ActiveResource)
deriving DecidableEq, Repr

/-- The registration is made as the kernel makes it: a create goal for a declared name, a
remove goal for an active resource of the plugin's kind. -/
def GoalOp.admissible (p : AlgorithmPlugin) : GoalOp → Bool
  | .create specName => decide (specName ∈ p.getSpecifiedResourceNames)
  | .remove activeResource => decide (activeResource.kind = p.GetKind)

/-- Run one registration on the plugin; `none` when it panics. -/
def AlgorithmPlugin.applyOp (p : AlgorithmPlugin) : GoalOp → Option AlgorithmPlugin
  | .create specName => (p.addCreateResourceGoal specName).map (fun r => r.2)
  | .remove activeResource => (p.addRemoveResourceGoal activeResource).map (fun r => r.2)

/-- Run a sequence of registrations, first to last; `none` when one of them panics. -/
def AlgorithmPlugin.applyOps (p : AlgorithmPlugin) : List GoalOp → Option AlgorithmPlugin
  | [] => some p
  | op :: ops =>
    match p.applyOp op with
    | none => none
    | some p1 => p1.applyOps ops

/-- The backend remove method a plugin's `DeleteResource` addresses. -/
def AlgorithmPlugin.backendRemove {σ : Type} (cli : BackendClient σ) :
    AlgorithmPlugin → String → σ → Option Error × σ
  | .service _ => cli.RemoveService
  | .network _ => cli.RemoveNetwork
  | .secret _ => cli.RemoveSecret
  | .config _ => cli.RemoveConfig

/-- The backend remove call a plugin's `DeleteResource` issues for identifier `id`. -/
def AlgorithmPlugin.removeCall : AlgorithmPlugin → String → BackendCall
  | .service _, id => BackendCall.RemoveService id
  | .network _, id => BackendCall.RemoveNetwork id
  | .secret _, id => BackendCall.RemoveSecret id
  | .config _, id => BackendCall.RemoveConfig id

/-- The backend's answer to a create call, as the identifier it returns or its error, with the
backend state it leaves; `none` for a call that is not a create call. -/
def BackendClient.createResult {σ : Type} (cli : BackendClient σ) (c : BackendCall) (st : σ) :
    Option (Except Error String × σ) :=
  match c with
  | .CreateService spec arg2 arg3 =>
    match cli.CreateService spec arg2 arg3 st with
    | (.ok resp, st1) => some (.ok resp.ID, st1)
    | (.error err, st1) => some (.error err, st1)
  | .CreateNetwork request => some (cli.CreateNetwork request st)
  | .CreateSecret spec => some (cli.CreateSecret spec st)
  | .CreateConfig spec => some (cli.CreateConfig spec st)
  | _ => none

/-- The goal map is well keyed: no key occurs twice (it is a map) and every goal is stored
under a key equal to its own `Name`. -/
def WellKeyed (goals : List (String × ReconcileResource)) : Prop :=
  (goals.map Prod.fst).Nodup ∧ ∀ e ∈ goals, e.2.Name = e.1

/-- The backend lookup a plugin's `GetActiveResource` addresses, with the found object as a
`Downstream` value. -/
def AlgorithmPlugin.backendGet {σ : Type} (cli : BackendClient σ) :
    AlgorithmPlugin → String → σ → Except Error Downstream × σ
  | .service _, id, st =>
    match cli.GetService id DefaultGetServiceArg2 st with
    | (.ok o, st1) => (.ok (Downstream.service o), st1)
    | (.error err, st1) => (.error err, st1)
  | .network _, id, st =>
    match cli.GetNetwork id st with
    | (.ok o, st1) => (.ok (Downstream.network o), st1)
    | (.error err, st1) => (.error err, st1)
  | .secret _, id, st =>
    match cli.GetSecret id st with
    | (.ok o, st1) => (.ok (Downstream.secret o), st1)
    | (.error err, st1) => (.error err, st1)
  | .config _, id, st =>
    match cli.GetConfig id st with
    | (.ok o, st1) => (.ok (Downstream.config o), st1)
    | (.error err, st1) => (.error err, st1)

/-- The backend lookup call a plugin's `GetActiveResource` issues for identifier `id`. -/
def AlgorithmPlugin.getCall : AlgorithmPlugin → String → BackendCall
  | .service _, id => BackendCall.GetService id DefaultGetServiceArg2
  | .network _, id => BackendCall.GetNetwork id
  | .secret _, id => BackendCall.GetSecret id
  | .config _, id => BackendCall.GetConfig id

/-- The active resource over a downstream object, by the `wrap` method of its kind. -/
def Downstream.wrap : Downstream → ActiveResource
  | .service o => InitializationService.wrapService o
  | .network o => InitializationNetwork.wrapNetwork o
  | .secret o => InitializationSecret.wrapSecret o
  | .config o => InitializationConfig.wrapConfig o

/-- The zero-valued active resource of kind `k` that `GetActiveResource` returns next to a
lookup error (a stack has no wrapper; the service one stands in). -/
def ActiveResource.zeroOf : ReconcileKind → ActiveResource
  | .ReconcileNetwork => ActiveResource.network activeNetwork.zero
  | .ReconcileSecret => ActiveResource.secret activeSecret.zero
  | .ReconcileConfig => ActiveResource.config activeConfig.zero
  | _ => ActiveResource.service activeService.zero

/-- The name of the spec a goal's `Config` points to; `none` when the `Config` is not a non-nil
pointer to a spec. -/
def ConfigValue.specName : ConfigValue → Option String
  | .servicePtr (some spec) => some spec.Annotations.Name
  | .networkPtr (some request) => some request.Name
  | .secretPtr (some spec) => some spec.Annotations.Name
  | .configPtr (some spec) => some spec.Annotations.Name
  | _ => none

/-- The backend honours label filters: every object a list call returns meets every label
requirement of the filter it was given. -/
def BackendClient.HonoursLabelFilters {σ : Type} (cli : BackendClient σ) : Prop :=
  ∀ (filters : Filters) (st : σ),
    (∀ l st1, cli.GetServices filters st = (.ok l, st1) →
      ∀ o ∈ l, Store.matchesFilters o.Spec.Annotations.Labels filters = true) ∧
    (∀ l st1, cli.GetNetworks filters st = (.ok l, st1) →
      ∀ o ∈ l, Store.matchesFilters o.Labels filters = true) ∧
    (∀ l st1, cli.GetSecrets filters st = (.ok l, st1) →
      ∀ o ∈ l, Store.matchesFilters o.Spec.Annotations.Labels filters = true) ∧
    (∀ l st1, cli.GetConfigs filters st = (.ok l, st1) →
      ∀ o ∈ l, Store.matchesFilters o.Spec.Annotations.Labels filters = true)

/-- The backend stores the submitted spec: a create call issued in state `st` that succeeds is
followed by a lookup of the returned identifier that succeeds and returns an object with that
identifier and the submitted name and label map (for services, secrets and configs the
submitted spec itself). -/
def BackendClient.StoresSubmittedAt {σ : Type} (cli : BackendClient σ) (st : σ) : Prop :=
  (∀ spec arg2 arg3 resp st1, cli.CreateService spec arg2 arg3 st = (.ok resp, st1) →
    ∀ arg, ∃ o st2, cli.GetService resp.ID arg st1 = (.ok o, st2) ∧ o.ID = resp.ID ∧
      o.Spec = spec) ∧
  (∀ request id st1, cli.CreateNetwork request st = (.ok id, st1) →
    ∃ o st2, cli.GetNetwork id st1 = (.ok o, st2) ∧ o.ID = id ∧ o.Name = request.Name ∧
      o.Labels = request.NetworkCreate.Labels) ∧
  (∀ spec id st1, cli.CreateSecret spec st = (.ok id, st1) →
    ∃ o st2, cli.GetSecret id st1 = (.ok o, st2) ∧ o.ID = id ∧ o.Spec = spec) ∧
  (∀ spec id st1, cli.CreateConfig spec st = (.ok id, st1) →
    ∃ o st2, cli.GetConfig id st1 = (.ok o, st2) ∧ o.ID = id ∧ o.Spec = spec)

/-- The backend removes what it is asked to remove: when a remove call issued in state `st`
succeeds or answers NotFound, a lookup of the same identifier and kind in the state the call
leaves fails with a NotFound error. -/
def BackendClient.RemovesAt {σ : Type} (cli : BackendClient σ) (st : σ) : Prop :=
  ∀ (p : AlgorithmPlugin) (id : String),
    (∀ err, (p.backendRemove cli id st).1 = some err → IsNotFound err = true) →
    ∃ err, (p.backendGet cli id (p.backendRemove cli id st).2).1 = Except.error err ∧
      IsNotFound err = true

/-! ## Dispatcher -/

/-- Modelled from the spec: an event of the stream the dispatcher consumes, with its type (one
of the five kinds), its action and the actor's ID.  The dispatcher source is outside the given
sources; only its test is among them. -/
structure Event where
  EventType : ReconcileKind
  Action : String
  ActorID : String
deriving DecidableEq, Repr

/-- Modelled from the spec: the identity of the request an event asks for, the pair of kind and
ID; the action is not part of it. -/
def Event.key (e : Event) : ReconcileKind × String := (e.EventType, e.ActorID)

/-- Modelled from the spec: the constructor `NewRequest(kind, id)` of the dispatcher package, a
reconcile request that carries the kind and the ID and nothing else. -/
def NewRequest (kind : ReconcileKind) (id : String) : ReconcileResource :=
  { ID := id, Meta := ⟨⟨0⟩⟩, Name := "", Mark := ReconcileState.ReconcileNone, Kind := kind,
    Config := ConfigValue.nil }

/-- Modelled from the spec: the kind priority order Stack, Network, Secret, Config, Service. -/
def kindPriority : ReconcileKind → Nat
  | .ReconcileStack => 0
  | .ReconcileNetwork => 1
  | .ReconcileSecret => 2
  | .ReconcileConfig => 3
  | .ReconcileService => 4

/-- The interface `Reconciler` the dispatcher drives: `Reconcile(request)` returns an error and
moves the reconciler's state `ρ`. -/
structure Reconciler (ρ : Type) where
  Reconcile : ReconcileResource → ρ → Option Error × ρ

namespace dispatcher

/-- Modelled from the spec: coalescing of one event into the pending requests of the batch;
an event whose (kind, id) is already pending adds nothing. -/
def enqueue (pending : List (ReconcileKind × String)) (e : Event) :
    List (ReconcileKind × String) :=
  if e.key ∈ pending then pending else pending ++ [e.key]

/-- Modelled from the spec: the pending requests of a batch of drained events, duplicates on
(kind, id) collapsed. -/
def coalesce (batch : List Event) : List (ReconcileKind × String) :=
  batch.foldl enqueue []

/-- Modelled from the spec: the pending requests of one kind. -/
def ofKind (pending : List (ReconcileKind × String)) (kind : ReconcileKind) :
    List (ReconcileKind × String) :=
  pending.filter (fun request => decide (request.1 = kind))

/-- Modelled from the spec: the requests of a batch in the order they are issued: all stacks,
then all networks, then all secrets, then all configs, then all services. -/
def requests (batch : List Event) : List ReconcileResource :=
  (ofKind (coalesce batch) ReconcileKind.ReconcileStack ++
    ofKind (coalesce batch) ReconcileKind.ReconcileNetwork ++
    ofKind (coalesce batch) ReconcileKind.ReconcileSecret ++
    ofKind (coalesce batch) ReconcileKind.ReconcileConfig ++
    ofKind (coalesce batch) ReconcileKind.ReconcileService).map
    (fun request => NewRequest request.1 request.2)

/-- The reconciler's state and the requests `Reconcile` was invoked with so far, in order. -/
structure Run (ρ : Type) where
  state : ρ
  invoked : List ReconcileResource

/-- Modelled from the spec: one batch: `Reconcile` is invoked on each request of the batch in
order; an error it returns is logged and the request dropped, the batch goes on. -/
def processBatch {ρ : Type} (r : Reconciler ρ) (batch : List Event) (run : Run ρ) : Run ρ :=
  (requests batch).foldl
    (fun acc request =>
      { state := (r.Reconcile request acc.state).2, invoked := acc.invoked ++ [request] })
    run

/-- Modelled from the spec: `HandleEvents(ch)`: the events of the channel arrive as a sequence
of drained batches; each batch is processed in turn, and when the channel is closed the call
returns with no error. -/
def HandleEvents {ρ : Type} (r : Reconciler ρ) (batches : List (List Event)) (run : Run ρ) :
    Option Error × Run ρ :=
  (none, batches.foldl (fun acc batch => processBatch r batch acc) run)

end dispatcher

/-! ## Backend shim (`backend_api_client_shim.go`) -/

/-- The `events.Message` the shim writes: type, action and the actor's ID. -/
structure Message where
  EventType : String
  Action : String
  ActorID : String
deriving DecidableEq, Repr

/-- The response `types.StackCreateResponse`. -/
structure StackCreateResponse where
  ID : String
deriving DecidableEq, Repr

/-- The stack operations of the embedded interface `StacksBackend` that the shim intercepts, as
state-passing functions over a backend state `β`. -/
structure StacksBackend (β : Type) where
  CreateStack : StackSpec → β → (StackCreateResponse × Option Error) × β
  UpdateStack : String → StackSpec → Nat → β → Option Error × β
  DeleteStack : String → β → Option Error × β

/-- The state of a `BackendAPIClientShim`: the state of its stacks backend and the events whose
send on `stackEvents` has been launched (each send runs in a goroutine of its own). -/
structure BackendAPIClientShim (β : Type) where
  backend : β
  stackEvents : List Message

namespace BackendAPIClientShim

variable {β : Type}

/-- The method `CreateStack`: on a backend error it returns at once with the wrapped error,
otherwise it launches the send of a `create` event for the new stack. -/
def CreateStack (b : StacksBackend β) (c : BackendAPIClientShim β) (create : StackSpec) :
    (StackCreateResponse × Option Error) × BackendAPIClientShim β :=
  match b.CreateStack create c.backend with
  | ((response, some err), backend) =>
    ((response, some ⟨ErrorKind.Other, "unable to create stack: " ++ err.msg⟩),
      { c with backend := backend })
  | ((response, none), backend) =>
    ((response, none),
      { backend := backend,
        stackEvents := c.stackEvents ++ [⟨"stack", "create", response.ID⟩] })

/-- The method `UpdateStack`: it launches the send of an `update` event and returns the
backend's error. -/
def UpdateStack (b : StacksBackend β) (c : BackendAPIClientShim β) (id : String)
    (spec : StackSpec) (version : Nat) : Option Error × BackendAPIClientShim β :=
  match b.UpdateStack id spec version c.backend with
  | (err, backend) =>
    (err, { backend := backend, stackEvents := c.stackEvents ++ [⟨"stack", "update", id⟩] })

/-- The method `DeleteStack`: it launches the send of a `delete` event and returns the
backend's error. -/
def DeleteStack (b : StacksBackend β) (c : BackendAPIClientShim β) (id : String) :
    Option Error × BackendAPIClientShim β :=
  match b.DeleteStack id c.backend with
  | (err, backend) =>
    (err, { backend := backend, stackEvents := c.stackEvents ++ [⟨"stack", "delete", id⟩] })

end BackendAPIClientShim

/-! ## Fake stack store (`fake_store.go`) -/

/-- Modelled from the spec: the record `types.Stack`, reduced to its ID, metadata and spec
(declared outside the given sources). -/
structure Stack where
  ID : String
  Meta : Meta
  Spec : StackSpec
deriving DecidableEq, Repr

/-- Modelled from the spec: the record `SwarmStackSpec`, an opaque spec (declared outside the
given sources). -/
abbrev SwarmStackSpec := Payload

/-- Modelled from the spec: the record `SwarmStack`, reduced to its ID, metadata and spec
(declared outside the given sources). -/
structure SwarmStack where
  ID : String
  Meta : Meta
  Spec : SwarmStackSpec
deriving DecidableEq, Repr

/-- The record `stackPair`: a stack and its swarm stack. -/
structure stackPair where
  Stack : Stack
  SwarmStack : SwarmStack
deriving DecidableEq, Repr

/-- The zero value `stackPair` returned next to the not-found error. -/
def stackPair.zero : stackPair :=
  ⟨⟨"", ⟨⟨0⟩⟩, ⟨[], [], [], []⟩⟩, ⟨"", ⟨⟨0⟩⟩, ""⟩⟩

/-- The record `FakeStackStore` (its lock is not modelled): the map of stored pairs (the field
`stacks` of the source, a reserved word here) and the counter for the next ID, a Go `int`
taken as 64 bits wide. -/
structure FakeStackStore where
  stackPairs : List (String × stackPair)
  curID : Int
deriving DecidableEq, Repr

/-- The constructor `NewFakeStackStore`: an empty map, the counter at 1. -/
def NewFakeStackStore : FakeStackStore := ⟨[], 1⟩

/-- The package variable `errNotFound`. -/
def errNotFound : Error := ⟨ErrorKind.NotFound, "stack not found"⟩

/-- The predicate `IsErrNotFound`: the error is `errNotFound`. -/
def IsErrNotFound (err : Error) : Bool := decide (err = errNotFound)

/-- A Go `int` result wrapped to 64 bits, two's complement. -/
def wrapInt (x : Int) : Int := (x + 2 ^ 63) % 2 ^ 64 - 2 ^ 63

/-- Removal `delete(m, k)` on a Go map. -/
def mapDelete {β : Type} (m : List (String × β)) (k : String) : List (String × β) :=
  m.filter (fun entry => decide (entry.1 ≠ k))

namespace FakeStackStore

/-- The method `AddStack`: the returned ID and error, and the store afterwards. -/
def AddStack (s : FakeStackStore) (stack : Stack) (swarmStack : SwarmStack) :
    (String × Option Error) × FakeStackStore :=
  let stack : Stack := { stack with ID := toString s.curID }
  let swarmStack : SwarmStack := { swarmStack with ID := stack.ID }
  ((stack.ID, none),
    { stackPairs := mapSet s.stackPairs stack.ID ⟨stack, swarmStack⟩, curID := wrapInt (s.curID + 1) })

/-- The method `getStack`. -/
def getStack (s : FakeStackStore) (id : String) : stackPair × Option Error :=
  match mapGet s.stackPairs id with
  | none => (stackPair.zero, some errNotFound)
  | some stack => (stack, none)

/-- The method `UpdateStack`: the returned error and the store afterwards. -/
def UpdateStack (s : FakeStackStore) (id : String) (spec : StackSpec)
    (swarmSpec : SwarmStackSpec) : Option Error × FakeStackStore :=
  match s.getStack id with
  | (_, some _) => (some errNotFound, s)
  | (existingStack, none) =>
    let existingStack : stackPair :=
      { Stack := { existingStack.Stack with Spec := spec },
        SwarmStack := { existingStack.SwarmStack with Spec := swarmSpec } }
    (none, { s with stackPairs := mapSet s.stackPairs id existingStack })

/-- The method `DeleteStack`: the returned error and the store afterwards. -/
def DeleteStack (s : FakeStackStore) (id : String) : Option Error × FakeStackStore :=
  (none, { s with stackPairs := mapDelete s.stackPairs id })

/-- The method `GetStack`. -/
def GetStack (s : FakeStackStore) (name : String) : Stack × Option Error :=
  ((s.getStack name).1.Stack, (s.getStack name).2)

/-- The method `GetSwarmStack`. -/
def GetSwarmStack (s : FakeStackStore) (name : String) : SwarmStack × Option Error :=
  ((s.getStack name).1.SwarmStack, (s.getStack name).2)

/-- The method `ListStacks`. -/
def ListStacks (s : FakeStackStore) : List Stack × Option Error :=
  (s.stackPairs.map (fun entry => entry.2.Stack), none)

/-- The method `ListSwarmStacks`. -/
def ListSwarmStacks (s : FakeStackStore) : List SwarmStack × Option Error :=
  (s.stackPairs.map (fun entry => entry.2.SwarmStack), none)

end FakeStackStore

/-- One mutating call on a `FakeStackStore`. -/
inductive StoreOp where
  | AddStack (stack : Stack) (swarmStack : SwarmStack)
  | UpdateStack (id : String) (spec : StackSpec) (swarmSpec : SwarmStackSpec)
  | DeleteStack (id : String)
deriving DecidableEq, Repr

/-- The call is an `AddStack`. -/
def StoreOp.isAdd : StoreOp → Bool
  | .AddStack _ _ => true
  | _ => false

/-- Run one call: the IDs `AddStack` returned in it (one or none) and the store afterwards. -/
def FakeStackStore.step (s : FakeStackStore) : StoreOp → List String × FakeStackStore
  | .AddStack stack swarmStack => ([(s.AddStack stack swarmStack).1.1], (s.AddStack stack swarmStack).2)
  | .UpdateStack id spec swarmSpec => ([], (s.UpdateStack id spec swarmSpec).2)
  | .DeleteStack id => ([], (s.DeleteStack id).2)

/-- Run a sequence of calls, first to last: the IDs returned by its `AddStack` calls, in order,
and the store afterwards. -/
def FakeStackStore.run (s : FakeStackStore) : List StoreOp → List String × FakeStackStore
  | [] => ([], s)
  | op :: ops => ((s.step op).1 ++ ((s.step op).2.run ops).1, ((s.step op).2.run ops).2)

/-- The value of a decimal digit character. -/
def digitValue (c : Char) : Nat := c.toNat - 48

/-- The number a list of decimal digits renders, most significant digit first. -/
def decimalValue (ds : List Char) : Nat :=
  ds.foldl (fun acc c => acc * 10 + digitValue c) 0

/-- The store is a map (no key occurs twice) in which every pair is stored under its own ID:
what `NewFakeStackStore` makes and every store method keeps. -/
def FakeStackStore.Keyed (s : FakeStackStore) : Prop :=
  (s.stackPairs.map Prod.fst).Nodup ∧
    ∀ e ∈ s.stackPairs, e.2.Stack.ID = e.1 ∧ e.2.SwarmStack.ID = e.1

/-! ## Sample values -/

/-- A declared service `web` whose label map already carries a stack label of another stack. -/
def sampleServiceSpec : ServiceSpec :=
  ⟨⟨"web", some [(StackLabel, "other")]⟩, "task", "replicated", none, none, none, none⟩

/-- A stack spec declaring the service `web` only. -/
def sampleStackSpec : StackSpec := ⟨[sampleServiceSpec], [], [], []⟩

/-- A fresh service plugin bound to stack `s1`. -/
def samplePlugin : AlgorithmPlugin := .service ⟨none, "s1", sampleStackSpec, []⟩

/-- A create goal for the declared service `web`. -/
def sampleGoal : ReconcileResource :=
  { ID := "", Meta := ⟨⟨0⟩⟩, Name := "web", Mark := ReconcileState.ReconcileNone,
    Kind := ReconcileKind.ReconcileService,
    Config := ConfigValue.servicePtr (some sampleServiceSpec) }

/-- The empty store with no call issued yet. -/
def sampleWorld : World Store := ⟨Store.empty, []⟩

/-- A downstream service with identifier `7`, labelled with stack `other`. -/
def foreignService : Service := ⟨"7", ⟨⟨3⟩⟩, sampleServiceSpec⟩

/-- A store holding `foreignService` only. -/
def foreignWorld : World Store := ⟨⟨[foreignService], [], [], [], [], 8⟩, []⟩

/-- A goal that carries the identifier of `foreignService`. -/
def foreignGoal : ReconcileResource := { sampleGoal with ID := "7" }

/-- A store holding `foreignService` and a second service with identifier `9`. -/
def mixedWorld : World Store :=
  ⟨⟨[foreignService, ⟨"9", ⟨⟨0⟩⟩, sampleServiceSpec⟩], [], [], [], [], 10⟩, []⟩

/-- A stored snapshot of stack `s1` at version 4 with no resources recorded. -/
def samplePrevious : SnapshotStack :=
  { ID := "s1", Meta := ⟨⟨4⟩⟩, Name := "stack", CurrentSpec := sampleStackSpec,
    PreviousSpec := ⟨[], [], [], []⟩, Services := [], Networks := [], Secrets := [],
    Configs := [] }

/-- An active service named `db` with identifier `3`. -/
def sampleActive : ActiveResource :=
  ActiveResource.service
    { ID := "3", Meta := ⟨⟨1⟩⟩, Name := "db", stackID := "s1",
      service := ⟨"3", ⟨⟨1⟩⟩, { sampleServiceSpec with Annotations := ⟨"db", none⟩ }⟩ }

/-- A registration sequence: a create goal, a remove goal, and the same two once more. -/
def sampleOps : List GoalOp :=
  [GoalOp.create "web", GoalOp.remove sampleActive, GoalOp.create "web",
    GoalOp.remove sampleActive]

/-- The service plugin bound to `s1` after `addCreateResourceGoal` for `web`. -/
def samplePluginWithGoal : AlgorithmPlugin :=
  .service ⟨none, "s1", sampleStackSpec, [("web", sampleGoal)]⟩

/-- A fresh service plugin bound to another stack, `foobar`. -/
def otherPlugin : AlgorithmPlugin := .service ⟨none, "foobar", sampleStackSpec, []⟩

/-- The sample service spec once labelled for stack `s1`. -/
def sampleLabelled : ServiceSpec :=
  { sampleServiceSpec with Annotations := ⟨"web", some [(StackLabel, "s1")]⟩ }

/-- What `CreateResource` of `samplePlugin` leaves on the sample goal and the empty store. -/
def sampleCreated : Outcome Store :=
  ⟨none,
    { sampleGoal with ID := "1", Config := ConfigValue.servicePtr (some sampleLabelled) },
    ⟨⟨[⟨"1", ⟨⟨0⟩⟩, sampleLabelled⟩], [], [], [], [], 2⟩,
      [BackendCall.CreateService sampleLabelled "" false]⟩⟩

/-- A store holding three services: `1` labelled for stack `s1`, `7` labelled for stack
`other`, and `9` without labels. -/
def labelledWorld : World Store :=
  ⟨⟨[⟨"1", ⟨⟨0⟩⟩, sampleLabelled⟩, foreignService,
      ⟨"9", ⟨⟨0⟩⟩, { sampleServiceSpec with Annotations := ⟨"db", none⟩ }⟩],
    [], [], [], [], 10⟩, []⟩

/-- A goal named `x` whose Config points to the declared spec named `web`. -/
def misnamedGoal : ReconcileResource := { sampleGoal with Name := "x" }

/-- What `CreateResource` of `samplePlugin` leaves on `misnamedGoal` and the empty store. -/
def misnamedCreated : Outcome Store :=
  { sampleCreated with resource := { sampleCreated.resource with Name := "x" } }

/-- A delete-side goal for the service `db` with identifier `3`. -/
def dbGoal : ReconcileResource :=
  { ID := "3", Meta := ⟨⟨1⟩⟩, Name := "db", Mark := ReconcileState.ReconcileNone,
    Kind := ReconcileKind.ReconcileService,
    Config := ConfigValue.service { sampleServiceSpec with Annotations := ⟨"db", none⟩ } }

/-- The service plugin bound to `s1` holding a goal with identifier `7` under `web` and
`dbGoal` under `db`. -/
def registeredPlugin : AlgorithmPlugin :=
  .service ⟨none, "s1", sampleStackSpec, [("web", foreignGoal), ("db", dbGoal)]⟩

/-- A service `web` declared without labels. -/
def plainServiceSpec : ServiceSpec :=
  { sampleServiceSpec with Annotations := ⟨"web", none⟩ }

/-- A fresh service plugin bound to stack `s1` whose stack spec declares `plainServiceSpec`. -/
def plainPlugin : AlgorithmPlugin := .service ⟨none, "s1", ⟨[plainServiceSpec], [], [], []⟩, []⟩

/-- An update goal for the downstream service `1` whose Config is the declared spec `web`. -/
def plainGoal : ReconcileResource :=
  { ID := "1", Meta := ⟨⟨0⟩⟩, Name := "web", Mark := ReconcileState.ReconcileUpdate,
    Kind := ReconcileKind.ReconcileService,
    Config := ConfigValue.servicePtr (some plainServiceSpec) }

/-- A stack spec declaring two services, a secret, two configs and three networks. -/
def fullStackSpec : StackSpec :=
  ⟨[sampleServiceSpec, plainServiceSpec],
    [⟨⟨"settings", none⟩, none, none⟩, ⟨⟨"motd", none⟩, some [104, 105], none⟩],
    [⟨⟨"token", none⟩, some [1, 2, 3], none, none⟩],
    [("front", ⟨none, "overlay"⟩), ("back", ⟨none, "overlay"⟩), ("mgmt", ⟨none, "bridge"⟩)]⟩

/-- The service plugin state of stack `s1` over `fullStackSpec`. -/
def sampleServicePlugin : algorithmService := ⟨none, "s1", fullStackSpec, []⟩

/-- The network plugin state of stack `s1` over `fullStackSpec`. -/
def sampleNetworkPlugin : algorithmNetwork := ⟨none, "s1", fullStackSpec, []⟩

/-- The secret plugin state of stack `s1` over `fullStackSpec`. -/
def sampleSecretPlugin : algorithmSecret := ⟨none, "s1", fullStackSpec, []⟩

/-- The config plugin state of stack `s1` over `fullStackSpec`. -/
def sampleConfigPlugin : algorithmConfig := ⟨none, "s1", fullStackSpec, []⟩

/-- A stacks backend that knows no stack: creation is refused, update and deletion answer
`errNotFound`, and its state never changes. -/
def rejectingBackend : StacksBackend Unit :=
  { CreateStack := fun _ st => ((⟨""⟩, some ⟨ErrorKind.Other, "store unavailable"⟩), st),
    UpdateStack := fun _ _ _ st => (some errNotFound, st),
    DeleteStack := fun _ st => (some errNotFound, st) }

/-- A shim over `rejectingBackend` that has launched no event yet. -/
def rejectingShim : BackendAPIClientShim Unit := ⟨(), []⟩

/-- A sample stack and swarm stack handed to `AddStack`. -/
def sampleStack : Stack := ⟨"", ⟨⟨0⟩⟩, ⟨[], [], [], []⟩⟩

/-- A sample swarm stack handed to `AddStack`. -/
def sampleSwarmStack : SwarmStack := ⟨"", ⟨⟨0⟩⟩, "swarm"⟩

/-- A sample sequence of store calls: two additions, the deletion of the first stack, an update
of the second, and a third addition. -/
def sampleStoreOps : List StoreOp :=
  [StoreOp.AddStack sampleStack sampleSwarmStack,
   StoreOp.AddStack sampleStack sampleSwarmStack,
   StoreOp.DeleteStack "1",
   StoreOp.UpdateStack "2" ⟨[], [], [], []⟩ "swarm2",
   StoreOp.AddStack sampleStack sampleSwarmStack]

/-- The store after the sample sequence of calls: it holds the stacks `"2"` and `"3"`. -/
def sampleStore : FakeStackStore := (NewFakeStackStore.run sampleStoreOps).2

/-- A sample stack spec handed to `UpdateStack`. -/
def updatedStackSpec : StackSpec := ⟨[sampleServiceSpec], [], [], []⟩

/-- A client over the keyed store whose remove calls are refused with a transient error and
change nothing; every other call is the store's. -/
def refusingClient : BackendClient Store :=
  { Store.client with
    RemoveService := fun _ st => (some ⟨ErrorKind.Transient, "backend unavailable"⟩, st),
    RemoveNetwork := fun _ st => (some ⟨ErrorKind.Transient, "backend unavailable"⟩, st),
    RemoveSecret := fun _ st => (some ⟨ErrorKind.Transient, "backend unavailable"⟩, st),
    RemoveConfig := fun _ st => (some ⟨ErrorKind.Transient, "backend unavailable"⟩, st) }

/-! ## Lemmas on Go maps -/

theorem mapGet_mapSet_self {β : Type} (m : List (String × β)) (k : String) (v : β) :
    mapGet (mapSet m k v) k = some v := by
  induction m with
  | nil => simp [mapSet, mapGet]
  | cons e rest ih =>
    obtain ⟨k1, v1⟩ := e
    by_cases h : k1 = k
    · simp [mapSet, mapGet, h]
    · simp [mapSet, mapGet, h, ih]

theorem mapGet_mapSet_other {β : Type} (m : List (String × β)) (k k2 : String) (v : β)
    (h : k2 ≠ k) : mapGet (mapSet m k v) k2 = mapGet m k2 := by
  induction m with
  | nil => simp [mapSet, mapGet, Ne.symm h]
  | cons e rest ih =>
    obtain ⟨k1, v1⟩ := e
    by_cases h1 : k1 = k
    · subst h1
      simp [mapSet, mapGet, Ne.symm h]
    · simp [mapSet, mapGet, h1, ih]

/-! ## Lemmas on keyed collections -/

theorem find_filter_ne {α : Type} (key : α → String) (l : List α) (id id0 : String)
    (h : id ≠ id0) :
    (l.filter (fun o => decide (key o ≠ id0))).find? (fun o => decide (key o = id))
      = l.find? (fun o => decide (key o = id)) := by
  induction l with
  | nil => rfl
  | cons o rest ih =>
    by_cases h0 : key o = id0
    · have h1 : ¬ key o = id := fun e => h (e.symm.trans h0)
      rw [List.filter_cons_of_neg (by simpa using h0), List.find?_cons_of_neg _ (by simpa using h1)]
      exact ih
    · rw [List.filter_cons_of_pos (by simpa using h0)]
      by_cases h1 : key o = id
      · rw [List.find?_cons_of_pos _ (by simpa using h1), List.find?_cons_of_pos _ (by simpa using h1)]
      · rw [List.find?_cons_of_neg _ (by simpa using h1), List.find?_cons_of_neg _ (by simpa using h1)]
        exact ih

theorem find_filter_self {α : Type} (key : α → String) (l : List α) (id0 : String) :
    (l.filter (fun o => decide (key o ≠ id0))).find? (fun o => decide (key o = id0)) = none := by
  induction l with
  | nil => rfl
  | cons o rest ih =>
    by_cases h0 : key o = id0
    · rw [List.filter_cons_of_neg (by simpa using h0)]; exact ih
    · rw [List.filter_cons_of_pos (by simpa using h0), List.find?_cons_of_neg _ (by simpa using h0)]
      exact ih

theorem find_map_update {α : Type} (key : α → String) (f : α → α) (hf : ∀ o, key (f o) = key o)
    (l : List α) (id id0 : String) :
    (l.map (fun o => if key o = id0 then f o else o)).find? (fun o => decide (key o = id))
      = (l.find? (fun o => decide (key o = id))).map (fun o => if key o = id0 then f o else o) := by
  induction l with
  | nil => rfl
  | cons o rest ih =>
    rw [List.map_cons]
    have hk : key (if key o = id0 then f o else o) = key o := by
      split
      · exact hf o
      · rfl
    by_cases h1 : key o = id
    · rw [List.find?_cons_of_pos _ (by simpa [hk] using h1), List.find?_cons_of_pos _ (by simpa using h1)]
      rfl
    · rw [List.find?_cons_of_neg _ (by simpa [hk] using h1), List.find?_cons_of_neg _ (by simpa using h1)]
      exact ih

theorem find_map_ne {α : Type} (key : α → String) (f : α → α) (hf : ∀ o, key (f o) = key o)
    (l : List α) (id id0 : String) (h : id ≠ id0) :
    (l.map (fun o => if key o = id0 then f o else o)).find? (fun o => decide (key o = id))
      = l.find? (fun o => decide (key o = id)) := by
  rw [find_map_update key f hf]
  cases hfind : l.find? (fun o => decide (key o = id)) with
  | none => rfl
  | some o =>
    have hk : key o = id := by simpa using List.find?_some hfind
    have hne : ¬ key o = id0 := fun e => h (hk.symm.trans e)
    simp [hne]

theorem find_of_not_any {α : Type} (key : α → String) (l : List α) (id0 : String)
    (h : l.any (fun o => decide (key o = id0)) = false) :
    l.find? (fun o => decide (key o = id0)) = none := by
  induction l with
  | nil => rfl
  | cons o rest ih =>
    simp only [List.any_cons, Bool.or_eq_false_iff] at h
    rw [List.find?_cons_of_neg _ (by simp [h.1])]
    exact ih h.2

/-! ## Create injects the stack label -/

/-- Claim C1: for each of the four plugins bound to stack ID `s` and every goal whose Config is
a declared spec of the plugin's kind, whatever its label map (nil, empty, or already carrying
a stack-namespace label), `CreateResource` returns, issues exactly one backend call, that call
is the create call of the plugin's kind, and the spec it submits has
`labels[com.docker.stack.namespace] = s`. -/
theorem createResource_submits_stack_label {σ : Type} (cli : BackendClient σ)
    (p : AlgorithmPlugin) (resource : ReconcileResource) (w : World σ)
    (h : resource.Config.isDeclaredSpec p.GetKind = true) :
    ∃ out c, p.CreateResource cli resource w = some out ∧
      out.world.calls = w.calls ++ [c] ∧
      c.createKind = some p.GetKind ∧
      labelGet c.submittedLabels StackLabel = some p.stackID := by
  obtain ⟨sr, mark, kind, cfg⟩ := resource
  cases p with
  | service a =>
    rcases cfg with _ | (_ | spec) | _ | (_ | _) | _ | (_ | _) | _ | (_ | _) <;>
      simp [ConfigValue.isDeclaredSpec, AlgorithmPlugin.GetKind, algorithmService.GetKind] at h
    simp only [AlgorithmPlugin.CreateResource, algorithmService.CreateResource,
      BackendClient.callCreateService, AlgorithmPlugin.GetKind, algorithmService.GetKind,
      AlgorithmPlugin.stackID]
    generalize cli.CreateService _ _ _ _ = r
    obtain ⟨r1, s1⟩ := r
    cases r1 <;>
      exact ⟨_, _, rfl, rfl, rfl,
        by simp [BackendCall.submittedLabels, labelGet, mapGet_mapSet_self]⟩
  | network a =>
    rcases cfg with _ | (_ | _) | _ | (_ | _) | _ | (_ | _) | _ | (_ | spec) <;>
      simp [ConfigValue.isDeclaredSpec, AlgorithmPlugin.GetKind, algorithmNetwork.GetKind] at h
    simp only [AlgorithmPlugin.CreateResource, algorithmNetwork.CreateResource,
      BackendClient.callCreateNetwork, AlgorithmPlugin.GetKind, algorithmNetwork.GetKind,
      AlgorithmPlugin.stackID]
    generalize cli.CreateNetwork _ _ = r
    obtain ⟨r1, s1⟩ := r
    cases r1 <;>
      exact ⟨_, _, rfl, rfl, rfl,
        by simp [BackendCall.submittedLabels, labelGet, mapGet_mapSet_self]⟩
  | secret a =>
    rcases cfg with _ | (_ | _) | _ | (_ | spec) | _ | (_ | _) | _ | (_ | _) <;>
      simp [ConfigValue.isDeclaredSpec, AlgorithmPlugin.GetKind, algorithmSecret.GetKind] at h
    simp only [AlgorithmPlugin.CreateResource, algorithmSecret.CreateResource,
      BackendClient.callCreateSecret, AlgorithmPlugin.GetKind, algorithmSecret.GetKind,
      AlgorithmPlugin.stackID]
    generalize cli.CreateSecret _ _ = r
    obtain ⟨r1, s1⟩ := r
    cases r1 <;>
      exact ⟨_, _, rfl, rfl, rfl,
        by simp [BackendCall.submittedLabels, labelGet, mapGet_mapSet_self]⟩
  | config a =>
    rcases cfg with _ | (_ | _) | _ | (_ | _) | _ | (_ | spec) | _ | (_ | _) <;>
      simp [ConfigValue.isDeclaredSpec, AlgorithmPlugin.GetKind, algorithmConfig.GetKind] at h
    simp only [AlgorithmPlugin.CreateResource, algorithmConfig.CreateResource,
      BackendClient.callCreateConfig, AlgorithmPlugin.GetKind, algorithmConfig.GetKind,
      AlgorithmPlugin.stackID]
    generalize cli.CreateConfig _ _ = r
    obtain ⟨r1, s1⟩ := r
    cases r1 <;>
      exact ⟨_, _, rfl, rfl, rfl,
        by simp [BackendCall.submittedLabels, labelGet, mapGet_mapSet_self]⟩

/-- Witness of C1 on the sample goal, whose label map carries another stack's label. -/
theorem createResource_submits_stack_label_witness :
    sampleGoal.Config.isDeclaredSpec samplePlugin.GetKind = true ∧
    ∃ out c, samplePlugin.CreateResource Store.client sampleGoal sampleWorld = some out ∧
      out.world.calls = sampleWorld.calls ++ [c] ∧
      c.createKind = some samplePlugin.GetKind ∧
      labelGet c.submittedLabels StackLabel = some samplePlugin.stackID :=
  ⟨by decide, createResource_submits_stack_label Store.client samplePlugin sampleGoal sampleWorld
    (by decide)⟩

/-! ## Delete and update do not look at the label -/

/-- Counterexample to C2: the service plugin bound to `s1` deletes, through a goal carrying its
identifier, a downstream service labelled with stack `other`; the store held it before and
holds it no more. -/
theorem deleteResource_removes_foreign_resource :
    labelGet (Downstream.service foreignService).labels StackLabel ≠ some samplePlugin.stackID ∧
    Store.lookup foreignWorld.backend ReconcileKind.ReconcileService foreignGoal.ID
      = some (Downstream.service foreignService) ∧
    (samplePlugin.DeleteResource Store.client foreignGoal foreignWorld).err = none ∧
    Store.lookup (samplePlugin.DeleteResource Store.client foreignGoal foreignWorld).world.backend
      ReconcileKind.ReconcileService foreignGoal.ID = none := by
  decide

theorem deleteResource_world {σ : Type} (cli : BackendClient σ) (p : AlgorithmPlugin)
    (resource : ReconcileResource) (w : World σ) :
    (p.DeleteResource cli resource w).world
      = w.after (p.removeCall resource.ID) (p.backendRemove cli resource.ID w.backend).2 := by
  cases p <;>
    simp only [AlgorithmPlugin.DeleteResource, algorithmService.DeleteResource,
      algorithmNetwork.DeleteResource, algorithmSecret.DeleteResource,
      algorithmConfig.DeleteResource, BackendClient.callRemoveService,
      BackendClient.callRemoveNetwork, BackendClient.callRemoveSecret,
      BackendClient.callRemoveConfig, AlgorithmPlugin.removeCall,
      AlgorithmPlugin.backendRemove] <;>
    split <;> (try split) <;> simp_all

theorem store_removeService_lookup (st : Store) (id0 : String) (k : ReconcileKind) (id : String) :
    ((k ≠ ReconcileKind.ReconcileService ∨ id ≠ id0) →
      Store.lookup (Store.RemoveService id0 st).2 k id = Store.lookup st k id) ∧
    Store.lookup (Store.RemoveService id0 st).2 ReconcileKind.ReconcileService id0 = none := by
  unfold Store.RemoveService
  by_cases hany : st.services.any (fun o => decide (o.ID = id0)) = true
  · rw [if_pos hany]
    refine ⟨fun h => ?_, ?_⟩
    · cases k <;> simp only [Store.lookup]
      rcases h with h | h
      · exact absurd rfl h
      · rw [find_filter_ne Service.ID _ _ _ h]
    · simp only [Store.lookup]
      rw [find_filter_self Service.ID]; rfl
  · rw [if_neg hany]
    refine ⟨fun _ => rfl, ?_⟩
    simp only [Store.lookup]
    rw [find_of_not_any Service.ID _ _ (by simpa using hany)]; rfl

theorem store_removeNetwork_lookup (st : Store) (id0 : String) (k : ReconcileKind) (id : String) :
    ((k ≠ ReconcileKind.ReconcileNetwork ∨ id ≠ id0) →
      Store.lookup (Store.RemoveNetwork id0 st).2 k id = Store.lookup st k id) ∧
    Store.lookup (Store.RemoveNetwork id0 st).2 ReconcileKind.ReconcileNetwork id0 = none := by
  unfold Store.RemoveNetwork
  by_cases hany : st.networks.any (fun o => decide (o.ID = id0)) = true
  · rw [if_pos hany]
    refine ⟨fun h => ?_, ?_⟩
    · cases k <;> simp only [Store.lookup]
      rcases h with h | h
      · exact absurd rfl h
      · rw [find_filter_ne NetworkResource.ID _ _ _ h]
    · simp only [Store.lookup]
      rw [find_filter_self NetworkResource.ID]; rfl
  · rw [if_neg hany]
    refine ⟨fun _ => rfl, ?_⟩
    simp only [Store.lookup]
    rw [find_of_not_any NetworkResource.ID _ _ (by simpa using hany)]; rfl

theorem store_removeSecret_lookup (st : Store) (id0 : String) (k : ReconcileKind) (id : String) :
    ((k ≠ ReconcileKind.ReconcileSecret ∨ id ≠ id0) →
      Store.lookup (Store.RemoveSecret id0 st).2 k id = Store.lookup st k id) ∧
    Store.lookup (Store.RemoveSecret id0 st).2 ReconcileKind.ReconcileSecret id0 = none := by
  unfold Store.RemoveSecret
  by_cases hany : st.secrets.any (fun o => decide (o.ID = id0)) = true
  · rw [if_pos hany]
    refine ⟨fun h => ?_, ?_⟩
    · cases k <;> simp only [Store.lookup]
      rcases h with h | h
      · exact absurd rfl h
      · rw [find_filter_ne Secret.ID _ _ _ h]
    · simp only [Store.lookup]
      rw [find_filter_self Secret.ID]; rfl
  · rw [if_neg hany]
    refine ⟨fun _ => rfl, ?_⟩
    simp only [Store.lookup]
    rw [find_of_not_any Secret.ID _ _ (by simpa using hany)]; rfl

theorem store_removeConfig_lookup (st : Store) (id0 : String) (k : ReconcileKind) (id : String) :
    ((k ≠ ReconcileKind.ReconcileConfig ∨ id ≠ id0) →
      Store.lookup (Store.RemoveConfig id0 st).2 k id = Store.lookup st k id) ∧
    Store.lookup (Store.RemoveConfig id0 st).2 ReconcileKind.ReconcileConfig id0 = none := by
  unfold Store.RemoveConfig
  by_cases hany : st.configs.any (fun o => decide (o.ID = id0)) = true
  · rw [if_pos hany]
    refine ⟨fun h => ?_, ?_⟩
    · cases k <;> simp only [Store.lookup]
      rcases h with h | h
      · exact absurd rfl h
      · rw [find_filter_ne Config.ID _ _ _ h]
    · simp only [Store.lookup]
      rw [find_filter_self Config.ID]; rfl
  · rw [if_neg hany]
    refine ⟨fun _ => rfl, ?_⟩
    simp only [Store.lookup]
    rw [find_of_not_any Config.ID _ _ (by simpa using hany)]; rfl

theorem store_updateService_lookup (st : Store) (id0 : String) (version : Nat)
    (spec : ServiceSpec) (arg4 : Payload) (arg5 : Bool) (k : ReconcileKind) (id : String)
    (h : k ≠ ReconcileKind.ReconcileService ∨ id ≠ id0) :
    Store.lookup (Store.UpdateService id0 version spec arg4 arg5 st).2 k id
      = Store.lookup st k id := by
  unfold Store.UpdateService
  by_cases hany : st.services.any (fun o => decide (o.ID = id0)) = true
  · rw [if_pos hany]
    cases k <;> simp only [Store.lookup]
    rcases h with h | h
    · exact absurd rfl h
    · rw [find_map_ne Service.ID (fun o => { o with Meta := Store.bump o.Meta, Spec := spec })
        (fun _ => rfl) _ _ _ h]
  · rw [if_neg hany]

theorem store_updateSecret_lookup (st : Store) (id0 : String) (version : Nat)
    (spec : SecretSpec) (k : ReconcileKind) (id : String)
    (h : k ≠ ReconcileKind.ReconcileSecret ∨ id ≠ id0) :
    Store.lookup (Store.UpdateSecret id0 version spec st).2 k id
      = Store.lookup st k id := by
  unfold Store.UpdateSecret
  by_cases hany : st.secrets.any (fun o => decide (o.ID = id0)) = true
  · rw [if_pos hany]
    cases k <;> simp only [Store.lookup]
    rcases h with h | h
    · exact absurd rfl h
    · rw [find_map_ne Secret.ID (fun o => { o with Meta := Store.bump o.Meta, Spec := spec })
        (fun _ => rfl) _ _ _ h]
  · rw [if_neg hany]

theorem store_updateConfig_lookup (st : Store) (id0 : String) (version : Nat)
    (spec : ConfigSpec) (k : ReconcileKind) (id : String)
    (h : k ≠ ReconcileKind.ReconcileConfig ∨ id ≠ id0) :
    Store.lookup (Store.UpdateConfig id0 version spec st).2 k id
      = Store.lookup st k id := by
  unfold Store.UpdateConfig
  by_cases hany : st.configs.any (fun o => decide (o.ID = id0)) = true
  · rw [if_pos hany]
    cases k <;> simp only [Store.lookup]
    rcases h with h | h
    · exact absurd rfl h
    · rw [find_map_ne Config.ID (fun o => { o with Meta := Store.bump o.Meta, Spec := spec })
        (fun _ => rfl) _ _ _ h]
  · rw [if_neg hany]

/-- Claim C2, amended: on the keyed store, `DeleteResource` and `UpdateResource` of a plugin
act on the downstream resource of the plugin's kind that carries the goal's identifier,
whatever its stack-namespace label, and on nothing else: every downstream resource of
another kind or with another identifier is neither removed nor changed, and after
`DeleteResource` the store holds no resource of the plugin's kind under the goal's identifier. -/
theorem delete_update_touch_only_goal_id (p : AlgorithmPlugin) (resource : ReconcileResource)
    (w : World Store) (k : ReconcileKind) (id : String)
    (h : k ≠ p.GetKind ∨ id ≠ resource.ID) :
    Store.lookup (p.DeleteResource Store.client resource w).world.backend k id
      = Store.lookup w.backend k id ∧
    (∀ r, p.UpdateResource Store.client resource w = some r →
      Store.lookup r.2.backend k id = Store.lookup w.backend k id) ∧
    Store.lookup (p.DeleteResource Store.client resource w).world.backend p.GetKind resource.ID
      = none := by
  refine ⟨?_, ?_, ?_⟩
  · rw [deleteResource_world]
    cases p with
    | service a => exact (store_removeService_lookup w.backend resource.ID k id).1 h
    | network a => exact (store_removeNetwork_lookup w.backend resource.ID k id).1 h
    | secret a => exact (store_removeSecret_lookup w.backend resource.ID k id).1 h
    | config a => exact (store_removeConfig_lookup w.backend resource.ID k id).1 h
  · intro r hr
    obtain ⟨sr, mark, kind, cfg⟩ := resource
    cases p with
    | service a =>
      rcases cfg with _ | (_ | spec) | _ | (_ | _) | _ | (_ | _) | _ | (_ | _) <;>
        simp only [AlgorithmPlugin.UpdateResource, algorithmService.UpdateResource,
          reduceCtorEq] at hr
      simp only [BackendClient.callUpdateService] at hr
      have hl := store_updateService_lookup w.backend sr.ID sr.Meta.Version.Index spec
        DefaultUpdateServiceArg4 DefaultUpdateServiceArg5 k id h
      split at hr <;> rename_i heq <;>
        simp only [Prod.mk.injEq, Option.some.injEq] at heq hr <;>
        (obtain ⟨_, h2⟩ := heq; subst h2; subst hr; exact hl)
    | network a =>
      simp only [AlgorithmPlugin.UpdateResource, algorithmNetwork.UpdateResource,
        Option.some.injEq] at hr
      subst hr
      rfl
    | secret a =>
      rcases cfg with _ | (_ | _) | _ | (_ | spec) | _ | (_ | _) | _ | (_ | _) <;>
        simp only [AlgorithmPlugin.UpdateResource, algorithmSecret.UpdateResource,
          reduceCtorEq] at hr
      simp only [BackendClient.callUpdateSecret] at hr
      have hl := store_updateSecret_lookup w.backend sr.ID sr.Meta.Version.Index spec k id h
      split at hr <;> rename_i heq <;>
        simp only [Prod.mk.injEq, Option.some.injEq] at heq hr <;>
        (obtain ⟨_, h2⟩ := heq; subst h2; subst hr; exact hl)
    | config a =>
      rcases cfg with _ | (_ | _) | _ | (_ | _) | _ | (_ | spec) | _ | (_ | _) <;>
        simp only [AlgorithmPlugin.UpdateResource, algorithmConfig.UpdateResource,
          reduceCtorEq] at hr
      simp only [BackendClient.callUpdateConfig] at hr
      have hl := store_updateConfig_lookup w.backend sr.ID sr.Meta.Version.Index spec k id h
      split at hr <;> rename_i heq <;>
        simp only [Prod.mk.injEq, Option.some.injEq] at heq hr <;>
        (obtain ⟨_, h2⟩ := heq; subst h2; subst hr; exact hl)
  · rw [deleteResource_world]
    cases p with
    | service a => exact (store_removeService_lookup w.backend resource.ID k id).2
    | network a => exact (store_removeNetwork_lookup w.backend resource.ID k id).2
    | secret a => exact (store_removeSecret_lookup w.backend resource.ID k id).2
    | config a => exact (store_removeConfig_lookup w.backend resource.ID k id).2

/-- Witness of the amended C2: deleting or updating through a goal with identifier `7` leaves
the service with identifier `9` as it was. -/
theorem delete_update_touch_only_goal_id_witness :
    (ReconcileKind.ReconcileService ≠ samplePlugin.GetKind ∨ "9" ≠ foreignGoal.ID) ∧
    (Store.lookup (samplePlugin.DeleteResource Store.client foreignGoal mixedWorld).world.backend
        ReconcileKind.ReconcileService "9"
      = Store.lookup mixedWorld.backend ReconcileKind.ReconcileService "9" ∧
    (∀ r, samplePlugin.UpdateResource Store.client foreignGoal mixedWorld = some r →
      Store.lookup r.2.backend ReconcileKind.ReconcileService "9"
        = Store.lookup mixedWorld.backend ReconcileKind.ReconcileService "9") ∧
    Store.lookup (samplePlugin.DeleteResource Store.client foreignGoal mixedWorld).world.backend
        samplePlugin.GetKind foreignGoal.ID
      = none) :=
  ⟨Or.inr (by decide),
    delete_update_touch_only_goal_id samplePlugin foreignGoal mixedWorld
      ReconcileKind.ReconcileService "9" (Or.inr (by decide))⟩

/-! ## Committing the goals -/

theorem collectGoals_foldl (goals : List (String × ReconcileResource))
    (acc : List SnapshotResource) :
    goals.foldl
      (fun acc entry =>
        if entry.2.Mark = ReconcileState.ReconcileDelete then acc
        else acc ++ [entry.2.toSnapshotResource]) acc
    = acc ++ (goals.filter (fun entry => decide (entry.2.Mark ≠ ReconcileState.ReconcileDelete))).map
        (fun entry => entry.2.toSnapshotResource) := by
  induction goals generalizing acc with
  | nil => simp
  | cons e rest ih =>
    rw [List.foldl_cons, ih]
    by_cases hm : e.2.Mark = ReconcileState.ReconcileDelete
    · rw [if_pos hm, List.filter_cons_of_neg (by simpa using hm)]
    · rw [if_neg hm, List.filter_cons_of_pos (by simpa using hm), List.map_cons,
        List.append_assoc]
      rfl

theorem collectGoals_eq (goals : List (String × ReconcileResource)) :
    collectGoals goals
      = (goals.filter (fun entry => decide (entry.2.Mark ≠ ReconcileState.ReconcileDelete))).map
          (fun entry => entry.2.toSnapshotResource) := by
  unfold collectGoals
  rw [collectGoals_foldl]
  rfl

theorem storeGoals_eq {σ : Type} (cli : BackendClient σ) (p : AlgorithmPlugin)
    (previous : SnapshotStack) (w : World σ) :
    p.storeGoals cli previous w
      = ((match (cli.UpdateSnapshotStack p.stackID
              (previous.setKindList p.GetKind (collectGoals p.goals))
              previous.Meta.Version.Index w.backend).1 with
          | .error err => (previous, some err)
          | .ok current => (current, none)),
         w.after
          (BackendCall.UpdateSnapshotStack p.stackID
            (previous.setKindList p.GetKind (collectGoals p.goals)) previous.Meta.Version.Index)
          (cli.UpdateSnapshotStack p.stackID
              (previous.setKindList p.GetKind (collectGoals p.goals))
              previous.Meta.Version.Index w.backend).2) := by
  cases p <;>
    simp only [AlgorithmPlugin.storeGoals, algorithmService.storeGoals,
      algorithmNetwork.storeGoals, algorithmSecret.storeGoals, algorithmConfig.storeGoals,
      BackendClient.callUpdateSnapshotStack, AlgorithmPlugin.stackID, AlgorithmPlugin.GetKind,
      AlgorithmPlugin.goals, algorithmService.GetKind, algorithmNetwork.GetKind,
      algorithmSecret.GetKind, algorithmConfig.GetKind, SnapshotStack.setKindList] <;>
    generalize cli.UpdateSnapshotStack _ _ _ _ = r <;>
    obtain ⟨r1, s1⟩ := r <;>
    cases r1 <;> rfl

/-- Claim C3: for each plugin and every goal set, `storeGoals(previous)` submits one snapshot to
`UpdateSnapshotStack`, and the list of the plugin's own kind in it is, up to order, the list of
the `SnapshotResource`s of exactly the goals whose Mark is not Delete. -/
theorem storeGoals_commits_non_deleted_goals {σ : Type} (cli : BackendClient σ)
    (p : AlgorithmPlugin) (previous : SnapshotStack) (w : World σ) :
    ∃ snapshot version,
      (p.storeGoals cli previous w).2.calls
        = w.calls ++ [BackendCall.UpdateSnapshotStack p.stackID snapshot version] ∧
      (snapshot.kindList p.GetKind).Perm
        ((p.goals.filter
            (fun entry => decide (entry.2.Mark ≠ ReconcileState.ReconcileDelete))).map
          (fun entry => entry.2.toSnapshotResource)) := by
  refine ⟨previous.setKindList p.GetKind (collectGoals p.goals), previous.Meta.Version.Index,
    by rw [storeGoals_eq]; rfl, ?_⟩
  rw [← collectGoals_eq]
  cases p <;> exact List.Perm.refl _

/-- Claim C4: the snapshot `storeGoals(previous)` submits differs from `previous` only in the
list of the plugin's own kind: ID, Name, Meta.Version, CurrentSpec, PreviousSpec are those of
`previous`, the lists of the other kinds are those of `previous`, and putting back the own
kind list of `previous` gives `previous` itself. -/
theorem storeGoals_changes_own_kind_only {σ : Type} (cli : BackendClient σ)
    (p : AlgorithmPlugin) (previous : SnapshotStack) (w : World σ) :
    ∃ snapshot version,
      (p.storeGoals cli previous w).2.calls
        = w.calls ++ [BackendCall.UpdateSnapshotStack p.stackID snapshot version] ∧
      snapshot.ID = previous.ID ∧ snapshot.Name = previous.Name ∧
      snapshot.Meta.Version = previous.Meta.Version ∧
      snapshot.CurrentSpec = previous.CurrentSpec ∧
      snapshot.PreviousSpec = previous.PreviousSpec ∧
      (∀ k, k ≠ p.GetKind → snapshot.kindList k = previous.kindList k) ∧
      snapshot.setKindList p.GetKind (previous.kindList p.GetKind) = previous := by
  refine ⟨previous.setKindList p.GetKind (collectGoals p.goals), previous.Meta.Version.Index,
    by rw [storeGoals_eq]; rfl, ?_⟩
  cases p <;>
    refine ⟨rfl, rfl, rfl, rfl, rfl, ?_, rfl⟩ <;>
    intro k hk <;> cases k <;>
    first
      | rfl
      | exact absurd rfl hk

/-- Claim C5: `storeGoals(previous)` calls `UpdateSnapshotStack` once, with the plugin's stack
ID and expected version `previous.Meta.Version.Index`; when the call fails it returns that
error together with `previous`, when it succeeds it returns nil together with the snapshot
the store returned. -/
theorem storeGoals_commit_result {σ : Type} (cli : BackendClient σ) (p : AlgorithmPlugin)
    (previous : SnapshotStack) (w : World σ) :
    ∃ snapshot,
      (p.storeGoals cli previous w).2
        = w.after
            (BackendCall.UpdateSnapshotStack p.stackID snapshot previous.Meta.Version.Index)
            (cli.UpdateSnapshotStack p.stackID snapshot previous.Meta.Version.Index
              w.backend).2 ∧
      (p.storeGoals cli previous w).1
        = (match (cli.UpdateSnapshotStack p.stackID snapshot previous.Meta.Version.Index
              w.backend).1 with
            | .error err => (previous, some err)
            | .ok current => (current, none)) := by
  refine ⟨previous.setKindList p.GetKind (collectGoals p.goals), ?_, ?_⟩ <;>
    rw [storeGoals_eq]

/-! ## Unique names in the committed list -/

theorem mem_keys_mapSet {β : Type} (m : List (String × β)) (k : String) (v : β) (x : String) :
    x ∈ (mapSet m k v).map Prod.fst ↔ x = k ∨ x ∈ m.map Prod.fst := by
  induction m with
  | nil => simp [mapSet]
  | cons e rest ih =>
    obtain ⟨k1, v1⟩ := e
    by_cases h : k1 = k
    · subst h
      simp [mapSet]
    · simp only [mapSet, if_neg h, List.map_cons, List.mem_cons, ih]
      tauto

theorem mapSet_keys_nodup {β : Type} (m : List (String × β)) (k : String) (v : β)
    (h : (m.map Prod.fst).Nodup) : ((mapSet m k v).map Prod.fst).Nodup := by
  induction m with
  | nil => simp [mapSet]
  | cons e rest ih =>
    obtain ⟨k1, v1⟩ := e
    rw [List.map_cons, List.nodup_cons] at h
    by_cases hk : k1 = k
    · subst hk
      simp only [mapSet, if_true, List.map_cons, List.nodup_cons]
      exact h
    · simp only [mapSet, if_neg hk, List.map_cons, List.nodup_cons]
      refine ⟨?_, ih h.2⟩
      rw [mem_keys_mapSet]
      rintro (h1 | h1)
      · exact hk h1
      · exact h.1 h1

theorem mem_mapSet {β : Type} (m : List (String × β)) (k : String) (v : β) (e : String × β)
    (h : e ∈ mapSet m k v) : e = (k, v) ∨ e ∈ m := by
  induction m with
  | nil => simpa [mapSet] using h
  | cons e1 rest ih =>
    obtain ⟨k1, v1⟩ := e1
    by_cases hk : k1 = k
    · simp only [mapSet, if_pos hk, List.mem_cons] at h
      rcases h with h | h
      · exact Or.inl h
      · exact Or.inr (List.mem_cons_of_mem _ h)
    · simp only [mapSet, if_neg hk, List.mem_cons] at h
      rcases h with h | h
      · exact Or.inr (h ▸ List.mem_cons_self _ _)
      · rcases ih h with h2 | h2
        · exact Or.inl h2
        · exact Or.inr (List.mem_cons_of_mem _ h2)

theorem wellKeyed_mapSet (goals : List (String × ReconcileResource)) (key : String)
    (resource : ReconcileResource) (hn : resource.Name = key) (h : WellKeyed goals) :
    WellKeyed (mapSet goals key resource) := by
  refine ⟨mapSet_keys_nodup _ _ _ h.1, fun e he => ?_⟩
  rcases mem_mapSet _ _ _ _ he with h1 | h1
  · rw [h1]; exact hn
  · exact h.2 e h1

theorem wellKeyed_names_nodup (goals : List (String × ReconcileResource)) (h : WellKeyed goals) :
    ((collectGoals goals).map (fun r => r.Name)).Nodup := by
  rw [collectGoals_eq, List.map_map]
  have hsub : ((goals.filter
      (fun entry => decide (entry.2.Mark ≠ ReconcileState.ReconcileDelete))).map
        ((fun r : SnapshotResource => r.Name) ∘ fun entry => entry.2.toSnapshotResource)).Sublist
      (goals.map ((fun r : SnapshotResource => r.Name) ∘ fun entry => entry.2.toSnapshotResource)) :=
    (List.filter_sublist _).map _
  refine hsub.nodup ?_
  have hmap : goals.map
      ((fun r : SnapshotResource => r.Name) ∘ fun entry => entry.2.toSnapshotResource)
      = goals.map Prod.fst := by
    apply List.map_congr_left
    intro e he
    exact h.2 e he
  rw [hmap]
  exact h.1

theorem algorithmService.lookupServiceSpec_declared (a : algorithmService) (specName : String)
    (h : specName ∈ a.getSpecifiedResourceNames) :
    ∃ serviceSpec, a.lookupServiceSpec specName = some serviceSpec ∧
      serviceSpec.Annotations.Name = specName := by
  unfold algorithmService.getSpecifiedResourceNames at h
  unfold algorithmService.lookupServiceSpec
  obtain ⟨spec0, hmem, hname⟩ := List.mem_map.mp h
  cases hfind : a.stackSpec.Services.find?
      (fun serviceSpec => decide (specName = serviceSpec.Annotations.Name)) with
  | none =>
    have := List.find?_eq_none.mp hfind spec0 hmem
    simp [hname] at this
  | some serviceSpec =>
    have := List.find?_some hfind
    exact ⟨serviceSpec, rfl, (of_decide_eq_true this).symm⟩

theorem applyOp_service (a : algorithmService) (op : GoalOp)
    (h : op.admissible (AlgorithmPlugin.service a) = true) :
    ∃ a1 key resource, (AlgorithmPlugin.service a).applyOp op = some (AlgorithmPlugin.service a1) ∧
      resource.Name = key ∧ a1.goals = mapSet a.goals key resource ∧
      a1.stackID = a.stackID ∧ a1.stackSpec = a.stackSpec := by
  cases op with
  | create specName =>
    simp only [GoalOp.admissible, AlgorithmPlugin.getSpecifiedResourceNames,
      decide_eq_true_eq] at h
    obtain ⟨serviceSpec, hl, hn⟩ := a.lookupServiceSpec_declared specName h
    refine ⟨⟨a.requestedResource, a.stackID, a.stackSpec, mapSet a.goals specName
        ⟨⟨"", ⟨⟨0⟩⟩, serviceSpec.Annotations.Name⟩, ReconcileState.ReconcileNone, a.GetKind,
          ConfigValue.servicePtr (some serviceSpec)⟩⟩,
      specName, _, ?_, hn, rfl, rfl, rfl⟩
    simp only [AlgorithmPlugin.applyOp, AlgorithmPlugin.addCreateResourceGoal,
      algorithmService.addCreateResourceGoal, hl, Option.map_some']
  | remove activeResource =>
    cases activeResource with
    | service act =>
      exact ⟨⟨a.requestedResource, a.stackID, a.stackSpec, mapSet a.goals act.Name
          ⟨act.toSnapshotResource, ReconcileState.ReconcileNone, a.GetKind,
            ConfigValue.service act.service.Spec⟩⟩,
        act.Name, _, rfl, rfl, rfl, rfl, rfl⟩
    | network act =>
      simp [GoalOp.admissible, ActiveResource.kind, AlgorithmPlugin.GetKind, algorithmService.GetKind] at h
    | secret act =>
      simp [GoalOp.admissible, ActiveResource.kind, AlgorithmPlugin.GetKind, algorithmService.GetKind] at h
    | config act =>
      simp [GoalOp.admissible, ActiveResource.kind, AlgorithmPlugin.GetKind, algorithmService.GetKind] at h


theorem algorithmNetwork.lookupNetworkSpec_declared (a : algorithmNetwork) (specName : String)
    (h : specName ∈ a.getSpecifiedResourceNames) :
    ∃ request, a.lookupNetworkSpec specName = some request ∧ request.Name = specName := by
  unfold algorithmNetwork.getSpecifiedResourceNames at h
  unfold algorithmNetwork.lookupNetworkSpec
  obtain ⟨entry0, hmem, hname⟩ := List.mem_map.mp h
  cases hfind : a.stackSpec.Networks.find? (fun entry => decide (specName = entry.1)) with
  | none =>
    have := List.find?_eq_none.mp hfind entry0 hmem
    simp [hname] at this
  | some entry => exact ⟨_, rfl, rfl⟩

theorem applyOp_network (a : algorithmNetwork) (op : GoalOp)
    (h : op.admissible (AlgorithmPlugin.network a) = true) :
    ∃ a1 key resource, (AlgorithmPlugin.network a).applyOp op = some (AlgorithmPlugin.network a1) ∧
      resource.Name = key ∧ a1.goals = mapSet a.goals key resource ∧
      a1.stackID = a.stackID ∧ a1.stackSpec = a.stackSpec := by
  cases op with
  | create specName =>
    simp only [GoalOp.admissible, AlgorithmPlugin.getSpecifiedResourceNames,
      decide_eq_true_eq] at h
    obtain ⟨request, hl, hn⟩ := a.lookupNetworkSpec_declared specName h
    refine ⟨⟨a.requestedResource, a.stackID, a.stackSpec, mapSet a.goals specName
        ⟨⟨"", ⟨⟨0⟩⟩, request.Name⟩, ReconcileState.ReconcileNone, a.GetKind,
          ConfigValue.networkPtr (some request)⟩⟩,
      specName, _, ?_, hn, rfl, rfl, rfl⟩
    simp only [AlgorithmPlugin.applyOp, AlgorithmPlugin.addCreateResourceGoal,
      algorithmNetwork.addCreateResourceGoal, hl, Option.map_some']
  | remove activeResource =>
    cases activeResource with
    | network act =>
      exact ⟨⟨a.requestedResource, a.stackID, a.stackSpec, mapSet a.goals act.Name
          ⟨act.toSnapshotResource, ReconcileState.ReconcileNone, a.GetKind,
            ConfigValue.networkPtr (a.lookupNetworkSpec act.Name)⟩⟩,
        act.Name, _, rfl, rfl, rfl, rfl, rfl⟩
    | service act =>
      simp [GoalOp.admissible, ActiveResource.kind, AlgorithmPlugin.GetKind, algorithmNetwork.GetKind] at h
    | secret act =>
      simp [GoalOp.admissible, ActiveResource.kind, AlgorithmPlugin.GetKind, algorithmNetwork.GetKind] at h
    | config act =>
      simp [GoalOp.admissible, ActiveResource.kind, AlgorithmPlugin.GetKind, algorithmNetwork.GetKind] at h

theorem algorithmSecret.lookupSecretSpec_declared (a : algorithmSecret) (specName : String)
    (h : specName ∈ a.getSpecifiedResourceNames) :
    ∃ secretSpec, a.lookupSecretSpec specName = some secretSpec ∧
      secretSpec.Annotations.Name = specName := by
  unfold algorithmSecret.getSpecifiedResourceNames at h
  unfold algorithmSecret.lookupSecretSpec
  obtain ⟨spec0, hmem, hname⟩ := List.mem_map.mp h
  cases hfind : a.stackSpec.Secrets.find?
      (fun secretSpec => decide (specName = secretSpec.Annotations.Name)) with
  | none =>
    have := List.find?_eq_none.mp hfind spec0 hmem
    simp [hname] at this
  | some secretSpec =>
    have := List.find?_some hfind
    exact ⟨secretSpec, rfl, (of_decide_eq_true this).symm⟩

theorem applyOp_secret (a : algorithmSecret) (op : GoalOp)
    (h : op.admissible (AlgorithmPlugin.secret a) = true) :
    ∃ a1 key resource, (AlgorithmPlugin.secret a).applyOp op = some (AlgorithmPlugin.secret a1) ∧
      resource.Name = key ∧ a1.goals = mapSet a.goals key resource ∧
      a1.stackID = a.stackID ∧ a1.stackSpec = a.stackSpec := by
  cases op with
  | create specName =>
    simp only [GoalOp.admissible, AlgorithmPlugin.getSpecifiedResourceNames,
      decide_eq_true_eq] at h
    obtain ⟨secretSpec, hl, hn⟩ := a.lookupSecretSpec_declared specName h
    refine ⟨⟨a.requestedResource, a.stackID, a.stackSpec, mapSet a.goals specName
        ⟨⟨"", ⟨⟨0⟩⟩, secretSpec.Annotations.Name⟩, ReconcileState.ReconcileNone, a.GetKind,
          ConfigValue.secretPtr (some secretSpec)⟩⟩,
      specName, _, ?_, hn, rfl, rfl, rfl⟩
    simp only [AlgorithmPlugin.applyOp, AlgorithmPlugin.addCreateResourceGoal,
      algorithmSecret.addCreateResourceGoal, hl, Option.map_some']
  | remove activeResource =>
    cases activeResource with
    | secret act =>
      exact ⟨⟨a.requestedResource, a.stackID, a.stackSpec, mapSet a.goals act.Name
          ⟨act.toSnapshotResource, ReconcileState.ReconcileNone, a.GetKind,
            ConfigValue.secret act.secret.Spec⟩⟩,
        act.Name, _, rfl, rfl, rfl, rfl, rfl⟩
    | network act =>
      simp [GoalOp.admissible, ActiveResource.kind, AlgorithmPlugin.GetKind, algorithmSecret.GetKind] at h
    | service act =>
      simp [GoalOp.admissible, ActiveResource.kind, AlgorithmPlugin.GetKind, algorithmSecret.GetKind] at h
    | config act =>
      simp [GoalOp.admissible, ActiveResource.kind, AlgorithmPlugin.GetKind, algorithmSecret.GetKind] at h

theorem algorithmConfig.lookupConfigSpec_declared (a : algorithmConfig) (specName : String)
    (h : specName ∈ a.getSpecifiedResourceNames) :
    ∃ configSpec, a.lookupConfigSpec specName = some configSpec ∧
      configSpec.Annotations.Name = specName := by
  unfold algorithmConfig.getSpecifiedResourceNames at h
  unfold algorithmConfig.lookupConfigSpec
  obtain ⟨spec0, hmem, hname⟩ := List.mem_map.mp h
  cases hfind : a.stackSpec.Configs.find?
      (fun configSpec => decide (specName = configSpec.Annotations.Name)) with
  | none =>
    have := List.find?_eq_none.mp hfind spec0 hmem
    simp [hname] at this
  | some configSpec =>
    have := List.find?_some hfind
    exact ⟨configSpec, rfl, (of_decide_eq_true this).symm⟩

theorem applyOp_config (a : algorithmConfig) (op : GoalOp)
    (h : op.admissible (AlgorithmPlugin.config a) = true) :
    ∃ a1 key resource, (AlgorithmPlugin.config a).applyOp op = some (AlgorithmPlugin.config a1) ∧
      resource.Name = key ∧ a1.goals = mapSet a.goals key resource ∧
      a1.stackID = a.stackID ∧ a1.stackSpec = a.stackSpec := by
  cases op with
  | create specName =>
    simp only [GoalOp.admissible, AlgorithmPlugin.getSpecifiedResourceNames,
      decide_eq_true_eq] at h
    obtain ⟨configSpec, hl, hn⟩ := a.lookupConfigSpec_declared specName h
    refine ⟨⟨a.requestedResource, a.stackID, a.stackSpec, mapSet a.goals specName
        ⟨⟨"", ⟨⟨0⟩⟩, configSpec.Annotations.Name⟩, ReconcileState.ReconcileNone, a.GetKind,
          ConfigValue.configPtr (some configSpec)⟩⟩,
      specName, _, ?_, hn, rfl, rfl, rfl⟩
    simp only [AlgorithmPlugin.applyOp, AlgorithmPlugin.addCreateResourceGoal,
      algorithmConfig.addCreateResourceGoal, hl, Option.map_some']
  | remove activeResource =>
    cases activeResource with
    | config act =>
      exact ⟨⟨a.requestedResource, a.stackID, a.stackSpec, mapSet a.goals act.Name
          ⟨act.toSnapshotResource, ReconcileState.ReconcileNone, a.GetKind,
            ConfigValue.config act.config.Spec⟩⟩,
        act.Name, _, rfl, rfl, rfl, rfl, rfl⟩
    | network act =>
      simp [GoalOp.admissible, ActiveResource.kind, AlgorithmPlugin.GetKind, algorithmConfig.GetKind] at h
    | secret act =>
      simp [GoalOp.admissible, ActiveResource.kind, AlgorithmPlugin.GetKind, algorithmConfig.GetKind] at h
    | service act =>
      simp [GoalOp.admissible, ActiveResource.kind, AlgorithmPlugin.GetKind, algorithmConfig.GetKind] at h

theorem applyOp_spec (p : AlgorithmPlugin) (op : GoalOp) (h : op.admissible p = true) :
    ∃ p1 key resource, p.applyOp op = some p1 ∧ resource.Name = key ∧
      p1.goals = mapSet p.goals key resource ∧ p1.stackID = p.stackID ∧
      p1.GetKind = p.GetKind ∧ ∀ op1 : GoalOp, op1.admissible p1 = op1.admissible p := by
  cases p with
  | service a =>
    obtain ⟨a1, key, resource, h1, h2, h3, h4, h5⟩ := applyOp_service a op h
    refine ⟨_, key, resource, h1, h2, h3, h4, rfl, fun op1 => ?_⟩
    cases op1 <;>
      simp only [GoalOp.admissible, AlgorithmPlugin.getSpecifiedResourceNames,
        algorithmService.getSpecifiedResourceNames, h5, AlgorithmPlugin.GetKind,
        algorithmService.GetKind]
  | network a =>
    obtain ⟨a1, key, resource, h1, h2, h3, h4, h5⟩ := applyOp_network a op h
    refine ⟨_, key, resource, h1, h2, h3, h4, rfl, fun op1 => ?_⟩
    cases op1 <;>
      simp only [GoalOp.admissible, AlgorithmPlugin.getSpecifiedResourceNames,
        algorithmNetwork.getSpecifiedResourceNames, h5, AlgorithmPlugin.GetKind,
        algorithmNetwork.GetKind]
  | secret a =>
    obtain ⟨a1, key, resource, h1, h2, h3, h4, h5⟩ := applyOp_secret a op h
    refine ⟨_, key, resource, h1, h2, h3, h4, rfl, fun op1 => ?_⟩
    cases op1 <;>
      simp only [GoalOp.admissible, AlgorithmPlugin.getSpecifiedResourceNames,
        algorithmSecret.getSpecifiedResourceNames, h5, AlgorithmPlugin.GetKind,
        algorithmSecret.GetKind]
  | config a =>
    obtain ⟨a1, key, resource, h1, h2, h3, h4, h5⟩ := applyOp_config a op h
    refine ⟨_, key, resource, h1, h2, h3, h4, rfl, fun op1 => ?_⟩
    cases op1 <;>
      simp only [GoalOp.admissible, AlgorithmPlugin.getSpecifiedResourceNames,
        algorithmConfig.getSpecifiedResourceNames, h5, AlgorithmPlugin.GetKind,
        algorithmConfig.GetKind]

theorem applyOps_wellKeyed (ops : List GoalOp) (p : AlgorithmPlugin)
    (hw : WellKeyed p.goals) (hops : ∀ op ∈ ops, op.admissible p = true) :
    ∃ p1, p.applyOps ops = some p1 ∧ WellKeyed p1.goals ∧ p1.stackID = p.stackID ∧
      p1.GetKind = p.GetKind := by
  induction ops generalizing p with
  | nil => exact ⟨p, rfl, hw, rfl, rfl⟩
  | cons op rest ih =>
    obtain ⟨p1, key, resource, h1, h2, h3, h4, h5, h6⟩ :=
      applyOp_spec p op (hops op (List.mem_cons_self _ _))
    have hw1 : WellKeyed p1.goals := by
      rw [h3]
      exact wellKeyed_mapSet _ _ _ h2 hw
    obtain ⟨p2, g1, g2, g3, g4⟩ := ih p1 hw1
      (fun op1 hop1 => (h6 op1).trans (hops op1 (List.mem_cons_of_mem _ hop1)))
    refine ⟨p2, ?_, g2, g3.trans h4, g4.trans h5⟩
    simp only [AlgorithmPlugin.applyOps, h1]
    exact g1

/-- Claim C6: for every plugin that starts from an empty goal set and registers goals by any
sequence of `addCreateResourceGoal` calls on declared names and `addRemoveResourceGoal` calls
on active resources of its kind, the registrations all complete and the kind list that
`storeGoals` then commits holds no two `SnapshotResource`s with the same Name. -/
theorem committed_names_unique {σ : Type} (cli : BackendClient σ) (p : AlgorithmPlugin)
    (ops : List GoalOp) (previous : SnapshotStack) (w : World σ)
    (hempty : p.goals = []) (hops : ∀ op ∈ ops, op.admissible p = true) :
    ∃ p1 snapshot version, p.applyOps ops = some p1 ∧
      (p1.storeGoals cli previous w).2.calls
        = w.calls ++ [BackendCall.UpdateSnapshotStack p.stackID snapshot version] ∧
      ((snapshot.kindList p.GetKind).map (fun r => r.Name)).Nodup := by
  have hw : WellKeyed p.goals := by
    rw [hempty]
    exact ⟨List.nodup_nil, fun e he => absurd he (List.not_mem_nil e)⟩
  obtain ⟨p1, h1, h2, h3, h4⟩ := applyOps_wellKeyed ops p hw hops
  refine ⟨p1, previous.setKindList p1.GetKind (collectGoals p1.goals),
    previous.Meta.Version.Index, h1, by rw [storeGoals_eq, h3]; rfl, ?_⟩
  have hk : (previous.setKindList p1.GetKind (collectGoals p1.goals)).kindList p.GetKind
      = collectGoals p1.goals := by
    rw [← h4]
    cases p1 <;> rfl
  rw [hk]
  exact wellKeyed_names_nodup _ h2

/-- Witness of C6 on the sample registration sequence. -/
theorem committed_names_unique_witness :
    samplePlugin.goals = [] ∧ (∀ op ∈ sampleOps, op.admissible samplePlugin = true) ∧
    ∃ p1 snapshot version, samplePlugin.applyOps sampleOps = some p1 ∧
      (p1.storeGoals Store.client samplePrevious sampleWorld).2.calls
        = sampleWorld.calls ++ [BackendCall.UpdateSnapshotStack samplePlugin.stackID snapshot version] ∧
      ((snapshot.kindList samplePlugin.GetKind).map (fun r => r.Name)).Nodup :=
  ⟨rfl, by decide,
    committed_names_unique Store.client samplePlugin sampleOps samplePrevious sampleWorld rfl
      (by decide)⟩

/-! ## The committed list and empty identifiers -/

/-- Counterexample to C7: on a fresh service plugin, `addCreateResourceGoal` for the declared
name `web` registers a goal with an empty ID, no `CreateResource` is run, and `storeGoals`
submits a snapshot whose service list holds that goal's `SnapshotResource` with the empty ID. -/
theorem storeGoals_commits_uncreated_goal :
    samplePlugin.addCreateResourceGoal "web" = some (sampleGoal, samplePluginWithGoal) ∧
    sampleGoal.ID = "" ∧
    (samplePluginWithGoal.storeGoals Store.client samplePrevious sampleWorld).2.calls
      = [BackendCall.UpdateSnapshotStack "s1"
          { samplePrevious with Services := [⟨"", ⟨⟨0⟩⟩, "web"⟩] } 4] ∧
    sampleGoal.toSnapshotResource
      ∈ ({ samplePrevious with Services := [⟨"", ⟨⟨0⟩⟩, "web"⟩] } : SnapshotStack).kindList
          ReconcileKind.ReconcileService :=
  ⟨rfl, rfl, rfl, by decide⟩

/-- Claim C7, amended: `storeGoals` commits the `SnapshotResource` of every goal whose Mark is
not Delete with the ID the goal carries, without looking at the ID: every `SnapshotResource`
in the committed kind list has a non-empty ID if and only if every goal not marked Delete has
a non-empty ID. -/
theorem committed_ids_nonempty_iff {σ : Type} (cli : BackendClient σ) (p : AlgorithmPlugin)
    (previous : SnapshotStack) (w : World σ) :
    ∃ snapshot version,
      (p.storeGoals cli previous w).2.calls
        = w.calls ++ [BackendCall.UpdateSnapshotStack p.stackID snapshot version] ∧
      ((∀ r ∈ snapshot.kindList p.GetKind, r.ID ≠ "") ↔
        (∀ e ∈ p.goals, e.2.Mark ≠ ReconcileState.ReconcileDelete → e.2.ID ≠ "")) := by
  refine ⟨previous.setKindList p.GetKind (collectGoals p.goals), previous.Meta.Version.Index,
    by rw [storeGoals_eq]; rfl, ?_⟩
  have hk : (previous.setKindList p.GetKind (collectGoals p.goals)).kindList p.GetKind
      = collectGoals p.goals := by
    cases p <;> rfl
  rw [hk, collectGoals_eq]
  constructor
  · intro h e he hm
    exact h e.2.toSnapshotResource
      (List.mem_map.mpr ⟨e, List.mem_filter.mpr ⟨he, by simpa using hm⟩, rfl⟩)
  · intro h r hr
    obtain ⟨e, he, rfl⟩ := List.mem_map.mp hr
    have hf := List.mem_filter.mp he
    exact h e hf.1 (by simpa using hf.2)

/-! ## Results of delete and create -/

theorem deleteResource_result {σ : Type} (cli : BackendClient σ) (p : AlgorithmPlugin)
    (resource : ReconcileResource) (w : World σ) :
    (p.DeleteResource cli resource w).err
      = (match (p.backendRemove cli resource.ID w.backend).1 with
          | some err => if IsNotFound err then none else some err
          | none => none) ∧
    (p.DeleteResource cli resource w).resource
      = (match (p.DeleteResource cli resource w).err with
          | some _ => resource
          | none => { resource with ID := "" }) := by
  cases p with
  | service a =>
    simp only [AlgorithmPlugin.DeleteResource, algorithmService.DeleteResource,
      BackendClient.callRemoveService, AlgorithmPlugin.backendRemove]
    generalize cli.RemoveService _ _ = r
    obtain ⟨r1, s1⟩ := r
    cases r1 with
    | none => exact ⟨rfl, rfl⟩
    | some err => cases hnf : IsNotFound err <;> simp [hnf]
  | network a =>
    simp only [AlgorithmPlugin.DeleteResource, algorithmNetwork.DeleteResource,
      BackendClient.callRemoveNetwork, AlgorithmPlugin.backendRemove]
    generalize cli.RemoveNetwork _ _ = r
    obtain ⟨r1, s1⟩ := r
    cases r1 with
    | none => exact ⟨rfl, rfl⟩
    | some err => cases hnf : IsNotFound err <;> simp [hnf]
  | secret a =>
    simp only [AlgorithmPlugin.DeleteResource, algorithmSecret.DeleteResource,
      BackendClient.callRemoveSecret, AlgorithmPlugin.backendRemove]
    generalize cli.RemoveSecret _ _ = r
    obtain ⟨r1, s1⟩ := r
    cases r1 with
    | none => exact ⟨rfl, rfl⟩
    | some err => cases hnf : IsNotFound err <;> simp [hnf]
  | config a =>
    simp only [AlgorithmPlugin.DeleteResource, algorithmConfig.DeleteResource,
      BackendClient.callRemoveConfig, AlgorithmPlugin.backendRemove]
    generalize cli.RemoveConfig _ _ = r
    obtain ⟨r1, s1⟩ := r
    cases r1 with
    | none => exact ⟨rfl, rfl⟩
    | some err => cases hnf : IsNotFound err <;> simp [hnf]

/-- Claim C8: for each of the four plugins, `DeleteResource(goal)` issues the backend Remove of
its kind for `goal.ID`; it returns an error if and only if that call fails with an error that
is not NotFound, and then it returns exactly that error and leaves the goal unchanged; in
every other case (backend success or NotFound) it returns nil and sets `goal.ID` to the empty
string. -/
theorem deleteResource_error_iff {σ : Type} (cli : BackendClient σ) (p : AlgorithmPlugin)
    (resource : ReconcileResource) (w : World σ) :
    (p.DeleteResource cli resource w).world
      = w.after (p.removeCall resource.ID) (p.backendRemove cli resource.ID w.backend).2 ∧
    ((p.DeleteResource cli resource w).err ≠ none ↔
      ∃ err, (p.backendRemove cli resource.ID w.backend).1 = some err ∧
        IsNotFound err = false) ∧
    (p.DeleteResource cli resource w).err
      = (match (p.backendRemove cli resource.ID w.backend).1 with
          | some err => if IsNotFound err then none else some err
          | none => none) ∧
    (p.DeleteResource cli resource w).resource
      = (match (p.DeleteResource cli resource w).err with
          | some _ => resource
          | none => { resource with ID := "" }) := by
  obtain ⟨herr, hres⟩ := deleteResource_result cli p resource w
  refine ⟨deleteResource_world cli p resource w, ?_, herr, hres⟩
  rw [herr]
  cases hr : (p.backendRemove cli resource.ID w.backend).1 with
  | none => simp
  | some err => cases hnf : IsNotFound err <;> simp [hnf]

theorem createResource_result {σ : Type} (cli : BackendClient σ) (p : AlgorithmPlugin)
    (resource : ReconcileResource) (w : World σ)
    (h : resource.Config.isDeclaredSpec p.GetKind = true) :
    ∃ out c r st1, p.CreateResource cli resource w = some out ∧
      c.createKind = some p.GetKind ∧
      cli.createResult c w.backend = some (r, st1) ∧
      out.world = w.after c st1 ∧
      out.resource.Name = resource.Name ∧ out.resource.Mark = resource.Mark ∧
      out.resource.Meta = resource.Meta ∧ out.resource.Kind = resource.Kind ∧
      (match r with
        | .ok id => out.err = none ∧ out.resource.ID = id
        | .error err => out.err = some err ∧ out.resource.ID = resource.ID) := by
  obtain ⟨sr, mark, kind, cfg⟩ := resource
  cases p with
  | service a =>
    rcases cfg with _ | (_ | spec) | _ | (_ | _) | _ | (_ | _) | _ | (_ | _) <;>
      simp [ConfigValue.isDeclaredSpec, AlgorithmPlugin.GetKind, algorithmService.GetKind] at h
    simp only [AlgorithmPlugin.CreateResource, algorithmService.CreateResource,
      BackendClient.callCreateService, AlgorithmPlugin.GetKind, algorithmService.GetKind]
    generalize hr : cli.CreateService _ _ _ _ = r
    obtain ⟨r1, s1⟩ := r
    cases r1 with
    | error err =>
      exact ⟨_, BackendCall.CreateService _ _ _, .error err, s1, rfl, rfl,
        by simp only [BackendClient.createResult, hr], rfl, rfl, rfl, rfl, rfl, rfl, rfl⟩
    | ok resp =>
      exact ⟨_, BackendCall.CreateService _ _ _, .ok resp.ID, s1, rfl, rfl,
        by simp only [BackendClient.createResult, hr], rfl, rfl, rfl, rfl, rfl, rfl, rfl⟩
  | network a =>
    rcases cfg with _ | (_ | _) | _ | (_ | _) | _ | (_ | _) | _ | (_ | spec) <;>
      simp [ConfigValue.isDeclaredSpec, AlgorithmPlugin.GetKind, algorithmNetwork.GetKind] at h
    simp only [AlgorithmPlugin.CreateResource, algorithmNetwork.CreateResource,
      BackendClient.callCreateNetwork, AlgorithmPlugin.GetKind, algorithmNetwork.GetKind]
    generalize hr : cli.CreateNetwork _ _ = r
    obtain ⟨r1, s1⟩ := r
    cases r1 with
    | error err =>
      exact ⟨_, BackendCall.CreateNetwork _, .error err, s1, rfl, rfl,
        by simp only [BackendClient.createResult, hr], rfl, rfl, rfl, rfl, rfl, rfl, rfl⟩
    | ok id =>
      exact ⟨_, BackendCall.CreateNetwork _, .ok id, s1, rfl, rfl,
        by simp only [BackendClient.createResult, hr], rfl, rfl, rfl, rfl, rfl, rfl, rfl⟩
  | secret a =>
    rcases cfg with _ | (_ | _) | _ | (_ | spec) | _ | (_ | _) | _ | (_ | _) <;>
      simp [ConfigValue.isDeclaredSpec, AlgorithmPlugin.GetKind, algorithmSecret.GetKind] at h
    simp only [AlgorithmPlugin.CreateResource, algorithmSecret.CreateResource,
      BackendClient.callCreateSecret, AlgorithmPlugin.GetKind, algorithmSecret.GetKind]
    generalize hr : cli.CreateSecret _ _ = r
    obtain ⟨r1, s1⟩ := r
    cases r1 with
    | error err =>
      exact ⟨_, BackendCall.CreateSecret _, .error err, s1, rfl, rfl,
        by simp only [BackendClient.createResult, hr], rfl, rfl, rfl, rfl, rfl, rfl, rfl⟩
    | ok id =>
      exact ⟨_, BackendCall.CreateSecret _, .ok id, s1, rfl, rfl,
        by simp only [BackendClient.createResult, hr], rfl, rfl, rfl, rfl, rfl, rfl, rfl⟩
  | config a =>
    rcases cfg with _ | (_ | _) | _ | (_ | _) | _ | (_ | spec) | _ | (_ | _) <;>
      simp [ConfigValue.isDeclaredSpec, AlgorithmPlugin.GetKind, algorithmConfig.GetKind] at h
    simp only [AlgorithmPlugin.CreateResource, algorithmConfig.CreateResource,
      BackendClient.callCreateConfig, AlgorithmPlugin.GetKind, algorithmConfig.GetKind]
    generalize hr : cli.CreateConfig _ _ = r
    obtain ⟨r1, s1⟩ := r
    cases r1 with
    | error err =>
      exact ⟨_, BackendCall.CreateConfig _, .error err, s1, rfl, rfl,
        by simp only [BackendClient.createResult, hr], rfl, rfl, rfl, rfl, rfl, rfl, rfl⟩
    | ok id =>
      exact ⟨_, BackendCall.CreateConfig _, .ok id, s1, rfl, rfl,
        by simp only [BackendClient.createResult, hr], rfl, rfl, rfl, rfl, rfl, rfl, rfl⟩

/-- Claim C9: for each of the four plugins and a goal whose Config is a declared spec of the
plugin's kind, `CreateResource(goal)` issues the backend create call of its kind; when the
backend create succeeds it sets `goal.ID` to the ID the backend returned and returns nil,
when it fails it returns that error and leaves `goal.ID` unchanged; `goal.Name`, `goal.Mark`,
`goal.Meta` and `goal.Kind` are unchanged in both cases. -/
theorem createResource_sets_id {σ : Type} (cli : BackendClient σ) (p : AlgorithmPlugin)
    (resource : ReconcileResource) (w : World σ)
    (h : resource.Config.isDeclaredSpec p.GetKind = true) :
    ∃ out c r st1, p.CreateResource cli resource w = some out ∧
      c.createKind = some p.GetKind ∧
      cli.createResult c w.backend = some (r, st1) ∧
      out.world = w.after c st1 ∧
      out.resource.Name = resource.Name ∧ out.resource.Mark = resource.Mark ∧
      out.resource.Meta = resource.Meta ∧ out.resource.Kind = resource.Kind ∧
      (match r with
        | .ok id => out.err = none ∧ out.resource.ID = id
        | .error err => out.err = some err ∧ out.resource.ID = resource.ID) :=
  createResource_result cli p resource w h

/-- Witness of C9 on the sample goal against the empty store. -/
theorem createResource_sets_id_witness :
    sampleGoal.Config.isDeclaredSpec samplePlugin.GetKind = true ∧
    ∃ out c r st1, samplePlugin.CreateResource Store.client sampleGoal sampleWorld = some out ∧
      c.createKind = some samplePlugin.GetKind ∧
      Store.client.createResult c sampleWorld.backend = some (r, st1) ∧
      out.world = sampleWorld.after c st1 ∧
      out.resource.Name = sampleGoal.Name ∧ out.resource.Mark = sampleGoal.Mark ∧
      out.resource.Meta = sampleGoal.Meta ∧ out.resource.Kind = sampleGoal.Kind ∧
      (match r with
        | .ok id => out.err = none ∧ out.resource.ID = id
        | .error err => out.err = some err ∧ out.resource.ID = sampleGoal.ID) :=
  ⟨by decide, createResource_sets_id Store.client samplePlugin sampleGoal sampleWorld
    (by decide)⟩

/-! ## Created resources on the keyed store -/

theorem find_append_new {α : Type} (key : α → String) (l : List α) (id : String) (o : α)
    (h : key o = id) :
    ((l ++ [o]).find? (fun x => decide (key x = id))).isSome = true := by
  rw [List.find?_isSome]
  exact ⟨o, by simp, by simp [h]⟩

theorem store_create_holds (p : AlgorithmPlugin) (resource : ReconcileResource)
    (w : World Store) (out : Outcome Store)
    (hc : p.CreateResource Store.client resource w = some out) :
    out.err = none ∧
    (Store.lookup out.world.backend p.GetKind out.resource.ID).isSome = true := by
  obtain ⟨sr, mark, kind, cfg⟩ := resource
  cases p with
  | service a =>
    rcases cfg with _ | (_ | spec) | _ | (_ | _) | _ | (_ | _) | _ | (_ | _) <;>
      simp only [AlgorithmPlugin.CreateResource, algorithmService.CreateResource,
        reduceCtorEq] at hc
    simp only [BackendClient.callCreateService, Store.client, Store.CreateService,
      Option.some.injEq] at hc
    subst hc
    refine ⟨rfl, ?_⟩
    simp only [World.after, Store.lookup, AlgorithmPlugin.GetKind, algorithmService.GetKind,
      Option.isSome_map']
    exact find_append_new Service.ID _ (toString w.backend.nextID) _ rfl
  | network a =>
    rcases cfg with _ | (_ | _) | _ | (_ | _) | _ | (_ | _) | _ | (_ | spec) <;>
      simp only [AlgorithmPlugin.CreateResource, algorithmNetwork.CreateResource,
        reduceCtorEq] at hc
    simp only [BackendClient.callCreateNetwork, Store.client, Store.CreateNetwork,
      Option.some.injEq] at hc
    subst hc
    refine ⟨rfl, ?_⟩
    simp only [World.after, Store.lookup, AlgorithmPlugin.GetKind, algorithmNetwork.GetKind,
      Option.isSome_map']
    exact find_append_new NetworkResource.ID _ (toString w.backend.nextID) _ rfl
  | secret a =>
    rcases cfg with _ | (_ | _) | _ | (_ | spec) | _ | (_ | _) | _ | (_ | _) <;>
      simp only [AlgorithmPlugin.CreateResource, algorithmSecret.CreateResource,
        reduceCtorEq] at hc
    simp only [BackendClient.callCreateSecret, Store.client, Store.CreateSecret,
      Option.some.injEq] at hc
    subst hc
    refine ⟨rfl, ?_⟩
    simp only [World.after, Store.lookup, AlgorithmPlugin.GetKind, algorithmSecret.GetKind,
      Option.isSome_map']
    exact find_append_new Secret.ID _ (toString w.backend.nextID) _ rfl
  | config a =>
    rcases cfg with _ | (_ | _) | _ | (_ | _) | _ | (_ | spec) | _ | (_ | _) <;>
      simp only [AlgorithmPlugin.CreateResource, algorithmConfig.CreateResource,
        reduceCtorEq] at hc
    simp only [BackendClient.callCreateConfig, Store.client, Store.CreateConfig,
      Option.some.injEq] at hc
    subst hc
    refine ⟨rfl, ?_⟩
    simp only [World.after, Store.lookup, AlgorithmPlugin.GetKind, algorithmConfig.GetKind,
      Option.isSome_map']
    exact find_append_new Config.ID _ (toString w.backend.nextID) _ rfl

/-! ## Listing the active resources of a stack -/

theorem matchesFilters_stackLabelFilter (labels : Option (List (String × String)))
    (stackID : String) :
    Store.matchesFilters labels (stackLabelFilter stackID) = true ↔
      labelGet labels StackLabel = some stackID := by
  simp [Store.matchesFilters, stackLabelFilter]

/-- Claim C11: for every plugin bound to stack ID `s` and a backend that honours label filters,
every `ActiveResource` returned by `GetActiveResources` is of the plugin's kind, has
`GetStackID() = s`, and wraps a downstream object whose stack-namespace label is `s`; so a
downstream resource whose label is absent or differs from `s` is never in the result. -/
theorem getActiveResources_only_own_stack {σ : Type} (cli : BackendClient σ)
    (p : AlgorithmPlugin) (w : World σ) (h : cli.HonoursLabelFilters) :
    ∀ a ∈ (p.GetActiveResources cli w).1.1,
      a.GetStackID = p.stackID ∧
      labelGet a.raw.labels StackLabel = some p.stackID ∧
      a.kind = p.GetKind := by
  intro a ha
  obtain ⟨h1, h2, h3, h4⟩ := h (stackLabelFilter p.stackID) w.backend
  cases p with
  | service b =>
    simp only [AlgorithmPlugin.GetActiveResources, algorithmService.GetActiveResources,
      BackendClient.callGetServices] at ha
    cases hr : cli.GetServices (stackLabelFilter b.stackID) w.backend with
    | mk r1 s1 =>
      cases r1 with
      | error err => simp [hr] at ha
      | ok l =>
        simp only [hr, List.mem_map] at ha
        obtain ⟨o, ho, rfl⟩ := ha
        have hl := (matchesFilters_stackLabelFilter _ _).mp (h1 l s1 hr o ho)
        simp only [AlgorithmPlugin.stackID] at hl ⊢
        refine ⟨?_, hl, rfl⟩
        simp [InitializationService.wrapService, ActiveResource.GetStackID, hl]
  | network b =>
    simp only [AlgorithmPlugin.GetActiveResources, algorithmNetwork.GetActiveResources,
      BackendClient.callGetNetworks] at ha
    cases hr : cli.GetNetworks (stackLabelFilter b.stackID) w.backend with
    | mk r1 s1 =>
      cases r1 with
      | error err => simp [hr] at ha
      | ok l =>
        simp only [hr, List.mem_map] at ha
        obtain ⟨o, ho, rfl⟩ := ha
        have hl := (matchesFilters_stackLabelFilter _ _).mp (h2 l s1 hr o ho)
        simp only [AlgorithmPlugin.stackID] at hl ⊢
        refine ⟨?_, hl, rfl⟩
        simp [InitializationNetwork.wrapNetwork, ActiveResource.GetStackID, hl]
  | secret b =>
    simp only [AlgorithmPlugin.GetActiveResources, algorithmSecret.GetActiveResources,
      BackendClient.callGetSecrets] at ha
    cases hr : cli.GetSecrets (stackLabelFilter b.stackID) w.backend with
    | mk r1 s1 =>
      cases r1 with
      | error err => simp [hr] at ha
      | ok l =>
        simp only [hr, List.mem_map] at ha
        obtain ⟨o, ho, rfl⟩ := ha
        have hl := (matchesFilters_stackLabelFilter _ _).mp (h3 l s1 hr o ho)
        simp only [AlgorithmPlugin.stackID] at hl ⊢
        refine ⟨?_, hl, rfl⟩
        simp [InitializationSecret.wrapSecret, ActiveResource.GetStackID, hl]
  | config b =>
    simp only [AlgorithmPlugin.GetActiveResources, algorithmConfig.GetActiveResources,
      BackendClient.callGetConfigs] at ha
    cases hr : cli.GetConfigs (stackLabelFilter b.stackID) w.backend with
    | mk r1 s1 =>
      cases r1 with
      | error err => simp [hr] at ha
      | ok l =>
        simp only [hr, List.mem_map] at ha
        obtain ⟨o, ho, rfl⟩ := ha
        have hl := (matchesFilters_stackLabelFilter _ _).mp (h4 l s1 hr o ho)
        simp only [AlgorithmPlugin.stackID] at hl ⊢
        refine ⟨?_, hl, rfl⟩
        simp [InitializationConfig.wrapConfig, ActiveResource.GetStackID, hl]

theorem store_honours_label_filters : Store.client.HonoursLabelFilters := by
  intro filters st
  refine ⟨?_, ?_, ?_, ?_⟩ <;>
    intro l st1 hr o ho <;>
    simp only [Store.client, Store.GetServices, Store.GetNetworks, Store.GetSecrets,
      Store.GetConfigs, Prod.mk.injEq, Except.ok.injEq] at hr <;>
    obtain ⟨hl, _⟩ := hr <;>
    subst hl <;>
    exact (List.mem_filter.mp ho).2

/-- Witness of C11 on a store that holds services of two stacks and an unlabelled one. -/
theorem getActiveResources_only_own_stack_witness :
    Store.client.HonoursLabelFilters ∧
    ∀ a ∈ (samplePlugin.GetActiveResources Store.client labelledWorld).1.1,
      a.GetStackID = samplePlugin.stackID ∧
      labelGet a.raw.labels StackLabel = some samplePlugin.stackID ∧
      a.kind = samplePlugin.GetKind :=
  ⟨store_honours_label_filters,
    getActiveResources_only_own_stack Store.client samplePlugin labelledWorld
      store_honours_label_filters⟩

/-! ## Looking up one active resource -/

theorem getActiveResource_eq {σ : Type} (cli : BackendClient σ) (p : AlgorithmPlugin)
    (resource : ReconcileResource) (w : World σ) :
    p.GetActiveResource cli resource w
      = ((match (p.backendGet cli resource.ID w.backend).1 with
          | .error err => (ActiveResource.zeroOf p.GetKind, some err)
          | .ok o => (o.wrap, none)),
         w.after (p.getCall resource.ID) (p.backendGet cli resource.ID w.backend).2) := by
  cases p with
  | service a =>
    simp only [AlgorithmPlugin.GetActiveResource, InitializationService.GetActiveResource,
      BackendClient.callGetService, AlgorithmPlugin.backendGet, AlgorithmPlugin.getCall]
    generalize cli.GetService _ _ _ = r
    obtain ⟨r1, s1⟩ := r
    cases r1 <;> rfl
  | network a =>
    simp only [AlgorithmPlugin.GetActiveResource, InitializationNetwork.GetActiveResource,
      BackendClient.callGetNetwork, AlgorithmPlugin.backendGet, AlgorithmPlugin.getCall]
    generalize cli.GetNetwork _ _ = r
    obtain ⟨r1, s1⟩ := r
    cases r1 <;> rfl
  | secret a =>
    simp only [AlgorithmPlugin.GetActiveResource, InitializationSecret.GetActiveResource,
      BackendClient.callGetSecret, AlgorithmPlugin.backendGet, AlgorithmPlugin.getCall]
    generalize cli.GetSecret _ _ = r
    obtain ⟨r1, s1⟩ := r
    cases r1 <;> rfl
  | config a =>
    simp only [AlgorithmPlugin.GetActiveResource, InitializationConfig.GetActiveResource,
      BackendClient.callGetConfig, AlgorithmPlugin.backendGet, AlgorithmPlugin.getCall]
    generalize cli.GetConfig _ _ = r
    obtain ⟨r1, s1⟩ := r
    cases r1 <;> rfl

theorem store_backendGet (p : AlgorithmPlugin) (id : String) (st : Store) :
    p.backendGet Store.client id st
      = ((match Store.lookup st p.GetKind id with
          | some o => .ok o
          | none => .error (Store.errNotFound id)), st) := by
  cases p with
  | service a =>
    simp only [AlgorithmPlugin.backendGet, Store.client, Store.GetService, Store.lookup,
      AlgorithmPlugin.GetKind, algorithmService.GetKind]
    cases st.services.find? (fun o => decide (o.ID = id)) <;> rfl
  | network a =>
    simp only [AlgorithmPlugin.backendGet, Store.client, Store.GetNetwork, Store.lookup,
      AlgorithmPlugin.GetKind, algorithmNetwork.GetKind]
    cases st.networks.find? (fun o => decide (o.ID = id)) <;> rfl
  | secret a =>
    simp only [AlgorithmPlugin.backendGet, Store.client, Store.GetSecret, Store.lookup,
      AlgorithmPlugin.GetKind, algorithmSecret.GetKind]
    cases st.secrets.find? (fun o => decide (o.ID = id)) <;> rfl
  | config a =>
    simp only [AlgorithmPlugin.backendGet, Store.client, Store.GetConfig, Store.lookup,
      AlgorithmPlugin.GetKind, algorithmConfig.GetKind]
    cases st.configs.find? (fun o => decide (o.ID = id)) <;> rfl

/-- Claim C12: for each of the four kinds, `GetActiveResource(ref)` issues the backend lookup
of its kind for `ref.ID`; it returns an error exactly when that lookup fails and the error is
the backend's own, and it returns a nil error exactly when the lookup succeeds.  On the keyed
store the lookup fails exactly when the store holds no resource of the kind under `ref.ID`
(the empty reference included), and the error is then NotFound. -/
theorem getActiveResource_error_iff {σ : Type} (cli : BackendClient σ) (p : AlgorithmPlugin)
    (resource : ReconcileResource) (w : World σ) (ws : World Store) :
    (p.GetActiveResource cli resource w).2
      = w.after (p.getCall resource.ID) (p.backendGet cli resource.ID w.backend).2 ∧
    (p.GetActiveResource cli resource w).1.2
      = (match (p.backendGet cli resource.ID w.backend).1 with
          | .error err => some err
          | .ok _ => none) ∧
    ((p.GetActiveResource cli resource w).1.2 = none ↔
      ∃ o, (p.backendGet cli resource.ID w.backend).1 = .ok o) ∧
    (Store.lookup ws.backend p.GetKind resource.ID = none ↔
      ∃ err, (p.GetActiveResource Store.client resource ws).1.2 = some err) ∧
    (Store.lookup ws.backend p.GetKind resource.ID = none ↔
      (p.GetActiveResource Store.client resource ws).1.2
        = some (Store.errNotFound resource.ID)) ∧
    IsNotFound (Store.errNotFound resource.ID) = true := by
  refine ⟨by rw [getActiveResource_eq], ?_, ?_, ?_, ?_, rfl⟩
  · rw [getActiveResource_eq]
    cases (p.backendGet cli resource.ID w.backend).1 <;> rfl
  · rw [getActiveResource_eq]
    cases (p.backendGet cli resource.ID w.backend).1 <;> simp
  · rw [getActiveResource_eq, store_backendGet]
    cases Store.lookup ws.backend p.GetKind resource.ID <;> simp
  · rw [getActiveResource_eq, store_backendGet]
    cases Store.lookup ws.backend p.GetKind resource.ID <;> simp

/-! ## Create then look up -/

theorem find_append_fresh {α : Type} (l : List α) (o : α) (q : α → Bool)
    (h : l.find? q = none) (ho : q o = true) : (l ++ [o]).find? q = some o := by
  rw [List.find?_append, h]
  simp [List.find?_cons, ho]

theorem store_stores_submitted (st : Store) (h : st.Fresh) :
    Store.client.StoresSubmittedAt st := by
  refine ⟨?_, ?_, ?_, ?_⟩
  · intro spec arg2 arg3 resp st1 hc arg
    simp only [Store.client, Store.CreateService, Prod.mk.injEq, Except.ok.injEq] at hc
    obtain ⟨hresp, hst⟩ := hc
    subst hresp
    have hf := h ReconcileKind.ReconcileService
    simp only [Store.lookup, Option.map_eq_none'] at hf
    refine ⟨⟨toString st.nextID, ⟨⟨0⟩⟩, spec⟩, st1, ?_, rfl, rfl⟩
    rw [← hst]
    simp only [Store.client, Store.GetService]
    rw [find_append_fresh _ _ _ hf (by simp)]
  · intro request id st1 hc
    simp only [Store.client, Store.CreateNetwork, Prod.mk.injEq, Except.ok.injEq] at hc
    obtain ⟨hid, hst⟩ := hc
    subst hid
    have hf := h ReconcileKind.ReconcileNetwork
    simp only [Store.lookup, Option.map_eq_none'] at hf
    refine ⟨⟨toString st.nextID, request.Name, request.NetworkCreate.Labels,
      request.NetworkCreate.Settings⟩, st1, ?_, rfl, rfl, rfl⟩
    rw [← hst]
    simp only [Store.client, Store.GetNetwork]
    rw [find_append_fresh _ _ _ hf (by simp)]
  · intro spec id st1 hc
    simp only [Store.client, Store.CreateSecret, Prod.mk.injEq, Except.ok.injEq] at hc
    obtain ⟨hid, hst⟩ := hc
    subst hid
    have hf := h ReconcileKind.ReconcileSecret
    simp only [Store.lookup, Option.map_eq_none'] at hf
    refine ⟨⟨toString st.nextID, ⟨⟨0⟩⟩, spec⟩, st1, ?_, rfl, rfl⟩
    rw [← hst]
    simp only [Store.client, Store.GetSecret]
    rw [find_append_fresh _ _ _ hf (by simp)]
  · intro spec id st1 hc
    simp only [Store.client, Store.CreateConfig, Prod.mk.injEq, Except.ok.injEq] at hc
    obtain ⟨hid, hst⟩ := hc
    subst hid
    have hf := h ReconcileKind.ReconcileConfig
    simp only [Store.lookup, Option.map_eq_none'] at hf
    refine ⟨⟨toString st.nextID, ⟨⟨0⟩⟩, spec⟩, st1, ?_, rfl, rfl⟩
    rw [← hst]
    simp only [Store.client, Store.GetConfig]
    rw [find_append_fresh _ _ _ hf (by simp)]

theorem store_empty_fresh : Store.empty.Fresh := by
  intro k
  cases k <;> rfl

/-- Claim C13, amended: create then look up is a round trip on ownership for a goal whose Name
is the name of the spec its Config points to: for every plugin bound to stack ID `s`, if
`CreateResource(goal)` succeeds against a backend that stores the submitted spec, then
`GetActiveResource(goal)` succeeds and the returned `ActiveResource` has `GetStackID() = s`,
`GetSnapshot().ID = goal.ID` and `GetSnapshot().Name = goal.Name`. -/
theorem create_then_lookup_roundtrip {σ : Type} (cli : BackendClient σ) (p : AlgorithmPlugin)
    (resource : ReconcileResource) (w : World σ) (out : Outcome σ)
    (hc : p.CreateResource cli resource w = some out) (hs : out.err = none)
    (hname : resource.Config.specName = some resource.Name)
    (hlaw : cli.StoresSubmittedAt w.backend) :
    (p.GetActiveResource cli out.resource out.world).1.2 = none ∧
    (p.GetActiveResource cli out.resource out.world).1.1.GetStackID = p.stackID ∧
    (p.GetActiveResource cli out.resource out.world).1.1.GetSnapshot.ID = out.resource.ID ∧
    (p.GetActiveResource cli out.resource out.world).1.1.GetSnapshot.Name
      = out.resource.Name := by
  obtain ⟨sr, mark, kind, cfg⟩ := resource
  obtain ⟨l1, l2, l3, l4⟩ := hlaw
  cases p with
  | service a =>
    rcases cfg with _ | (_ | spec) | _ | (_ | _) | _ | (_ | _) | _ | (_ | _) <;>
      simp only [AlgorithmPlugin.CreateResource, algorithmService.CreateResource,
        reduceCtorEq] at hc
    simp only [BackendClient.callCreateService] at hc
    simp only [ConfigValue.specName, Option.some.injEq] at hname
    generalize hr : cli.CreateService _ _ _ _ = r at hc
    obtain ⟨r1, s1⟩ := r
    cases r1 with
    | error err =>
      simp only [Option.some.injEq] at hc
      subst hc
      simp at hs
    | ok resp =>
      simp only [Option.some.injEq] at hc
      subst hc
      obtain ⟨o, st2, hg, hid, hspec⟩ := l1 _ _ _ resp s1 hr DefaultGetServiceArg2
      simp only [AlgorithmPlugin.GetActiveResource, InitializationService.GetActiveResource,
        BackendClient.callGetService, World.after, hg, AlgorithmPlugin.stackID]
      refine ⟨trivial, ?_, hid, ?_⟩
      · simp [InitializationService.wrapService, ActiveResource.GetStackID, hspec, labelGet,
          mapGet_mapSet_self]
      · simp [InitializationService.wrapService, ActiveResource.GetSnapshot, hspec, hname]
  | network a =>
    rcases cfg with _ | (_ | _) | _ | (_ | _) | _ | (_ | _) | _ | (_ | spec) <;>
      simp only [AlgorithmPlugin.CreateResource, algorithmNetwork.CreateResource,
        reduceCtorEq] at hc
    simp only [BackendClient.callCreateNetwork] at hc
    simp only [ConfigValue.specName, Option.some.injEq] at hname
    generalize hr : cli.CreateNetwork _ _ = r at hc
    obtain ⟨r1, s1⟩ := r
    cases r1 with
    | error err =>
      simp only [Option.some.injEq] at hc
      subst hc
      simp at hs
    | ok id =>
      simp only [Option.some.injEq] at hc
      subst hc
      obtain ⟨o, st2, hg, hid, hn, hlab⟩ := l2 _ id s1 hr
      simp only [AlgorithmPlugin.GetActiveResource, InitializationNetwork.GetActiveResource,
        BackendClient.callGetNetwork, World.after, hg, AlgorithmPlugin.stackID]
      refine ⟨trivial, ?_, hid, ?_⟩
      · simp [InitializationNetwork.wrapNetwork, ActiveResource.GetStackID, hlab, labelGet,
          mapGet_mapSet_self]
      · simp [InitializationNetwork.wrapNetwork, ActiveResource.GetSnapshot, hn, hname]
  | secret a =>
    rcases cfg with _ | (_ | _) | _ | (_ | spec) | _ | (_ | _) | _ | (_ | _) <;>
      simp only [AlgorithmPlugin.CreateResource, algorithmSecret.CreateResource,
        reduceCtorEq] at hc
    simp only [BackendClient.callCreateSecret] at hc
    simp only [ConfigValue.specName, Option.some.injEq] at hname
    generalize hr : cli.CreateSecret _ _ = r at hc
    obtain ⟨r1, s1⟩ := r
    cases r1 with
    | error err =>
      simp only [Option.some.injEq] at hc
      subst hc
      simp at hs
    | ok id =>
      simp only [Option.some.injEq] at hc
      subst hc
      obtain ⟨o, st2, hg, hid, hspec⟩ := l3 _ id s1 hr
      simp only [AlgorithmPlugin.GetActiveResource, InitializationSecret.GetActiveResource,
        BackendClient.callGetSecret, World.after, hg, AlgorithmPlugin.stackID]
      refine ⟨trivial, ?_, hid, ?_⟩
      · simp [InitializationSecret.wrapSecret, ActiveResource.GetStackID, hspec, labelGet,
          mapGet_mapSet_self]
      · simp [InitializationSecret.wrapSecret, ActiveResource.GetSnapshot, hspec, hname]
  | config a =>
    rcases cfg with _ | (_ | _) | _ | (_ | _) | _ | (_ | spec) | _ | (_ | _) <;>
      simp only [AlgorithmPlugin.CreateResource, algorithmConfig.CreateResource,
        reduceCtorEq] at hc
    simp only [BackendClient.callCreateConfig] at hc
    simp only [ConfigValue.specName, Option.some.injEq] at hname
    generalize hr : cli.CreateConfig _ _ = r at hc
    obtain ⟨r1, s1⟩ := r
    cases r1 with
    | error err =>
      simp only [Option.some.injEq] at hc
      subst hc
      simp at hs
    | ok id =>
      simp only [Option.some.injEq] at hc
      subst hc
      obtain ⟨o, st2, hg, hid, hspec⟩ := l4 _ id s1 hr
      simp only [AlgorithmPlugin.GetActiveResource, InitializationConfig.GetActiveResource,
        BackendClient.callGetConfig, World.after, hg, AlgorithmPlugin.stackID]
      refine ⟨trivial, ?_, hid, ?_⟩
      · simp [InitializationConfig.wrapConfig, ActiveResource.GetStackID, hspec, labelGet,
          mapGet_mapSet_self]
      · simp [InitializationConfig.wrapConfig, ActiveResource.GetSnapshot, hspec, hname]

/-- Counterexample to C13: a goal named `x` whose Config points to the declared spec named `web`
is created against the empty keyed store, which stores the submitted spec; the lookup that
follows succeeds and returns an active resource named `web`, not `x`. -/
theorem created_name_is_spec_name :
    samplePlugin.CreateResource Store.client misnamedGoal sampleWorld = some misnamedCreated ∧
    misnamedCreated.err = none ∧
    Store.client.StoresSubmittedAt sampleWorld.backend ∧
    (samplePlugin.GetActiveResource Store.client misnamedCreated.resource
      misnamedCreated.world).1.2 = none ∧
    (samplePlugin.GetActiveResource Store.client misnamedCreated.resource
      misnamedCreated.world).1.1.GetSnapshot.Name = "web" ∧
    misnamedCreated.resource.Name = "x" ∧
    (samplePlugin.GetActiveResource Store.client misnamedCreated.resource
      misnamedCreated.world).1.1.GetSnapshot.Name ≠ misnamedCreated.resource.Name :=
  ⟨rfl, rfl, store_stores_submitted _ store_empty_fresh, rfl, rfl, rfl, by decide⟩

/-- Witness of the amended C13 on the sample goal, created against the empty keyed store. -/
theorem create_then_lookup_roundtrip_witness :
    samplePlugin.CreateResource Store.client sampleGoal sampleWorld = some sampleCreated ∧
    sampleCreated.err = none ∧
    sampleGoal.Config.specName = some sampleGoal.Name ∧
    Store.client.StoresSubmittedAt sampleWorld.backend ∧
    ((samplePlugin.GetActiveResource Store.client sampleCreated.resource
        sampleCreated.world).1.2 = none ∧
    (samplePlugin.GetActiveResource Store.client sampleCreated.resource
        sampleCreated.world).1.1.GetStackID = samplePlugin.stackID ∧
    (samplePlugin.GetActiveResource Store.client sampleCreated.resource
        sampleCreated.world).1.1.GetSnapshot.ID = sampleCreated.resource.ID ∧
    (samplePlugin.GetActiveResource Store.client sampleCreated.resource
        sampleCreated.world).1.1.GetSnapshot.Name = sampleCreated.resource.Name) :=
  ⟨rfl, rfl, rfl, store_stores_submitted _ store_empty_fresh,
    create_then_lookup_roundtrip Store.client samplePlugin sampleGoal sampleWorld sampleCreated
      rfl rfl rfl (store_stores_submitted _ store_empty_fresh)⟩

/-! ## Comparing configurations -/

theorem mapGet_eq_none_of_not_mem {β : Type} (l : List (String × β)) (k : String)
    (h : k ∉ l.map Prod.fst) : mapGet l k = none := by
  induction l with
  | nil => rfl
  | cons e rest ih =>
    obtain ⟨k1, v1⟩ := e
    simp only [List.map_cons, List.mem_cons, not_or] at h
    simp only [mapGet, if_neg (Ne.symm h.1)]
    exact ih h.2

theorem labelGet_eq_mapGet (m : Option (List (String × String))) (k : String) :
    labelGet m k = mapGet (m.getD []) k := by
  cases m <;> rfl

theorem compareMapsIgnoreStackLabel_iff (one two : Option (List (String × String))) :
    compareMapsIgnoreStackLabel one two = true ↔
      ∀ k, k ≠ StackLabel → labelGet one k = labelGet two k := by
  simp only [compareMapsIgnoreStackLabel, Bool.and_eq_true, List.all_eq_true, Bool.or_eq_true,
    decide_eq_true_eq, labelGet_eq_mapGet]
  constructor
  · rintro ⟨h1, h2⟩ k hk
    by_cases hl : k ∈ (one.getD []).map Prod.fst
    · obtain ⟨e, he, rfl⟩ := List.mem_map.mp hl
      rcases h1 e he with h | h
      · exact absurd h hk
      · exact h.symm
    · by_cases hr : k ∈ (two.getD []).map Prod.fst
      · obtain ⟨e, he, rfl⟩ := List.mem_map.mp hr
        rcases h2 e he with h | h
        · exact absurd h hk
        · exact h
      · rw [mapGet_eq_none_of_not_mem _ _ hl, mapGet_eq_none_of_not_mem _ _ hr]
  · intro h
    refine ⟨fun e _ => ?_, fun e _ => ?_⟩
    · by_cases hk : e.1 = StackLabel
      · exact Or.inl hk
      · exact Or.inr (h e.1 hk).symm
    · by_cases hk : e.1 = StackLabel
      · exact Or.inl hk
      · exact Or.inr (h e.1 hk)

theorem labelGet_mapSet_stackLabel (labels : Option (List (String × String)))
    (stackID : String) (k : String) (hk : k ≠ StackLabel) :
    labelGet labels k = labelGet (some (mapSet (labels.getD []) StackLabel stackID)) k := by
  rw [labelGet_eq_mapGet, labelGet_eq_mapGet]
  exact (mapGet_mapSet_other _ _ _ _ hk).symm

/-- Claim C14: for the service, secret and config plugins, `hasSameConfiguration` ignores the
stack-namespace label: when the declared spec and the active resource's spec are the same in
every compared field and their label maps `l1` and `l2` agree on every label other than
`com.docker.stack.namespace`, it returns true, whatever the two maps hold under that label. -/
theorem hasSameConfiguration_ignores_stack_label (l1 l2 : Option (List (String × String)))
    (hlab : ∀ k, k ≠ StackLabel → labelGet l1 k = labelGet l2 k) :
    (∀ (a : algorithmService) (sr : SnapshotResource) (mark : ReconcileState)
        (kind : ReconcileKind) (one : ServiceSpec) (active : activeService),
      a.hasSameConfiguration
        ⟨sr, mark, kind,
          ConfigValue.servicePtr (some { one with Annotations := ⟨one.Annotations.Name, l1⟩ })⟩
        (ActiveResource.service
          { active with
            service :=
              { active.service with
                Spec := { one with Annotations := ⟨one.Annotations.Name, l2⟩ } } })
        = some true) ∧
    (∀ (a : algorithmSecret) (sr : SnapshotResource) (mark : ReconcileState)
        (kind : ReconcileKind) (one : SecretSpec) (active : activeSecret),
      a.hasSameConfiguration
        ⟨sr, mark, kind,
          ConfigValue.secretPtr (some { one with Annotations := ⟨one.Annotations.Name, l1⟩ })⟩
        (ActiveResource.secret
          { active with
            secret :=
              { active.secret with
                Spec := { one with Annotations := ⟨one.Annotations.Name, l2⟩ } } })
        = some true) ∧
    (∀ (a : algorithmConfig) (sr : SnapshotResource) (mark : ReconcileState)
        (kind : ReconcileKind) (one : ConfigSpec) (active : activeConfig),
      a.hasSameConfiguration
        ⟨sr, mark, kind,
          ConfigValue.configPtr (some { one with Annotations := ⟨one.Annotations.Name, l1⟩ })⟩
        (ActiveResource.config
          { active with
            config :=
              { active.config with
                Spec := { one with Annotations := ⟨one.Annotations.Name, l2⟩ } } })
        = some true) := by
  have hcmp := (compareMapsIgnoreStackLabel_iff l1 l2).mpr hlab
  refine ⟨?_, ?_, ?_⟩
  · intro a sr mark kind one active
    simp [algorithmService.hasSameConfiguration, hcmp]
  · intro a sr mark kind one active
    simp [algorithmSecret.hasSameConfiguration, hcmp]
  · intro a sr mark kind one active
    simp [algorithmConfig.hasSameConfiguration, hcmp]

/-- Witness of C14: a declared spec without labels against the active resource created from
it, whose label map holds the stack-namespace label only. -/
theorem hasSameConfiguration_ignores_stack_label_witness :
    (∀ k, k ≠ StackLabel →
      labelGet none k = labelGet (some (mapSet [] StackLabel "s1")) k) ∧
    ((algorithmService.mk none "s1" sampleStackSpec []).hasSameConfiguration
        ⟨sampleGoal.toSnapshotResource, ReconcileState.ReconcileNone,
          ReconcileKind.ReconcileService,
          ConfigValue.servicePtr
            (some { sampleServiceSpec with
              Annotations := ⟨sampleServiceSpec.Annotations.Name, none⟩ })⟩
        (ActiveResource.service
          { activeService.zero with
            service :=
              { activeService.zero.service with
                Spec := { sampleServiceSpec with
                  Annotations :=
                    ⟨sampleServiceSpec.Annotations.Name,
                      some (mapSet [] StackLabel "s1")⟩ } } })
        = some true) :=
  ⟨labelGet_mapSet_stackLabel none "s1",
    (hasSameConfiguration_ignores_stack_label none (some (mapSet [] StackLabel "s1"))
      (labelGet_mapSet_stackLabel none "s1")).1 _ _ _ _ sampleServiceSpec activeService.zero⟩

/-- Claim C15: for the network plugin, `hasSameConfiguration(goal, active)` returns true for
every goal and every active resource, whatever their configurations. -/
theorem network_hasSameConfiguration_true (a : algorithmNetwork) (resource : ReconcileResource)
    (actual : ActiveResource) :
    a.hasSameConfiguration resource actual = some true ∧
    (AlgorithmPlugin.network a).hasSameConfiguration resource actual = some true :=
  ⟨rfl, rfl⟩

/-- Claim C16: for the service plugin, `hasSameConfiguration(goal, active)` on a goal whose
Config is a declared service spec returns, and it returns true if and only if the declared and
the active spec have the same Name, label maps that agree on every label other than the
stack-namespace label, and equal TaskTemplate, Mode, UpdateConfig, RollbackConfig, Networks
and EndpointSpec. -/
theorem service_hasSameConfiguration_iff (a : algorithmService) (sr : SnapshotResource)
    (mark : ReconcileState) (kind : ReconcileKind) (one : ServiceSpec)
    (active : activeService) :
    ∃ b, a.hasSameConfiguration ⟨sr, mark, kind, ConfigValue.servicePtr (some one)⟩
        (ActiveResource.service active) = some b ∧
      (b = true ↔
        one.Annotations.Name = active.service.Spec.Annotations.Name ∧
        (∀ k, k ≠ StackLabel →
          labelGet one.Annotations.Labels k
            = labelGet active.service.Spec.Annotations.Labels k) ∧
        one.TaskTemplate = active.service.Spec.TaskTemplate ∧
        one.Mode = active.service.Spec.Mode ∧
        one.UpdateConfig = active.service.Spec.UpdateConfig ∧
        one.RollbackConfig = active.service.Spec.RollbackConfig ∧
        one.Networks = active.service.Spec.Networks ∧
        one.EndpointSpec = active.service.Spec.EndpointSpec) := by
  refine ⟨_, rfl, ?_⟩
  simp only [Bool.and_eq_true, decide_eq_true_eq, compareMapsIgnoreStackLabel_iff]
  tauto

/-- Claim C17: on a goal whose Config is a declared spec of its kind, `hasSameConfiguration`
of the secret plugin returns true if and only if name, labels (stack-namespace label
disregarded), Data, Driver and Templating agree, and that of the config plugin if and only if
name, labels (stack-namespace label disregarded), Data and Templating agree. -/
theorem secret_config_hasSameConfiguration_iff (sr : SnapshotResource) (mark : ReconcileState)
    (kind : ReconcileKind) (a : algorithmSecret) (one : SecretSpec) (active : activeSecret)
    (a1 : algorithmConfig) (one1 : ConfigSpec) (active1 : activeConfig) :
    (∃ b, a.hasSameConfiguration ⟨sr, mark, kind, ConfigValue.secretPtr (some one)⟩
        (ActiveResource.secret active) = some b ∧
      (b = true ↔
        one.Annotations.Name = active.secret.Spec.Annotations.Name ∧
        (∀ k, k ≠ StackLabel →
          labelGet one.Annotations.Labels k
            = labelGet active.secret.Spec.Annotations.Labels k) ∧
        one.Data = active.secret.Spec.Data ∧
        one.Driver = active.secret.Spec.Driver ∧
        one.Templating = active.secret.Spec.Templating)) ∧
    (∃ b, a1.hasSameConfiguration ⟨sr, mark, kind, ConfigValue.configPtr (some one1)⟩
        (ActiveResource.config active1) = some b ∧
      (b = true ↔
        one1.Annotations.Name = active1.config.Spec.Annotations.Name ∧
        (∀ k, k ≠ StackLabel →
          labelGet one1.Annotations.Labels k
            = labelGet active1.config.Spec.Annotations.Labels k) ∧
        one1.Data = active1.config.Spec.Data ∧
        one1.Templating = active1.config.Spec.Templating)) := by
  refine ⟨⟨_, rfl, ?_⟩, ⟨_, rfl, ?_⟩⟩
  · simp only [Bool.and_eq_true, decide_eq_true_eq, compareMapsIgnoreStackLabel_iff]
    tauto
  · simp only [Bool.and_eq_true, decide_eq_true_eq, compareMapsIgnoreStackLabel_iff]
    tauto

/-! ## Updating -/

/-- Claim C19: for the network plugin, `UpdateResource` returns nil for every goal and issues
no backend call: the backend state and the list of issued calls are as before. -/
theorem network_updateResource_noop {σ : Type} (cli : BackendClient σ) (a : algorithmNetwork)
    (resource : ReconcileResource) (w : World σ) :
    a.UpdateResource cli resource w = some (none, w) ∧
    (AlgorithmPlugin.network a).UpdateResource cli resource w = some (none, w) :=
  ⟨rfl, rfl⟩

/-! ## Registering a create goal -/

theorem find_by_name_eq_mapGet (goals : List (String × ReconcileResource))
    (h : ∀ e ∈ goals, e.2.Name = e.1) (name : String) :
    (goals.find? (fun entry => decide (name = entry.2.Name))).map (fun entry => entry.2)
      = mapGet goals name := by
  induction goals with
  | nil => rfl
  | cons e rest ih =>
    obtain ⟨k, r⟩ := e
    have hk : r.Name = k := h (k, r) (List.mem_cons_self _ _)
    have hrest : ∀ e ∈ rest, e.2.Name = e.1 := fun e he => h e (List.mem_cons_of_mem _ he)
    by_cases hn : k = name
    · rw [List.find?_cons_of_pos _ (by simp [hk, hn])]
      simp [mapGet, hn]
    · rw [List.find?_cons_of_neg _ (by simpa [hk] using Ne.symm hn)]
      simp only [mapGet, if_neg hn]
      exact ih hrest

theorem getGoalResource_eq_mapGet (p : AlgorithmPlugin) (h : WellKeyed p.goals)
    (name : String) : p.getGoalResource name = mapGet p.goals name := by
  cases p <;> exact find_by_name_eq_mapGet _ h.2 name

/-- Claim C20: for each plugin whose goal map is well keyed and every name `n` declared in the
stack spec for its kind, `addCreateResourceGoal(n)` returns a goal with Name `n`, the plugin's
Kind, an empty ID and Config equal to the declared spec named `n`; afterwards
`getGoalResource(n)` returns that goal, whatever was registered under `n` before, and
`getGoalResource` of every other name returns what it returned before. -/
theorem addCreateResourceGoal_registers (p : AlgorithmPlugin) (n : String)
    (hdecl : n ∈ p.getSpecifiedResourceNames) (hw : WellKeyed p.goals) :
    ∃ goal p1, p.addCreateResourceGoal n = some (goal, p1) ∧
      goal.Name = n ∧ goal.Kind = p.GetKind ∧ goal.ID = "" ∧
      goal.Config = p.lookupSpecifiedResource n ∧
      goal.Config.isDeclaredSpec p.GetKind = true ∧
      goal.Config.specName = some n ∧
      p1.getGoalResource n = some goal ∧
      ∀ m, m ≠ n → p1.getGoalResource m = p.getGoalResource m := by
  cases p with
  | service a =>
    obtain ⟨spec, hl, hn⟩ := a.lookupServiceSpec_declared n hdecl
    have hw1 : WellKeyed (mapSet a.goals n
        ⟨⟨"", ⟨⟨0⟩⟩, spec.Annotations.Name⟩, ReconcileState.ReconcileNone, a.GetKind,
          ConfigValue.servicePtr (some spec)⟩) := wellKeyed_mapSet _ _ _ hn hw
    refine ⟨⟨⟨"", ⟨⟨0⟩⟩, spec.Annotations.Name⟩, ReconcileState.ReconcileNone, a.GetKind,
        ConfigValue.servicePtr (some spec)⟩,
      AlgorithmPlugin.service ⟨a.requestedResource, a.stackID, a.stackSpec, mapSet a.goals n
        ⟨⟨"", ⟨⟨0⟩⟩, spec.Annotations.Name⟩, ReconcileState.ReconcileNone, a.GetKind,
          ConfigValue.servicePtr (some spec)⟩⟩,
      ?_, hn, rfl, rfl, ?_, rfl, ?_, ?_, ?_⟩
    · simp only [AlgorithmPlugin.addCreateResourceGoal, algorithmService.addCreateResourceGoal,
        hl, Option.map_some']
    · simp only [AlgorithmPlugin.lookupSpecifiedResource,
        algorithmService.lookupSpecifiedResource, hl]
    · simp only [ConfigValue.specName, hn]
    · simp only [AlgorithmPlugin.getGoalResource, algorithmService.getGoalResource]
      rw [find_by_name_eq_mapGet _ hw1.2]
      exact mapGet_mapSet_self _ _ _
    · intro m hm
      simp only [AlgorithmPlugin.getGoalResource, algorithmService.getGoalResource]
      rw [find_by_name_eq_mapGet _ hw1.2, find_by_name_eq_mapGet a.goals hw.2]
      exact mapGet_mapSet_other _ _ _ _ hm
  | network a =>
    obtain ⟨request, hl, hn⟩ := a.lookupNetworkSpec_declared n hdecl
    have hw1 : WellKeyed (mapSet a.goals n
        ⟨⟨"", ⟨⟨0⟩⟩, request.Name⟩, ReconcileState.ReconcileNone, a.GetKind,
          ConfigValue.networkPtr (some request)⟩) := wellKeyed_mapSet _ _ _ hn hw
    refine ⟨⟨⟨"", ⟨⟨0⟩⟩, request.Name⟩, ReconcileState.ReconcileNone, a.GetKind,
        ConfigValue.networkPtr (some request)⟩,
      AlgorithmPlugin.network ⟨a.requestedResource, a.stackID, a.stackSpec, mapSet a.goals n
        ⟨⟨"", ⟨⟨0⟩⟩, request.Name⟩, ReconcileState.ReconcileNone, a.GetKind,
          ConfigValue.networkPtr (some request)⟩⟩,
      ?_, hn, rfl, rfl, ?_, rfl, ?_, ?_, ?_⟩
    · simp only [AlgorithmPlugin.addCreateResourceGoal, algorithmNetwork.addCreateResourceGoal,
        hl, Option.map_some']
    · simp only [AlgorithmPlugin.lookupSpecifiedResource,
        algorithmNetwork.lookupSpecifiedResource, hl]
    · simp only [ConfigValue.specName, hn]
    · simp only [AlgorithmPlugin.getGoalResource, algorithmNetwork.getGoalResource]
      rw [find_by_name_eq_mapGet _ hw1.2]
      exact mapGet_mapSet_self _ _ _
    · intro m hm
      simp only [AlgorithmPlugin.getGoalResource, algorithmNetwork.getGoalResource]
      rw [find_by_name_eq_mapGet _ hw1.2, find_by_name_eq_mapGet a.goals hw.2]
      exact mapGet_mapSet_other _ _ _ _ hm
  | secret a =>
    obtain ⟨spec, hl, hn⟩ := a.lookupSecretSpec_declared n hdecl
    have hw1 : WellKeyed (mapSet a.goals n
        ⟨⟨"", ⟨⟨0⟩⟩, spec.Annotations.Name⟩, ReconcileState.ReconcileNone, a.GetKind,
          ConfigValue.secretPtr (some spec)⟩) := wellKeyed_mapSet _ _ _ hn hw
    refine ⟨⟨⟨"", ⟨⟨0⟩⟩, spec.Annotations.Name⟩, ReconcileState.ReconcileNone, a.GetKind,
        ConfigValue.secretPtr (some spec)⟩,
      AlgorithmPlugin.secret ⟨a.requestedResource, a.stackID, a.stackSpec, mapSet a.goals n
        ⟨⟨"", ⟨⟨0⟩⟩, spec.Annotations.Name⟩, ReconcileState.ReconcileNone, a.GetKind,
          ConfigValue.secretPtr (some spec)⟩⟩,
      ?_, hn, rfl, rfl, ?_, rfl, ?_, ?_, ?_⟩
    · simp only [AlgorithmPlugin.addCreateResourceGoal, algorithmSecret.addCreateResourceGoal,
        hl, Option.map_some']
    · simp only [AlgorithmPlugin.lookupSpecifiedResource,
        algorithmSecret.lookupSpecifiedResource, hl]
    · simp only [ConfigValue.specName, hn]
    · simp only [AlgorithmPlugin.getGoalResource, algorithmSecret.getGoalResource]
      rw [find_by_name_eq_mapGet _ hw1.2]
      exact mapGet_mapSet_self _ _ _
    · intro m hm
      simp only [AlgorithmPlugin.getGoalResource, algorithmSecret.getGoalResource]
      rw [find_by_name_eq_mapGet _ hw1.2, find_by_name_eq_mapGet a.goals hw.2]
      exact mapGet_mapSet_other _ _ _ _ hm
  | config a =>
    obtain ⟨spec, hl, hn⟩ := a.lookupConfigSpec_declared n hdecl
    have hw1 : WellKeyed (mapSet a.goals n
        ⟨⟨"", ⟨⟨0⟩⟩, spec.Annotations.Name⟩, ReconcileState.ReconcileNone, a.GetKind,
          ConfigValue.configPtr (some spec)⟩) := wellKeyed_mapSet _ _ _ hn hw
    refine ⟨⟨⟨"", ⟨⟨0⟩⟩, spec.Annotations.Name⟩, ReconcileState.ReconcileNone, a.GetKind,
        ConfigValue.configPtr (some spec)⟩,
      AlgorithmPlugin.config ⟨a.requestedResource, a.stackID, a.stackSpec, mapSet a.goals n
        ⟨⟨"", ⟨⟨0⟩⟩, spec.Annotations.Name⟩, ReconcileState.ReconcileNone, a.GetKind,
          ConfigValue.configPtr (some spec)⟩⟩,
      ?_, hn, rfl, rfl, ?_, rfl, ?_, ?_, ?_⟩
    · simp only [AlgorithmPlugin.addCreateResourceGoal, algorithmConfig.addCreateResourceGoal,
        hl, Option.map_some']
    · simp only [AlgorithmPlugin.lookupSpecifiedResource,
        algorithmConfig.lookupSpecifiedResource, hl]
    · simp only [ConfigValue.specName, hn]
    · simp only [AlgorithmPlugin.getGoalResource, algorithmConfig.getGoalResource]
      rw [find_by_name_eq_mapGet _ hw1.2]
      exact mapGet_mapSet_self _ _ _
    · intro m hm
      simp only [AlgorithmPlugin.getGoalResource, algorithmConfig.getGoalResource]
      rw [find_by_name_eq_mapGet _ hw1.2, find_by_name_eq_mapGet a.goals hw.2]
      exact mapGet_mapSet_other _ _ _ _ hm

/-- Witness of C20 on a plugin that already holds a goal under `web` and one under `db`. -/
theorem addCreateResourceGoal_registers_witness :
    "web" ∈ registeredPlugin.getSpecifiedResourceNames ∧ WellKeyed registeredPlugin.goals ∧
    ∃ goal p1, registeredPlugin.addCreateResourceGoal "web" = some (goal, p1) ∧
      goal.Name = "web" ∧ goal.Kind = registeredPlugin.GetKind ∧ goal.ID = "" ∧
      goal.Config = registeredPlugin.lookupSpecifiedResource "web" ∧
      goal.Config.isDeclaredSpec registeredPlugin.GetKind = true ∧
      goal.Config.specName = some "web" ∧
      p1.getGoalResource "web" = some goal ∧
      ∀ m, m ≠ "web" → p1.getGoalResource m = registeredPlugin.getGoalResource m :=
  ⟨by decide, ⟨by decide, by decide⟩,
    addCreateResourceGoal_registers registeredPlugin "web" (by decide)
      ⟨by decide, by decide⟩⟩

/-! ## Update and the stack label -/

/-- Evaluation for C18: the service plugin bound to `s1` updates the downstream service `1`,
which carries the stack-namespace label `s1`, through a goal whose Config is the declared
spec `web` (declared without labels).  `UpdateResource` submits the declared spec as it is,
the keyed store replaces the stored spec with it, and the downstream service no longer
carries the stack-namespace label. -/
theorem updateResource_drops_stack_label :
    plainPlugin.lookupSpecifiedResource "web" = plainGoal.Config ∧
    (Store.lookup sampleCreated.world.backend ReconcileKind.ReconcileService plainGoal.ID).map
      (fun o => labelGet o.labels StackLabel) = some (some plainPlugin.stackID) ∧
    (plainPlugin.UpdateResource Store.client plainGoal sampleCreated.world).map
      (fun r => r.1) = some none ∧
    ((plainPlugin.UpdateResource Store.client plainGoal sampleCreated.world).bind
      (fun r => Store.lookup r.2.backend ReconcileKind.ReconcileService plainGoal.ID)).map
      (fun o => labelGet o.labels StackLabel) = some none := by
  decide

/-! ## Registering a remove goal -/

theorem addRemoveResourceGoal_spec (p : AlgorithmPlugin) (activeResource : ActiveResource)
    (hk : activeResource.kind = p.GetKind) :
    ∃ goal p1, p.addRemoveResourceGoal activeResource = some (goal, p1) ∧
      goal.toSnapshotResource = activeResource.GetSnapshot ∧
      goal.Mark = ReconcileState.ReconcileNone ∧
      goal.Kind = p.GetKind ∧
      p1.goals = mapSet p.goals activeResource.GetSnapshot.Name goal ∧
      p1.GetKind = p.GetKind := by
  cases p with
  | service a =>
    cases activeResource with
    | service act =>
      exact ⟨⟨act.toSnapshotResource, ReconcileState.ReconcileNone, a.GetKind,
          ConfigValue.service act.service.Spec⟩, _, rfl, rfl, rfl, rfl, rfl, rfl⟩
    | network act => simp [ActiveResource.kind, AlgorithmPlugin.GetKind, algorithmService.GetKind] at hk
    | secret act => simp [ActiveResource.kind, AlgorithmPlugin.GetKind, algorithmService.GetKind] at hk
    | config act => simp [ActiveResource.kind, AlgorithmPlugin.GetKind, algorithmService.GetKind] at hk
  | network a =>
    cases activeResource with
    | network act =>
      exact ⟨⟨act.toSnapshotResource, ReconcileState.ReconcileNone, a.GetKind,
          ConfigValue.networkPtr (a.lookupNetworkSpec act.Name)⟩, _, rfl, rfl, rfl, rfl, rfl, rfl⟩
    | service act => simp [ActiveResource.kind, AlgorithmPlugin.GetKind, algorithmNetwork.GetKind] at hk
    | secret act => simp [ActiveResource.kind, AlgorithmPlugin.GetKind, algorithmNetwork.GetKind] at hk
    | config act => simp [ActiveResource.kind, AlgorithmPlugin.GetKind, algorithmNetwork.GetKind] at hk
  | secret a =>
    cases activeResource with
    | secret act =>
      exact ⟨⟨act.toSnapshotResource, ReconcileState.ReconcileNone, a.GetKind,
          ConfigValue.secret act.secret.Spec⟩, _, rfl, rfl, rfl, rfl, rfl, rfl⟩
    | service act => simp [ActiveResource.kind, AlgorithmPlugin.GetKind, algorithmSecret.GetKind] at hk
    | network act => simp [ActiveResource.kind, AlgorithmPlugin.GetKind, algorithmSecret.GetKind] at hk
    | config act => simp [ActiveResource.kind, AlgorithmPlugin.GetKind, algorithmSecret.GetKind] at hk
  | config a =>
    cases activeResource with
    | config act =>
      exact ⟨⟨act.toSnapshotResource, ReconcileState.ReconcileNone, a.GetKind,
          ConfigValue.config act.config.Spec⟩, _, rfl, rfl, rfl, rfl, rfl, rfl⟩
    | service act => simp [ActiveResource.kind, AlgorithmPlugin.GetKind, algorithmConfig.GetKind] at hk
    | network act => simp [ActiveResource.kind, AlgorithmPlugin.GetKind, algorithmConfig.GetKind] at hk
    | secret act => simp [ActiveResource.kind, AlgorithmPlugin.GetKind, algorithmConfig.GetKind] at hk

/-- Counterexample to C21: on the fresh service plugin, `addRemoveResourceGoal` for the active
service `db` returns and stores under `db` a goal whose Mark is the zero value, not Delete. -/
theorem addRemoveResourceGoal_leaves_mark_unset :
    (samplePlugin.addRemoveResourceGoal sampleActive).map (fun r => r.1) = some dbGoal ∧
    (samplePlugin.addRemoveResourceGoal sampleActive).map (fun r => mapGet r.2.goals "db")
      = some (some dbGoal) ∧
    dbGoal.Mark = ReconcileState.ReconcileNone ∧
    dbGoal.Mark ≠ ReconcileState.ReconcileDelete := by
  decide

/-- Claim C21, amended: for each plugin and every active resource of its kind,
`addRemoveResourceGoal(active)` registers a goal for that resource: the goal it returns is
stored under the active resource's name and its Mark is left at the zero value (the Delete
mark is not set by the plugin). -/
theorem addRemoveResourceGoal_mark_none (p : AlgorithmPlugin) (activeResource : ActiveResource)
    (hk : activeResource.kind = p.GetKind) :
    ∃ goal p1, p.addRemoveResourceGoal activeResource = some (goal, p1) ∧
      mapGet p1.goals activeResource.GetSnapshot.Name = some goal ∧
      goal.Mark = ReconcileState.ReconcileNone ∧
      goal.Mark ≠ ReconcileState.ReconcileDelete := by
  obtain ⟨goal, p1, h1, _, h3, _, h5, _⟩ := addRemoveResourceGoal_spec p activeResource hk
  refine ⟨goal, p1, h1, ?_, h3, ?_⟩
  · rw [h5]
    exact mapGet_mapSet_self _ _ _
  · rw [h3]
    decide

/-- Witness of the amended C21 on the fresh service plugin and the active service `db`. -/
theorem addRemoveResourceGoal_mark_none_witness :
    sampleActive.kind = samplePlugin.GetKind ∧
    ∃ goal p1, samplePlugin.addRemoveResourceGoal sampleActive = some (goal, p1) ∧
      mapGet p1.goals sampleActive.GetSnapshot.Name = some goal ∧
      goal.Mark = ReconcileState.ReconcileNone ∧
      goal.Mark ≠ ReconcileState.ReconcileDelete :=
  ⟨rfl, addRemoveResourceGoal_mark_none samplePlugin sampleActive rfl⟩

/-- Claim C22: for each plugin whose goal map is well keyed and every active resource `a` of
its kind, `addRemoveResourceGoal(a)` returns a goal whose `SnapshotResource` (ID, Name,
version) equals `a.GetSnapshot()` and whose Kind is the plugin's kind; afterwards
`getGoalResource` of `a`'s name returns that goal, whatever was registered under that name
before. -/
theorem addRemoveResourceGoal_registers (p : AlgorithmPlugin) (activeResource : ActiveResource)
    (hk : activeResource.kind = p.GetKind) (hw : WellKeyed p.goals) :
    ∃ goal p1, p.addRemoveResourceGoal activeResource = some (goal, p1) ∧
      goal.toSnapshotResource = activeResource.GetSnapshot ∧
      goal.Kind = p.GetKind ∧
      p1.getGoalResource activeResource.GetSnapshot.Name = some goal := by
  obtain ⟨goal, p1, h1, h2, _, h4, h5, _⟩ := addRemoveResourceGoal_spec p activeResource hk
  refine ⟨goal, p1, h1, h2, h4, ?_⟩
  have hn : goal.Name = activeResource.GetSnapshot.Name := by rw [← h2]
  have hw1 : WellKeyed p1.goals := by
    rw [h5]
    exact wellKeyed_mapSet _ _ _ hn hw
  rw [getGoalResource_eq_mapGet p1 hw1, h5]
  exact mapGet_mapSet_self _ _ _

/-- Witness of C22 on a plugin that already holds a goal under `db`. -/
theorem addRemoveResourceGoal_registers_witness :
    sampleActive.kind = registeredPlugin.GetKind ∧ WellKeyed registeredPlugin.goals ∧
    ∃ goal p1, registeredPlugin.addRemoveResourceGoal sampleActive = some (goal, p1) ∧
      goal.toSnapshotResource = sampleActive.GetSnapshot ∧
      goal.Kind = registeredPlugin.GetKind ∧
      p1.getGoalResource sampleActive.GetSnapshot.Name = some goal :=
  ⟨rfl, ⟨by decide, by decide⟩,
    addRemoveResourceGoal_registers registeredPlugin sampleActive rfl ⟨by decide, by decide⟩⟩

/-! ## Declared specs and declared names -/

theorem find_first_by_name {α : Type} (name : α → String) (l : List α) (n : String) :
    (l.find? (fun x => decide (n = name x)) = none ↔ ∀ x ∈ l, name x ≠ n) ∧
    (∀ b, l.find? (fun x => decide (n = name x)) = some b ↔
      name b = n ∧ ∃ pre post, l = pre ++ b :: post ∧ ∀ x ∈ pre, name x ≠ n) := by
  constructor
  · rw [List.find?_eq_none]
    constructor
    · intro h x hx e
      exact h x hx (by simp [e])
    · intro h x hx e
      exact h x hx (of_decide_eq_true e).symm
  · intro b
    rw [List.find?_eq_some]
    constructor
    · rintro ⟨hb, pre, post, hl, hpre⟩
      refine ⟨(of_decide_eq_true hb).symm, pre, post, hl, fun x hx e => ?_⟩
      have := hpre x hx
      simp [e] at this
    · rintro ⟨hb, pre, post, hl, hpre⟩
      refine ⟨by simp [hb], pre, post, hl, fun x hx => ?_⟩
      have := hpre x hx
      simp only [Bool.not_eq_true', decide_eq_false_iff_not]
      exact fun e => this e.symm

/-- Claim C23: for each plugin, the lookup of a declared spec by name returns nil if and only
if no spec of that kind with that name is declared in the stack spec; it returns a spec
exactly when that spec bears the queried name and is the first declared one that does (for
networks: the request bears the queried name and holds the settings of the first entry of
the declared network map under that key). -/
theorem lookup_declared_spec (a : algorithmService) (b : algorithmNetwork)
    (c : algorithmSecret) (d : algorithmConfig) (name : String) :
    ((a.lookupServiceSpec name = none ↔
        ∀ spec ∈ a.stackSpec.Services, spec.Annotations.Name ≠ name) ∧
      ∀ spec, a.lookupServiceSpec name = some spec ↔
        spec.Annotations.Name = name ∧
        ∃ pre post, a.stackSpec.Services = pre ++ spec :: post ∧
          ∀ x ∈ pre, x.Annotations.Name ≠ name) ∧
    ((c.lookupSecretSpec name = none ↔
        ∀ spec ∈ c.stackSpec.Secrets, spec.Annotations.Name ≠ name) ∧
      ∀ spec, c.lookupSecretSpec name = some spec ↔
        spec.Annotations.Name = name ∧
        ∃ pre post, c.stackSpec.Secrets = pre ++ spec :: post ∧
          ∀ x ∈ pre, x.Annotations.Name ≠ name) ∧
    ((d.lookupConfigSpec name = none ↔
        ∀ spec ∈ d.stackSpec.Configs, spec.Annotations.Name ≠ name) ∧
      ∀ spec, d.lookupConfigSpec name = some spec ↔
        spec.Annotations.Name = name ∧
        ∃ pre post, d.stackSpec.Configs = pre ++ spec :: post ∧
          ∀ x ∈ pre, x.Annotations.Name ≠ name) ∧
    ((b.lookupNetworkSpec name = none ↔
        ∀ entry ∈ b.stackSpec.Networks, entry.1 ≠ name) ∧
      ∀ request, b.lookupNetworkSpec name = some request ↔
        request.Name = name ∧
        ∃ pre post, b.stackSpec.Networks = pre ++ (name, request.NetworkCreate) :: post ∧
          ∀ x ∈ pre, x.1 ≠ name) := by
  refine ⟨find_first_by_name (fun s : ServiceSpec => s.Annotations.Name) _ name,
    find_first_by_name (fun s : SecretSpec => s.Annotations.Name) _ name,
    find_first_by_name (fun s : ConfigSpec => s.Annotations.Name) _ name, ?_, ?_⟩
  · have h := (find_first_by_name (fun e : String × NetworkCreate => e.1)
      b.stackSpec.Networks name).1
    unfold algorithmNetwork.lookupNetworkSpec
    cases hf : b.stackSpec.Networks.find? (fun entry => decide (name = entry.1)) with
    | none => simpa using h.mp hf
    | some e =>
      constructor
      · intro hc
        simp at hc
      · intro hall
        rw [h.mpr hall] at hf
        simp at hf
  · intro request
    have h := (find_first_by_name (fun e : String × NetworkCreate => e.1)
      b.stackSpec.Networks name).2
    unfold algorithmNetwork.lookupNetworkSpec
    cases hf : b.stackSpec.Networks.find? (fun entry => decide (name = entry.1)) with
    | none =>
      constructor
      · intro hc
        simp at hc
      · rintro ⟨hn, pre, post, hl, hpre⟩
        have := (h (name, request.NetworkCreate)).mpr ⟨rfl, pre, post, hl, hpre⟩
        rw [hf] at this
        simp at this
    | some e =>
      obtain ⟨he, pre, post, hl, hpre⟩ := (h e).mp hf
      constructor
      · intro hc
        simp only [Option.some.injEq] at hc
        subst hc
        refine ⟨rfl, pre, post, ?_, hpre⟩
        rw [hl]
        obtain ⟨e1, e2⟩ := e
        simp only at he
        subst he
        rfl
      · rintro ⟨hn, pre1, post1, hl1, hpre1⟩
        have h2 := (h (name, request.NetworkCreate)).mpr ⟨rfl, pre1, post1, hl1, hpre1⟩
        rw [hf] at h2
        simp only [Option.some.injEq] at h2
        subst h2
        obtain ⟨rn, rc⟩ := request
        simp only at hn
        subst hn
        rfl

theorem mapGet_isSome_iff {β : Type} (l : List (String × β)) (k : String) :
    (mapGet l k).isSome = true ↔ k ∈ l.map Prod.fst := by
  induction l with
  | nil => simp [mapGet]
  | cons e rest ih =>
    obtain ⟨k1, v1⟩ := e
    by_cases h : k1 = k
    · simp [mapGet, h]
    · simp only [mapGet, if_neg h, List.map_cons, List.mem_cons, ih]
      constructor
      · exact Or.inr
      · rintro (h1 | h1)
        · exact absurd h1.symm h
        · exact h1

/-- Claim C24: for each plugin, `getSpecifiedResourceNames` returns exactly the names declared
for its kind: for services, secrets and configs a list as long as the declared list whose
entry at each position is the `Annotations.Name` of the declared spec at that position; for
networks, the declared network map having no key twice, a list without repetition whose
members are exactly the keys of that map. -/
theorem getSpecifiedResourceNames_declared (a : algorithmService) (b : algorithmNetwork)
    (c : algorithmSecret) (d : algorithmConfig)
    (hmap : (b.stackSpec.Networks.map Prod.fst).Nodup) :
    (a.getSpecifiedResourceNames.length = a.stackSpec.Services.length ∧
      ∀ i : Nat, a.getSpecifiedResourceNames[i]?
        = (a.stackSpec.Services[i]?).map (fun spec : ServiceSpec => spec.Annotations.Name)) ∧
    (c.getSpecifiedResourceNames.length = c.stackSpec.Secrets.length ∧
      ∀ i : Nat, c.getSpecifiedResourceNames[i]?
        = (c.stackSpec.Secrets[i]?).map (fun spec : SecretSpec => spec.Annotations.Name)) ∧
    (d.getSpecifiedResourceNames.length = d.stackSpec.Configs.length ∧
      ∀ i : Nat, d.getSpecifiedResourceNames[i]?
        = (d.stackSpec.Configs[i]?).map (fun spec : ConfigSpec => spec.Annotations.Name)) ∧
    (b.getSpecifiedResourceNames.Nodup ∧
      b.getSpecifiedResourceNames.length = b.stackSpec.Networks.length ∧
      ∀ k, k ∈ b.getSpecifiedResourceNames ↔ (mapGet b.stackSpec.Networks k).isSome = true) := by
  refine ⟨⟨?_, fun i => ?_⟩, ⟨?_, fun i => ?_⟩, ⟨?_, fun i => ?_⟩, hmap, ?_, fun k => ?_⟩
  · simp [algorithmService.getSpecifiedResourceNames]
  · simp [algorithmService.getSpecifiedResourceNames]
  · simp [algorithmSecret.getSpecifiedResourceNames]
  · simp [algorithmSecret.getSpecifiedResourceNames]
  · simp [algorithmConfig.getSpecifiedResourceNames]
  · simp [algorithmConfig.getSpecifiedResourceNames]
  · simp [algorithmNetwork.getSpecifiedResourceNames]
  · rw [mapGet_isSome_iff]
    rfl

/-- Witness of C24 on plugins of the sample stack, which declares three networks. -/
theorem getSpecifiedResourceNames_declared_witness :
    (sampleNetworkPlugin.stackSpec.Networks.map Prod.fst).Nodup ∧
    ((sampleServicePlugin.getSpecifiedResourceNames.length
        = sampleServicePlugin.stackSpec.Services.length ∧
      ∀ i : Nat, sampleServicePlugin.getSpecifiedResourceNames[i]?
        = (sampleServicePlugin.stackSpec.Services[i]?).map
            (fun spec : ServiceSpec => spec.Annotations.Name)) ∧
    (sampleSecretPlugin.getSpecifiedResourceNames.length
        = sampleSecretPlugin.stackSpec.Secrets.length ∧
      ∀ i : Nat, sampleSecretPlugin.getSpecifiedResourceNames[i]?
        = (sampleSecretPlugin.stackSpec.Secrets[i]?).map
            (fun spec : SecretSpec => spec.Annotations.Name)) ∧
    (sampleConfigPlugin.getSpecifiedResourceNames.length
        = sampleConfigPlugin.stackSpec.Configs.length ∧
      ∀ i : Nat, sampleConfigPlugin.getSpecifiedResourceNames[i]?
        = (sampleConfigPlugin.stackSpec.Configs[i]?).map
            (fun spec : ConfigSpec => spec.Annotations.Name)) ∧
    (sampleNetworkPlugin.getSpecifiedResourceNames.Nodup ∧
      sampleNetworkPlugin.getSpecifiedResourceNames.length
        = sampleNetworkPlugin.stackSpec.Networks.length ∧
      ∀ k, k ∈ sampleNetworkPlugin.getSpecifiedResourceNames ↔
        (mapGet sampleNetworkPlugin.stackSpec.Networks k).isSome = true)) :=
  ⟨by decide,
    getSpecifiedResourceNames_declared sampleServicePlugin sampleNetworkPlugin
      sampleSecretPlugin sampleConfigPlugin (by decide)⟩

/-- Claim C25: for each of the four plugins, `addCreateResourceGoal(n)` completes normally
exactly when `n` is declared in the stack spec for the plugin's kind; called with a name that
is not declared it panics on the nil spec before the goal map is written, so no goal is
registered. -/
theorem addCreateResourceGoal_panics_iff_undeclared (p : AlgorithmPlugin) (n : String) :
    ((p.addCreateResourceGoal n).isSome = true ↔ n ∈ p.getSpecifiedResourceNames) ∧
    (p.addCreateResourceGoal n = none ↔ n ∉ p.getSpecifiedResourceNames) ∧
    (p.addCreateResourceGoal n = none ↔ p.lookupSpecifiedResource n
      = (match p with
          | .service _ => ConfigValue.servicePtr none
          | .network _ => ConfigValue.networkPtr none
          | .secret _ => ConfigValue.secretPtr none
          | .config _ => ConfigValue.configPtr none)) := by
  have key : (p.addCreateResourceGoal n).isSome = true ↔ n ∈ p.getSpecifiedResourceNames := by
    constructor
    · intro h
      cases p with
      | service a =>
        simp only [AlgorithmPlugin.addCreateResourceGoal,
          algorithmService.addCreateResourceGoal] at h
        cases hl : a.lookupServiceSpec n with
        | none => simp [hl] at h
        | some spec =>
          have := List.find?_some hl
          have hmem := List.mem_of_find?_eq_some hl
          exact List.mem_map.mpr ⟨spec, hmem, (of_decide_eq_true this).symm⟩
      | network a =>
        simp only [AlgorithmPlugin.addCreateResourceGoal,
          algorithmNetwork.addCreateResourceGoal] at h
        cases hl : a.lookupNetworkSpec n with
        | none => simp [hl] at h
        | some request =>
          unfold algorithmNetwork.lookupNetworkSpec at hl
          cases hf : a.stackSpec.Networks.find? (fun entry => decide (n = entry.1)) with
          | none => simp [hf] at hl
          | some e =>
            have := List.find?_some hf
            have hmem := List.mem_of_find?_eq_some hf
            exact List.mem_map.mpr ⟨e, hmem, (of_decide_eq_true this).symm⟩
      | secret a =>
        simp only [AlgorithmPlugin.addCreateResourceGoal,
          algorithmSecret.addCreateResourceGoal] at h
        cases hl : a.lookupSecretSpec n with
        | none => simp [hl] at h
        | some spec =>
          have := List.find?_some hl
          have hmem := List.mem_of_find?_eq_some hl
          exact List.mem_map.mpr ⟨spec, hmem, (of_decide_eq_true this).symm⟩
      | config a =>
        simp only [AlgorithmPlugin.addCreateResourceGoal,
          algorithmConfig.addCreateResourceGoal] at h
        cases hl : a.lookupConfigSpec n with
        | none => simp [hl] at h
        | some spec =>
          have := List.find?_some hl
          have hmem := List.mem_of_find?_eq_some hl
          exact List.mem_map.mpr ⟨spec, hmem, (of_decide_eq_true this).symm⟩
    · intro h
      cases p with
      | service a =>
        obtain ⟨spec, hl, _⟩ := a.lookupServiceSpec_declared n h
        simp [AlgorithmPlugin.addCreateResourceGoal, algorithmService.addCreateResourceGoal, hl]
      | network a =>
        obtain ⟨spec, hl, _⟩ := a.lookupNetworkSpec_declared n h
        simp [AlgorithmPlugin.addCreateResourceGoal, algorithmNetwork.addCreateResourceGoal, hl]
      | secret a =>
        obtain ⟨spec, hl, _⟩ := a.lookupSecretSpec_declared n h
        simp [AlgorithmPlugin.addCreateResourceGoal, algorithmSecret.addCreateResourceGoal, hl]
      | config a =>
        obtain ⟨spec, hl, _⟩ := a.lookupConfigSpec_declared n h
        simp [AlgorithmPlugin.addCreateResourceGoal, algorithmConfig.addCreateResourceGoal, hl]
  refine ⟨key, ?_, ?_⟩
  · rw [← key]
    cases p.addCreateResourceGoal n <;> simp
  · cases p with
    | service a =>
      simp only [AlgorithmPlugin.addCreateResourceGoal, algorithmService.addCreateResourceGoal,
        AlgorithmPlugin.lookupSpecifiedResource, algorithmService.lookupSpecifiedResource]
      cases a.lookupServiceSpec n <;> simp
    | network a =>
      simp only [AlgorithmPlugin.addCreateResourceGoal, algorithmNetwork.addCreateResourceGoal,
        AlgorithmPlugin.lookupSpecifiedResource, algorithmNetwork.lookupSpecifiedResource]
      cases a.lookupNetworkSpec n <;> simp
    | secret a =>
      simp only [AlgorithmPlugin.addCreateResourceGoal, algorithmSecret.addCreateResourceGoal,
        AlgorithmPlugin.lookupSpecifiedResource, algorithmSecret.lookupSpecifiedResource]
      cases a.lookupSecretSpec n <;> simp
    | config a =>
      simp only [AlgorithmPlugin.addCreateResourceGoal, algorithmConfig.addCreateResourceGoal,
        AlgorithmPlugin.lookupSpecifiedResource, algorithmConfig.lookupSpecifiedResource]
      cases a.lookupConfigSpec n <;> simp

/-! ## Dispatcher: coalescing and ordering -/

theorem foldl_enqueue_mem (batch : List Event) (pending : List (ReconcileKind × String))
    (x : ReconcileKind × String) :
    x ∈ batch.foldl dispatcher.enqueue pending ↔ x ∈ pending ∨ ∃ e ∈ batch, e.key = x := by
  induction batch generalizing pending with
  | nil => simp
  | cons e rest ih =>
    rw [List.foldl_cons, ih]
    unfold dispatcher.enqueue
    by_cases h : e.key ∈ pending
    · rw [if_pos h]
      constructor
      · rintro (h1 | ⟨e1, he1, hk⟩)
        · exact Or.inl h1
        · exact Or.inr ⟨e1, List.mem_cons_of_mem _ he1, hk⟩
      · rintro (h1 | ⟨e1, he1, hk⟩)
        · exact Or.inl h1
        · rcases List.mem_cons.mp he1 with rfl | h2
          · exact Or.inl (hk ▸ h)
          · exact Or.inr ⟨e1, h2, hk⟩
    · rw [if_neg h]
      constructor
      · rintro (h1 | ⟨e1, he1, hk⟩)
        · rcases List.mem_append.mp h1 with h2 | h2
          · exact Or.inl h2
          · exact Or.inr ⟨e, List.mem_cons_self _ _, (List.mem_singleton.mp h2).symm⟩
        · exact Or.inr ⟨e1, List.mem_cons_of_mem _ he1, hk⟩
      · rintro (h1 | ⟨e1, he1, hk⟩)
        · exact Or.inl (List.mem_append_left _ h1)
        · rcases List.mem_cons.mp he1 with rfl | h2
          · exact Or.inl (List.mem_append_right _ (List.mem_singleton.mpr hk.symm))
          · exact Or.inr ⟨e1, h2, hk⟩

theorem foldl_enqueue_nodup (batch : List Event) (pending : List (ReconcileKind × String))
    (h : pending.Nodup) : (batch.foldl dispatcher.enqueue pending).Nodup := by
  induction batch generalizing pending with
  | nil => exact h
  | cons e rest ih =>
    rw [List.foldl_cons]
    apply ih
    unfold dispatcher.enqueue
    by_cases hm : e.key ∈ pending
    · rw [if_pos hm]
      exact h
    · rw [if_neg hm]
      refine List.nodup_append.mpr ⟨h, List.nodup_singleton _, ?_⟩
      intro x hx hx1
      exact hm ((List.mem_singleton.mp hx1) ▸ hx)

theorem coalesce_mem (batch : List Event) (x : ReconcileKind × String) :
    x ∈ dispatcher.coalesce batch ↔ ∃ e ∈ batch, e.key = x := by
  unfold dispatcher.coalesce
  rw [foldl_enqueue_mem]
  simp

theorem coalesce_nodup (batch : List Event) : (dispatcher.coalesce batch).Nodup :=
  foldl_enqueue_nodup batch [] List.nodup_nil

theorem mem_ofKind (pending : List (ReconcileKind × String)) (kind : ReconcileKind)
    (x : ReconcileKind × String) :
    x ∈ dispatcher.ofKind pending kind ↔ x ∈ pending ∧ x.1 = kind := by
  simp [dispatcher.ofKind, List.mem_filter]

/-- The pending requests in kind priority order, before they are turned into requests. -/
theorem requests_keys (batch : List Event) :
    (dispatcher.requests batch).map (fun q => (q.Kind, q.ID))
      = dispatcher.ofKind (dispatcher.coalesce batch) ReconcileKind.ReconcileStack ++
        dispatcher.ofKind (dispatcher.coalesce batch) ReconcileKind.ReconcileNetwork ++
        dispatcher.ofKind (dispatcher.coalesce batch) ReconcileKind.ReconcileSecret ++
        dispatcher.ofKind (dispatcher.coalesce batch) ReconcileKind.ReconcileConfig ++
        dispatcher.ofKind (dispatcher.coalesce batch) ReconcileKind.ReconcileService := by
  unfold dispatcher.requests
  rw [List.map_map]
  have : ((fun q : ReconcileResource => (q.Kind, q.ID)) ∘
      fun request : ReconcileKind × String => NewRequest request.1 request.2) = id := by
    funext x
    rfl
  rw [this, List.map_id]

theorem requests_keys_mem (batch : List Event) (x : ReconcileKind × String) :
    x ∈ (dispatcher.requests batch).map (fun q => (q.Kind, q.ID)) ↔
      ∃ e ∈ batch, e.key = x := by
  rw [requests_keys, ← coalesce_mem]
  simp only [List.mem_append, mem_ofKind]
  obtain ⟨k, id⟩ := x
  cases k <;> simp

theorem requests_keys_nodup (batch : List Event) :
    ((dispatcher.requests batch).map (fun q => (q.Kind, q.ID))).Nodup := by
  rw [requests_keys]
  have hn := coalesce_nodup batch
  have hf : ∀ k, (dispatcher.ofKind (dispatcher.coalesce batch) k).Nodup :=
    fun k => hn.filter _
  simp only [List.nodup_append, List.Disjoint, List.mem_append, mem_ofKind]
  refine ⟨⟨⟨⟨hf _, hf _, ?_⟩, hf _, ?_⟩, hf _, ?_⟩, hf _, ?_⟩
  · rintro x ⟨_, h1⟩ ⟨_, h2⟩
    rw [h1] at h2
    exact absurd h2 (by decide)
  · rintro x (⟨_, h1⟩ | ⟨_, h1⟩) ⟨_, h2⟩ <;>
    · rw [h1] at h2
      exact absurd h2 (by decide)
  · rintro x ((⟨_, h1⟩ | ⟨_, h1⟩) | ⟨_, h1⟩) ⟨_, h2⟩ <;>
    · rw [h1] at h2
      exact absurd h2 (by decide)
  · rintro x (((⟨_, h1⟩ | ⟨_, h1⟩) | ⟨_, h1⟩) | ⟨_, h1⟩) ⟨_, h2⟩ <;>
    · rw [h1] at h2
      exact absurd h2 (by decide)

theorem pairwise_of_forall_mem {α : Type} (R : α → α → Prop) (l : List α)
    (h : ∀ a ∈ l, ∀ b ∈ l, R a b) : l.Pairwise R := by
  induction l with
  | nil => exact List.Pairwise.nil
  | cons x rest ih =>
    refine List.Pairwise.cons (fun b hb => h x (List.mem_cons_self _ _) b
      (List.mem_cons_of_mem _ hb)) (ih fun a ha b hb => ?_)
    exact h a (List.mem_cons_of_mem _ ha) b (List.mem_cons_of_mem _ hb)

theorem requests_keys_sorted (batch : List Event) :
    ((dispatcher.requests batch).map (fun q => (q.Kind, q.ID))).Pairwise
      (fun a b => kindPriority a.1 ≤ kindPriority b.1) := by
  rw [requests_keys]
  have hf : ∀ k, (dispatcher.ofKind (dispatcher.coalesce batch) k).Pairwise
      (fun a b => kindPriority a.1 ≤ kindPriority b.1) := by
    intro k
    apply pairwise_of_forall_mem
    intro a ha b hb
    rw [((mem_ofKind _ _ _).mp ha).2, ((mem_ofKind _ _ _).mp hb).2]
  simp only [List.pairwise_append, List.mem_append, mem_ofKind]
  refine ⟨⟨⟨⟨hf _, hf _, ?_⟩, hf _, ?_⟩, hf _, ?_⟩, hf _, ?_⟩
  · rintro a ⟨_, h1⟩ b ⟨_, h2⟩
    rw [h1, h2]
    decide
  · rintro a (⟨_, h1⟩ | ⟨_, h1⟩) b ⟨_, h2⟩ <;>
    · rw [h1, h2]
      decide
  · rintro a ((⟨_, h1⟩ | ⟨_, h1⟩) | ⟨_, h1⟩) b ⟨_, h2⟩ <;>
    · rw [h1, h2]
      decide
  · rintro a (((⟨_, h1⟩ | ⟨_, h1⟩) | ⟨_, h1⟩) | ⟨_, h1⟩) b ⟨_, h2⟩ <;>
    · rw [h1, h2]
      decide

theorem processBatch_invoked {ρ : Type} (r : Reconciler ρ) (batch : List Event)
    (run : dispatcher.Run ρ) :
    (dispatcher.processBatch r batch run).invoked = run.invoked ++ dispatcher.requests batch := by
  unfold dispatcher.processBatch
  generalize dispatcher.requests batch = l
  induction l generalizing run with
  | nil => simp
  | cons q rest ih =>
    rw [List.foldl_cons, ih]
    simp

theorem handleEvents_single {ρ : Type} (r : Reconciler ρ) (batch : List Event) (st : ρ) :
    (dispatcher.HandleEvents r [batch] ⟨st, []⟩).1 = none ∧
    (dispatcher.HandleEvents r [batch] ⟨st, []⟩).2.invoked = dispatcher.requests batch := by
  refine ⟨rfl, ?_⟩
  simp only [dispatcher.HandleEvents, List.foldl_cons, List.foldl_nil]
  rw [processBatch_invoked]
  rfl

theorem requests_shape (batch : List Event) :
    ∀ q ∈ dispatcher.requests batch, q = NewRequest q.Kind q.ID := by
  intro q hq
  unfold dispatcher.requests at hq
  obtain ⟨x, _, rfl⟩ := List.mem_map.mp hq
  rfl

theorem requests_mem (batch : List Event) (kind : ReconcileKind) (id : String) :
    NewRequest kind id ∈ dispatcher.requests batch ↔
      ∃ e ∈ batch, e.EventType = kind ∧ e.ActorID = id := by
  have h := requests_keys_mem batch (kind, id)
  constructor
  · intro hq
    obtain ⟨e, he, hk⟩ := h.mp (List.mem_map.mpr ⟨_, hq, rfl⟩)
    simp only [Event.key, Prod.mk.injEq] at hk
    exact ⟨e, he, hk⟩
  · rintro ⟨e, he, h1, h2⟩
    obtain ⟨q, hq, hk⟩ := List.mem_map.mp (h.mpr ⟨e, he, by simp [Event.key, h1, h2]⟩)
    simp only [Prod.mk.injEq] at hk
    rw [requests_shape batch q hq, hk.1, hk.2] at hq
    exact hq

/-- Claim C26: for any batch of events delivered to `HandleEvents`, whatever the reconciler
returns, `Reconcile` is invoked exactly once per distinct (kind, id) pair occurring in the
batch: the invoked requests are pairwise distinct, each is the request of a pair, and the
request of a pair is invoked if and only if an event of the batch carries that pair, whatever
the action; eleven update events for one ID give exactly one call; the call returns no error. -/
theorem handleEvents_once_per_pair {ρ : Type} (r : Reconciler ρ) (st : ρ)
    (batch : List Event) :
    (dispatcher.HandleEvents r [batch] ⟨st, []⟩).1 = none ∧
    (dispatcher.HandleEvents r [batch] ⟨st, []⟩).2.invoked.Nodup ∧
    (∀ q ∈ (dispatcher.HandleEvents r [batch] ⟨st, []⟩).2.invoked,
      q = NewRequest q.Kind q.ID) ∧
    (∀ kind id, NewRequest kind id ∈ (dispatcher.HandleEvents r [batch] ⟨st, []⟩).2.invoked ↔
      ∃ e ∈ batch, e.EventType = kind ∧ e.ActorID = id) ∧
    (∀ kind id,
      (dispatcher.HandleEvents r [batch] ⟨st, []⟩).2.invoked.count (NewRequest kind id)
        = if (kind, id) ∈ batch.map Event.key then 1 else 0) ∧
    (dispatcher.HandleEvents r
        [List.replicate 11 ⟨ReconcileKind.ReconcileStack, "update", "someID"⟩]
        ⟨st, []⟩).2.invoked
      = [NewRequest ReconcileKind.ReconcileStack "someID"] := by
  have hnodup : (dispatcher.requests batch).Nodup :=
    List.Nodup.of_map _ (requests_keys_nodup batch)
  refine ⟨rfl, ?_, ?_, ?_, ?_, ?_⟩
  · rw [(handleEvents_single r batch st).2]
    exact hnodup
  · rw [(handleEvents_single r batch st).2]
    exact requests_shape batch
  · intro kind id
    rw [(handleEvents_single r batch st).2]
    exact requests_mem batch kind id
  · intro kind id
    rw [(handleEvents_single r batch st).2]
    by_cases h : (kind, id) ∈ batch.map Event.key
    · rw [if_pos h]
      obtain ⟨e, he, hk⟩ := List.mem_map.mp h
      simp only [Event.key, Prod.mk.injEq] at hk
      exact List.count_eq_one_of_mem hnodup ((requests_mem batch kind id).mpr ⟨e, he, hk⟩)
    · rw [if_neg h]
      apply List.count_eq_zero_of_not_mem
      intro hq
      obtain ⟨e, he, h1, h2⟩ := (requests_mem batch kind id).mp hq
      exact h (List.mem_map.mpr ⟨e, he, by simp [Event.key, h1, h2]⟩)
  · rw [(handleEvents_single r _ st).2]
    decide

/-- Claim C27: within one batch handled by `HandleEvents`, whatever the arrival order of the
events and whatever the reconciler returns, the sequence of `Reconcile` invocations is ordered
by the kind priority Stack, Network, Secret, Config, Service: of two invocations the earlier
one never has the later kind, and every request of the batch is among the invocations. -/
theorem handleEvents_kind_order {ρ : Type} (r : Reconciler ρ) (st : ρ) (batch : List Event) :
    (dispatcher.HandleEvents r [batch] ⟨st, []⟩).2.invoked.Pairwise
      (fun earlier later => kindPriority earlier.Kind ≤ kindPriority later.Kind) ∧
    (∀ e ∈ batch, NewRequest e.EventType e.ActorID
      ∈ (dispatcher.HandleEvents r [batch] ⟨st, []⟩).2.invoked) ∧
    kindPriority ReconcileKind.ReconcileStack < kindPriority ReconcileKind.ReconcileNetwork ∧
    kindPriority ReconcileKind.ReconcileNetwork < kindPriority ReconcileKind.ReconcileSecret ∧
    kindPriority ReconcileKind.ReconcileSecret < kindPriority ReconcileKind.ReconcileConfig ∧
    kindPriority ReconcileKind.ReconcileConfig < kindPriority ReconcileKind.ReconcileService := by
  refine ⟨?_, ?_, by decide, by decide, by decide, by decide⟩
  · rw [(handleEvents_single r batch st).2]
    have h := requests_keys_sorted batch
    rw [List.pairwise_map] at h
    exact h
  · intro e he
    rw [(handleEvents_single r batch st).2]
    exact (requests_mem batch e.EventType e.ActorID).mpr ⟨e, he, rfl, rfl⟩

/-! ## Backend shim events -/

/-- Claim C28: the shim's `CreateStack` launches no event when the backend refuses the
creation, but `UpdateStack` and `DeleteStack` launch their `update` and `delete` event for the
given ID whatever the backend answers, also when it answers an error: on a backend that knows
no stack, `UpdateStack` and `DeleteStack` of `"s1"` return the not-found error and yet the
events `stack/update/s1` and `stack/delete/s1` are emitted. -/
theorem shim_update_delete_emit_on_error :
    (∀ (β : Type) (b : StacksBackend β) (c : BackendAPIClientShim β) (create : StackSpec),
      (b.CreateStack create c.backend).1.2 ≠ none →
        (BackendAPIClientShim.CreateStack b c create).2.stackEvents = c.stackEvents) ∧
    (∀ (β : Type) (b : StacksBackend β) (c : BackendAPIClientShim β) (id : String)
        (spec : StackSpec) (version : Nat),
      (BackendAPIClientShim.UpdateStack b c id spec version).1
          = (b.UpdateStack id spec version c.backend).1 ∧
      (BackendAPIClientShim.UpdateStack b c id spec version).2.stackEvents
          = c.stackEvents ++ [⟨"stack", "update", id⟩]) ∧
    (∀ (β : Type) (b : StacksBackend β) (c : BackendAPIClientShim β) (id : String),
      (BackendAPIClientShim.DeleteStack b c id).1 = (b.DeleteStack id c.backend).1 ∧
      (BackendAPIClientShim.DeleteStack b c id).2.stackEvents
          = c.stackEvents ++ [⟨"stack", "delete", id⟩]) ∧
    BackendAPIClientShim.UpdateStack rejectingBackend rejectingShim "s1" sampleStackSpec 0
      = (some errNotFound, ⟨(), [⟨"stack", "update", "s1"⟩]⟩) ∧
    BackendAPIClientShim.DeleteStack rejectingBackend rejectingShim "s1"
      = (some errNotFound, ⟨(), [⟨"stack", "delete", "s1"⟩]⟩) ∧
    (BackendAPIClientShim.CreateStack rejectingBackend rejectingShim sampleStackSpec).2.stackEvents
      = [] := by
  refine ⟨?_, ?_, ?_, rfl, rfl, rfl⟩
  · intro β b c create h
    unfold BackendAPIClientShim.CreateStack
    rcases hb : b.CreateStack create c.backend with ⟨⟨response, err⟩, backend⟩
    rw [hb] at h
    cases err with
    | none => exact absurd rfl h
    | some e => rfl
  · intro β b c id spec version
    exact ⟨rfl, rfl⟩
  · intro β b c id
    exact ⟨rfl, rfl⟩

/-! ## Fake stack store -/

/-- Claim C29: for every store state and every stack and swarm stack, `AddStack` returns an ID
with no error, and immediately afterwards `GetStack` of that ID returns, with no error, the
added stack with its ID set to the returned one, and `GetSwarmStack` of that ID returns, with
no error, the added swarm stack with its ID set to the returned one, all other fields as
given. -/
theorem addStack_get_roundtrip (s : FakeStackStore) (stack : Stack) (swarmStack : SwarmStack) :
    (s.AddStack stack swarmStack).1.2 = none ∧
    (s.AddStack stack swarmStack).2.GetStack (s.AddStack stack swarmStack).1.1
      = (⟨(s.AddStack stack swarmStack).1.1, stack.Meta, stack.Spec⟩, none) ∧
    (s.AddStack stack swarmStack).2.GetSwarmStack (s.AddStack stack swarmStack).1.1
      = (⟨(s.AddStack stack swarmStack).1.1, swarmStack.Meta, swarmStack.Spec⟩, none) := by
  refine ⟨rfl, ?_, ?_⟩
  · simp only [FakeStackStore.AddStack, FakeStackStore.GetStack, FakeStackStore.getStack,
      mapGet_mapSet_self]
  · simp only [FakeStackStore.AddStack, FakeStackStore.GetSwarmStack, FakeStackStore.getStack,
      mapGet_mapSet_self]

/-! ## Decimal rendering -/

theorem digitValue_digitChar (m : Nat) (h : m < 10) : digitValue (Nat.digitChar m) = m := by
  interval_cases m <;> rfl

theorem foldl_toDigitsCore (fuel n : Nat) (ds : List Char) (h : n < fuel) :
    (Nat.toDigitsCore 10 fuel n ds).foldl (fun acc c => acc * 10 + digitValue c) 0
      = ds.foldl (fun acc c => acc * 10 + digitValue c) n := by
  induction fuel generalizing n ds with
  | zero => omega
  | succ fuel ih =>
    unfold Nat.toDigitsCore
    simp only
    split
    · rename_i h0
      have hlt : n < 10 := by
        by_contra hc
        have : 1 ≤ n / 10 := by omega
        omega
      simp [List.foldl_cons, digitValue_digitChar n hlt, Nat.mod_eq_of_lt hlt]
    · rename_i h0
      have hlt : n / 10 < fuel := by omega
      rw [ih (n / 10) _ hlt]
      simp only [List.foldl_cons, digitValue_digitChar (n % 10) (Nat.mod_lt _ (by norm_num))]
      congr 1
      omega

theorem decimalValue_repr (n : Nat) : decimalValue (Nat.repr n).data = n := by
  unfold decimalValue Nat.repr Nat.toDigits
  simp only [List.asString]
  rw [foldl_toDigitsCore _ _ _ (Nat.lt_succ_self n)]
  rfl

theorem toString_nat_injective (a b : Nat) (h : toString a = toString b) : a = b := by
  have h1 : Nat.repr a = Nat.repr b := h
  have := congrArg (fun s => decimalValue s.data) h1
  simpa [decimalValue_repr] using this

theorem toString_nat_ne_empty (n : Nat) (h : 0 < n) : toString n ≠ "" := by
  intro he
  have h1 : Nat.repr n = "" := he
  have := congrArg (fun s => decimalValue s.data) h1
  simp only [decimalValue_repr] at this
  have h0 : decimalValue ([] : List Char) = 0 := rfl
  rw [h0] at this
  omega

theorem toString_nat_ne_zero (n : Nat) (h : 0 < n) : toString n ≠ "0" := by
  intro he
  have := toString_nat_injective n 0 he
  omega

/-! ## Identifiers of the fake stack store -/

theorem wrapInt_small (x : Int) (h1 : 0 ≤ x) (h2 : x < 2 ^ 63) : wrapInt x = x := by
  unfold wrapInt
  omega

theorem run_no_add (s : FakeStackStore) (ops : List StoreOp)
    (h : (ops.filter StoreOp.isAdd).length = 0) : (s.run ops).1 = [] := by
  induction ops generalizing s with
  | nil => rfl
  | cons op ops ih =>
    cases op with
    | AddStack stack swarmStack => simp [StoreOp.isAdd] at h
    | UpdateStack id spec swarmSpec =>
      simp only [StoreOp.isAdd, List.filter_cons_of_neg, Bool.false_eq_true,
        not_false_eq_true] at h
      simp only [FakeStackStore.run, FakeStackStore.step, List.nil_append]
      exact ih _ h
    | DeleteStack id =>
      simp only [StoreOp.isAdd, List.filter_cons_of_neg, Bool.false_eq_true,
        not_false_eq_true] at h
      simp only [FakeStackStore.run, FakeStackStore.step, List.nil_append]
      exact ih _ h

theorem updateStack_curID (s : FakeStackStore) (id : String) (spec : StackSpec)
    (swarmSpec : SwarmStackSpec) : (s.UpdateStack id spec swarmSpec).2.curID = s.curID := by
  unfold FakeStackStore.UpdateStack
  split <;> rfl

/-- From a store whose counter is the natural number `c`, a run whose additions do not take the
counter past the largest 64-bit integer returns the renderings of `c`, `c + 1`, ... in order. -/
theorem run_ids (ops : List StoreOp) (s : FakeStackStore) (c : Nat) (hc : s.curID = (c : Int))
    (hbound : c + (ops.filter StoreOp.isAdd).length ≤ 2 ^ 63) :
    (s.run ops).1
      = (List.range (ops.filter StoreOp.isAdd).length).map (fun i => toString (c + i)) := by
  induction ops generalizing s c with
  | nil => rfl
  | cons op ops ih =>
    cases op with
    | AddStack stack swarmStack =>
      simp only [StoreOp.isAdd, List.filter_cons_of_pos, List.length_cons] at hbound ⊢
      simp only [FakeStackStore.run, FakeStackStore.step, List.singleton_append]
      rw [List.range_succ_eq_map, List.map_cons, List.map_map]
      have hid : (s.AddStack stack swarmStack).1.1 = toString (c + 0) := by
        show toString s.curID = toString (c + 0)
        rw [hc]
        rfl
      rw [hid]
      congr 1
      by_cases hn : (ops.filter StoreOp.isAdd).length = 0
      · rw [run_no_add _ ops hn, hn]
        rfl
      · have hnext : (s.AddStack stack swarmStack).2.curID = ((c + 1 : Nat) : Int) := by
          show wrapInt (s.curID + 1) = ((c + 1 : Nat) : Int)
          rw [hc, wrapInt_small]
          · push_cast
            rfl
          · omega
          · have : c + 1 < 2 ^ 63 := by omega
            exact_mod_cast this
        rw [ih _ (c + 1) hnext (by omega)]
        apply List.map_congr_left
        intro i _
        simp only [Function.comp, Nat.succ_eq_add_one]
        congr 1
        omega
    | UpdateStack id spec swarmSpec =>
      simp only [StoreOp.isAdd, List.filter_cons_of_neg, Bool.false_eq_true,
        not_false_eq_true] at hbound ⊢
      simp only [FakeStackStore.run, FakeStackStore.step, List.nil_append]
      exact ih _ c (by rw [updateStack_curID]; exact hc) hbound
    | DeleteStack id =>
      simp only [StoreOp.isAdd, List.filter_cons_of_neg, Bool.false_eq_true,
        not_false_eq_true] at hbound ⊢
      simp only [FakeStackStore.run, FakeStackStore.step, List.nil_append]
      exact ih _ c hc hbound

/-- Claim C30: for any sequence of `AddStack`, `UpdateStack` and `DeleteStack` calls on a store
made by `NewFakeStackStore` with fewer than 2^63 additions (so that the 64-bit counter does not
wrap), the IDs returned by `AddStack` are the decimal renderings of 1, 2, 3, ... in order: each
is the rendering of a positive integer, none is `"0"` or empty, the first is `"1"`, and they are
pairwise different, so no ID is reused, deletions or not. -/
theorem addStack_ids_fresh (ops : List StoreOp)
    (hbound : (ops.filter StoreOp.isAdd).length < 2 ^ 63) :
    (NewFakeStackStore.run ops).1
      = (List.range (ops.filter StoreOp.isAdd).length).map (fun i => toString (i + 1)) ∧
    (∀ id ∈ (NewFakeStackStore.run ops).1,
      (∃ n : Nat, 0 < n ∧ id = toString n) ∧ id ≠ "0" ∧ id ≠ "") ∧
    (∀ first ∈ (NewFakeStackStore.run ops).1.head?, first = "1") ∧
    (NewFakeStackStore.run ops).1.Nodup := by
  have hrun : (NewFakeStackStore.run ops).1
      = (List.range (ops.filter StoreOp.isAdd).length).map (fun i => toString (i + 1)) := by
    rw [run_ids ops NewFakeStackStore 1 rfl (by omega)]
    apply List.map_congr_left
    intro i _
    simp only [Nat.add_comm]
  refine ⟨hrun, ?_, ?_, ?_⟩
  · intro id hid
    rw [hrun] at hid
    obtain ⟨i, _, rfl⟩ := List.mem_map.mp hid
    exact ⟨⟨i + 1, Nat.succ_pos i, rfl⟩, toString_nat_ne_zero _ (Nat.succ_pos i),
      toString_nat_ne_empty _ (Nat.succ_pos i)⟩
  · intro first hfirst
    rw [hrun] at hfirst
    cases hn : (ops.filter StoreOp.isAdd).length with
    | zero => rw [hn] at hfirst; simp at hfirst
    | succ n =>
      rw [hn, List.range_succ_eq_map] at hfirst
      simp only [List.map_cons, List.head?_cons, Option.mem_def, Option.some.injEq] at hfirst
      rw [← hfirst]
      rfl
  · rw [hrun]
    apply List.Nodup.map _ (List.nodup_range _)
    intro a b hab
    have := toString_nat_injective _ _ hab
    omega

theorem addStack_ids_fresh_witness :
    (sampleStoreOps.filter StoreOp.isAdd).length < 2 ^ 63 ∧
    (NewFakeStackStore.run sampleStoreOps).1 = ["1", "2", "3"] ∧
    (NewFakeStackStore.run sampleStoreOps).1.Nodup :=
  ⟨by decide, by decide, (addStack_ids_fresh sampleStoreOps (by decide)).2.2.2⟩

/-! ## Fake stack store: update, delete and list -/

theorem mapGet_mapDelete_self {β : Type} (m : List (String × β)) (k : String) :
    mapGet (mapDelete m k) k = none := by
  induction m with
  | nil => rfl
  | cons e rest ih =>
    obtain ⟨k1, v1⟩ := e
    by_cases h : k1 = k
    · simpa [mapDelete, h] using ih
    · simpa [mapDelete, mapGet, h] using ih

theorem mapGet_mapDelete_other {β : Type} (m : List (String × β)) (k k2 : String)
    (hk : k2 ≠ k) : mapGet (mapDelete m k) k2 = mapGet m k2 := by
  induction m with
  | nil => rfl
  | cons e rest ih =>
    obtain ⟨k1, v1⟩ := e
    by_cases h : k1 = k
    · subst h
      simpa [mapDelete, mapGet, Ne.symm hk] using ih
    · by_cases h2 : k1 = k2
      · subst h2
        unfold mapDelete
        rw [List.filter_cons_of_pos (by simpa using h)]
        simp [mapGet]
      · simpa [mapDelete, mapGet, h, h2] using ih

theorem mapDelete_of_absent {β : Type} (m : List (String × β)) (k : String)
    (h : mapGet m k = none) : mapDelete m k = m := by
  induction m with
  | nil => rfl
  | cons e rest ih =>
    obtain ⟨k1, v1⟩ := e
    by_cases h1 : k1 = k
    · simp [mapGet, h1] at h
    · simp only [mapGet, if_neg h1] at h
      have := ih h
      unfold mapDelete at this ⊢
      rw [List.filter_cons_of_pos (by simpa using h1), this]

theorem mem_of_mapGet {β : Type} (m : List (String × β)) (k : String) (v : β)
    (h : mapGet m k = some v) : (k, v) ∈ m := by
  induction m with
  | nil => simp [mapGet] at h
  | cons e rest ih =>
    obtain ⟨k1, v1⟩ := e
    by_cases h1 : k1 = k
    · simp only [mapGet, if_pos h1, Option.some.injEq] at h
      rw [h1, h]
      exact List.mem_cons_self _ _
    · simp only [mapGet, if_neg h1] at h
      exact List.mem_cons_of_mem _ (ih h)

theorem mapGet_of_mem {β : Type} (m : List (String × β)) (k : String) (v : β)
    (hn : (m.map Prod.fst).Nodup) (h : (k, v) ∈ m) : mapGet m k = some v := by
  induction m with
  | nil => simp at h
  | cons e rest ih =>
    obtain ⟨k1, v1⟩ := e
    rw [List.map_cons, List.nodup_cons] at hn
    rcases List.mem_cons.mp h with h1 | h1
    · simp only [Prod.mk.injEq] at h1
      simp [mapGet, h1.1, h1.2]
    · have hne : k1 ≠ k := by
        intro hk
        exact hn.1 (hk ▸ List.mem_map.mpr ⟨(k, v), h1, rfl⟩)
      simp only [mapGet, if_neg hne]
      exact ih hn.2 h1

theorem newFakeStackStore_keyed : NewFakeStackStore.Keyed :=
  ⟨List.nodup_nil, fun _ he => absurd he (List.not_mem_nil _)⟩

theorem addStack_keyed (s : FakeStackStore) (stack : Stack) (swarmStack : SwarmStack)
    (hk : s.Keyed) : (s.AddStack stack swarmStack).2.Keyed := by
  refine ⟨mapSet_keys_nodup _ _ _ hk.1, fun e he => ?_⟩
  rcases mem_mapSet _ _ _ _ he with h1 | h1
  · rw [h1]
    exact ⟨rfl, rfl⟩
  · exact hk.2 e h1

theorem updateStack_keyed (s : FakeStackStore) (id : String) (spec : StackSpec)
    (swarmSpec : SwarmStackSpec) (hk : s.Keyed) : (s.UpdateStack id spec swarmSpec).2.Keyed := by
  unfold FakeStackStore.UpdateStack FakeStackStore.getStack
  cases hget : mapGet s.stackPairs id with
  | none => exact hk
  | some pair =>
    have hp := hk.2 _ (mem_of_mapGet _ _ _ hget)
    refine ⟨mapSet_keys_nodup _ _ _ hk.1, fun e he => ?_⟩
    rcases mem_mapSet _ _ _ _ he with h1 | h1
    · rw [h1]
      exact hp
    · exact hk.2 e h1

theorem deleteStack_keyed (s : FakeStackStore) (id : String) (hk : s.Keyed) :
    (s.DeleteStack id).2.Keyed := by
  refine ⟨((List.filter_sublist _).map _).nodup hk.1, fun e he => ?_⟩
  exact hk.2 e (List.mem_of_mem_filter he)

/-- Every store reached from a keyed store by a sequence of calls is keyed. -/
theorem run_keyed (ops : List StoreOp) (s : FakeStackStore) (hk : s.Keyed) :
    (s.run ops).2.Keyed := by
  induction ops generalizing s with
  | nil => exact hk
  | cons op ops ih =>
    cases op with
    | AddStack stack swarmStack => exact ih _ (addStack_keyed s stack swarmStack hk)
    | UpdateStack id spec swarmSpec => exact ih _ (updateStack_keyed s id spec swarmSpec hk)
    | DeleteStack id => exact ih _ (deleteStack_keyed s id hk)

theorem getStack_cases (s : FakeStackStore) (id : String) :
    (mapGet s.stackPairs id = none ∧ s.getStack id = (stackPair.zero, some errNotFound)) ∨
    (∃ pair, mapGet s.stackPairs id = some pair ∧ s.getStack id = (pair, none)) := by
  unfold FakeStackStore.getStack
  cases mapGet s.stackPairs id with
  | none => exact Or.inl ⟨rfl, rfl⟩
  | some pair => exact Or.inr ⟨pair, rfl, rfl⟩

/-- Claim C31: on a store in which every pair is stored under its own ID (every store made by
`NewFakeStackStore` and the store methods), `UpdateStack(id, spec, swarmSpec)` returns the
not-found error and leaves the store unchanged when `id` is not stored; when `id` is stored it
returns nil and afterwards `GetStack(id)` returns the stored stack with `Spec = spec` and
`GetSwarmStack(id)` the stored swarm stack with `Spec = swarmSpec`, both with `ID = id` and the
metadata they had, and `GetStack` and `GetSwarmStack` of every other ID return what they
returned before. -/
theorem updateStack_spec (s : FakeStackStore) (id : String) (spec : StackSpec)
    (swarmSpec : SwarmStackSpec) (hk : s.Keyed) :
    ((s.GetStack id).2 ≠ none →
      s.UpdateStack id spec swarmSpec = (some errNotFound, s)) ∧
    ((s.GetStack id).2 = none →
      (s.UpdateStack id spec swarmSpec).1 = none ∧
      (s.UpdateStack id spec swarmSpec).2.GetStack id
        = (⟨id, (s.GetStack id).1.Meta, spec⟩, none) ∧
      (s.UpdateStack id spec swarmSpec).2.GetSwarmStack id
        = (⟨id, (s.GetSwarmStack id).1.Meta, swarmSpec⟩, none)) ∧
    (∀ other, other ≠ id →
      (s.UpdateStack id spec swarmSpec).2.GetStack other = s.GetStack other ∧
      (s.UpdateStack id spec swarmSpec).2.GetSwarmStack other = s.GetSwarmStack other) ∧
    (s.UpdateStack id spec swarmSpec).2.curID = s.curID := by
  refine ⟨?_, ?_, ?_, updateStack_curID s id spec swarmSpec⟩
  · intro h
    rcases getStack_cases s id with ⟨_, hg⟩ | ⟨pair, _, hg⟩
    · simp only [FakeStackStore.UpdateStack, hg]
    · simp [FakeStackStore.GetStack, hg] at h
  · intro h
    rcases getStack_cases s id with ⟨_, hg⟩ | ⟨pair, hm, hg⟩
    · simp [FakeStackStore.GetStack, hg] at h
    · have hp := hk.2 _ (mem_of_mapGet _ _ _ hm)
      simp only [FakeStackStore.UpdateStack, FakeStackStore.GetStack,
        FakeStackStore.GetSwarmStack, hg]
      have h1 : pair.Stack.ID = id := hp.1
      have h2 : pair.SwarmStack.ID = id := hp.2
      simp only [FakeStackStore.getStack, mapGet_mapSet_self, h1, h2, and_self]
  · intro other hother
    have hsame : (s.UpdateStack id spec swarmSpec).2.getStack other = s.getStack other := by
      rcases getStack_cases s id with ⟨_, hg⟩ | ⟨pair, _, hg⟩
      · simp only [FakeStackStore.UpdateStack, hg]
      · simp only [FakeStackStore.UpdateStack, hg]
        simp only [FakeStackStore.getStack, mapGet_mapSet_other _ _ _ _ hother]
    simp only [FakeStackStore.GetStack, FakeStackStore.GetSwarmStack, hsame, and_self]

theorem updateStack_spec_witness :
    sampleStore.Keyed ∧
    (sampleStore.GetStack "2").2 = none ∧
    (sampleStore.UpdateStack "2" updatedStackSpec "swarm3").2.GetStack "2"
      = (⟨"2", ⟨⟨0⟩⟩, updatedStackSpec⟩, none) ∧
    (sampleStore.GetStack "1").2 ≠ none ∧
    sampleStore.UpdateStack "1" updatedStackSpec "swarm3" = (some errNotFound, sampleStore) :=
  ⟨run_keyed sampleStoreOps NewFakeStackStore newFakeStackStore_keyed,
    by decide,
    ((updateStack_spec sampleStore "2" updatedStackSpec "swarm3"
      (run_keyed sampleStoreOps NewFakeStackStore newFakeStackStore_keyed)).2.1
        (by decide)).2.1,
    by decide,
    (updateStack_spec sampleStore "1" updatedStackSpec "swarm3"
      (run_keyed sampleStoreOps NewFakeStackStore newFakeStackStore_keyed)).1 (by decide)⟩

/-- Claim C32: `DeleteStack(id)` always returns nil; afterwards `GetStack(id)` and
`GetSwarmStack(id)` fail with an error for which `IsErrNotFound` is true, `GetStack` and
`GetSwarmStack` of every other ID return what they returned before, and when `id` was not
stored the store is unchanged. -/
theorem deleteStack_spec (s : FakeStackStore) (id : String) :
    (s.DeleteStack id).1 = none ∧
    (∃ e, ((s.DeleteStack id).2.GetStack id).2 = some e ∧ IsErrNotFound e = true) ∧
    (∃ e, ((s.DeleteStack id).2.GetSwarmStack id).2 = some e ∧ IsErrNotFound e = true) ∧
    (∀ other, other ≠ id →
      (s.DeleteStack id).2.GetStack other = s.GetStack other ∧
      (s.DeleteStack id).2.GetSwarmStack other = s.GetSwarmStack other) ∧
    ((s.GetStack id).2 ≠ none → (s.DeleteStack id).2 = s) ∧
    (s.DeleteStack id).2.curID = s.curID := by
  have hgone : (s.DeleteStack id).2.getStack id = (stackPair.zero, some errNotFound) := by
    simp only [FakeStackStore.DeleteStack, FakeStackStore.getStack, mapGet_mapDelete_self]
  refine ⟨rfl, ⟨errNotFound, ?_, by decide⟩, ⟨errNotFound, ?_, by decide⟩, ?_, ?_, rfl⟩
  · simp only [FakeStackStore.GetStack, hgone]
  · simp only [FakeStackStore.GetSwarmStack, hgone]
  · intro other hother
    have hsame : (s.DeleteStack id).2.getStack other = s.getStack other := by
      simp only [FakeStackStore.DeleteStack, FakeStackStore.getStack,
        mapGet_mapDelete_other _ _ _ hother]
    simp only [FakeStackStore.GetStack, FakeStackStore.GetSwarmStack, hsame, and_self]
  · intro h
    rcases getStack_cases s id with ⟨hm, _⟩ | ⟨pair, _, hg⟩
    · simp only [FakeStackStore.DeleteStack, mapDelete_of_absent _ _ hm]
    · simp [FakeStackStore.GetStack, hg] at h

theorem listStacks_ids (s : FakeStackStore) (hk : s.Keyed) :
    s.ListStacks.1.map (fun stack => stack.ID) = s.stackPairs.map Prod.fst ∧
    s.ListSwarmStacks.1.map (fun swarmStack => swarmStack.ID) = s.stackPairs.map Prod.fst := by
  simp only [FakeStackStore.ListStacks, FakeStackStore.ListSwarmStacks, List.map_map]
  constructor
  · exact List.map_congr_left (fun e he => (hk.2 e he).1)
  · exact List.map_congr_left (fun e he => (hk.2 e he).2)

theorem getStack_ok_iff (s : FakeStackStore) (id : String) :
    (s.getStack id).2 = none ↔ id ∈ s.stackPairs.map Prod.fst := by
  rw [← mapGet_isSome_iff]
  unfold FakeStackStore.getStack
  cases mapGet s.stackPairs id <;> simp

theorem listStacks_mem_iff (s : FakeStackStore) (hk : s.Keyed) (stack : Stack) :
    stack ∈ s.ListStacks.1 ↔ s.GetStack stack.ID = (stack, none) := by
  constructor
  · intro h
    obtain ⟨e, he, rfl⟩ := List.mem_map.mp h
    have hkey := (hk.2 e he).1
    have hget : mapGet s.stackPairs e.2.Stack.ID = some e.2 := by
      rw [hkey]
      exact mapGet_of_mem _ _ _ hk.1 he
    simp only [FakeStackStore.GetStack, FakeStackStore.getStack, hget]
  · intro h
    rcases getStack_cases s stack.ID with ⟨_, hg⟩ | ⟨pair, hm, hg⟩
    · simp [FakeStackStore.GetStack, hg] at h
    · simp only [FakeStackStore.GetStack, hg, Prod.mk.injEq, and_true] at h
      exact List.mem_map.mpr ⟨_, mem_of_mapGet _ _ _ hm, h⟩

theorem listSwarmStacks_mem_iff (s : FakeStackStore) (hk : s.Keyed) (swarmStack : SwarmStack) :
    swarmStack ∈ s.ListSwarmStacks.1 ↔ s.GetSwarmStack swarmStack.ID = (swarmStack, none) := by
  constructor
  · intro h
    obtain ⟨e, he, rfl⟩ := List.mem_map.mp h
    have hkey := (hk.2 e he).2
    have hget : mapGet s.stackPairs e.2.SwarmStack.ID = some e.2 := by
      rw [hkey]
      exact mapGet_of_mem _ _ _ hk.1 he
    simp only [FakeStackStore.GetSwarmStack, FakeStackStore.getStack, hget]
  · intro h
    rcases getStack_cases s swarmStack.ID with ⟨_, hg⟩ | ⟨pair, hm, hg⟩
    · simp [FakeStackStore.GetSwarmStack, hg] at h
    · simp only [FakeStackStore.GetSwarmStack, hg, Prod.mk.injEq, and_true] at h
      exact List.mem_map.mpr ⟨_, mem_of_mapGet _ _ _ hm, h⟩

/-- Claim C33: on a store in which every pair is stored under its own ID (every store made by
`NewFakeStackStore` and the store methods), `ListStacks` and `ListSwarmStacks` return a nil
error; a stack is listed exactly when `GetStack` of its ID returns it, a swarm stack exactly
when `GetSwarmStack` of its ID returns it; no ID is listed twice; an ID is listed exactly when
`GetStack` of it succeeds; `ListSwarmStacks` lists the same IDs as `ListStacks`; a stack just
added is listed, after `DeleteStack(id)` the listed stacks are those listed before with another
ID, after a successful `UpdateStack` the stack is listed with the new spec; and both lists are
empty on a new store. -/
theorem listStacks_spec (s : FakeStackStore) (hk : s.Keyed) :
    s.ListStacks.2 = none ∧ s.ListSwarmStacks.2 = none ∧
    (∀ stack, stack ∈ s.ListStacks.1 ↔ s.GetStack stack.ID = (stack, none)) ∧
    (∀ swarmStack, swarmStack ∈ s.ListSwarmStacks.1 ↔
      s.GetSwarmStack swarmStack.ID = (swarmStack, none)) ∧
    (s.ListStacks.1.map (fun stack => stack.ID)).Nodup ∧
    (s.ListSwarmStacks.1.map (fun swarmStack => swarmStack.ID)).Nodup ∧
    (∀ id, id ∈ s.ListStacks.1.map (fun stack => stack.ID) ↔ (s.GetStack id).2 = none) ∧
    (∀ id, id ∈ s.ListSwarmStacks.1.map (fun swarmStack => swarmStack.ID) ↔
      id ∈ s.ListStacks.1.map (fun stack => stack.ID)) ∧
    s.ListStacks.1.length = s.ListSwarmStacks.1.length ∧
    (∀ stack swarmStack,
      (⟨(s.AddStack stack swarmStack).1.1, stack.Meta, stack.Spec⟩ : Stack)
        ∈ (s.AddStack stack swarmStack).2.ListStacks.1) ∧
    (∀ id stack, stack ∈ (s.DeleteStack id).2.ListStacks.1 ↔
      stack ∈ s.ListStacks.1 ∧ stack.ID ≠ id) ∧
    (∀ id spec swarmSpec, (s.GetStack id).2 = none →
      (⟨id, (s.GetStack id).1.Meta, spec⟩ : Stack)
        ∈ (s.UpdateStack id spec swarmSpec).2.ListStacks.1) ∧
    NewFakeStackStore.ListStacks = ([], none) ∧
    NewFakeStackStore.ListSwarmStacks = ([], none) := by
  obtain ⟨hids, hswarm⟩ := listStacks_ids s hk
  refine ⟨rfl, rfl, listStacks_mem_iff s hk, listSwarmStacks_mem_iff s hk, ?_, ?_, ?_, ?_, ?_,
    ?_, ?_, ?_, rfl, rfl⟩
  · rw [hids]
    exact hk.1
  · rw [hswarm]
    exact hk.1
  · intro id
    rw [hids]
    exact (getStack_ok_iff s id).symm
  · intro id
    rw [hids, hswarm]
  · simp only [FakeStackStore.ListStacks, FakeStackStore.ListSwarmStacks, List.length_map]
  · intro stack swarmStack
    rw [listStacks_mem_iff _ (addStack_keyed s stack swarmStack hk)]
    simp only [FakeStackStore.AddStack, FakeStackStore.GetStack, FakeStackStore.getStack,
      mapGet_mapSet_self]
  · intro id stack
    rw [listStacks_mem_iff _ (deleteStack_keyed s id hk), listStacks_mem_iff s hk]
    by_cases hid : stack.ID = id
    · subst hid
      have hgone : (s.DeleteStack stack.ID).2.getStack stack.ID
          = (stackPair.zero, some errNotFound) := by
        simp only [FakeStackStore.DeleteStack, FakeStackStore.getStack, mapGet_mapDelete_self]
      simp [FakeStackStore.GetStack, hgone]
    · have hsame : (s.DeleteStack id).2.getStack stack.ID = s.getStack stack.ID := by
        simp only [FakeStackStore.DeleteStack, FakeStackStore.getStack,
          mapGet_mapDelete_other _ _ _ hid]
      simp only [FakeStackStore.GetStack, hsame, ne_eq, hid, not_false_eq_true, and_true]
  · intro id spec swarmSpec h
    rw [listStacks_mem_iff _ (updateStack_keyed s id spec swarmSpec hk)]
    rcases getStack_cases s id with ⟨_, hg⟩ | ⟨pair, hm, hg⟩
    · simp [FakeStackStore.GetStack, hg] at h
    · have h1 : pair.Stack.ID = id := (hk.2 _ (mem_of_mapGet _ _ _ hm)).1
      simp only [FakeStackStore.UpdateStack, FakeStackStore.GetStack, hg]
      simp only [FakeStackStore.getStack, mapGet_mapSet_self, h1]

theorem listStacks_spec_witness :
    sampleStore.Keyed ∧
    sampleStore.ListStacks.1.map (fun stack => stack.ID) = ["2", "3"] ∧
    sampleStore.ListSwarmStacks.1.map (fun swarmStack => swarmStack.ID) = ["2", "3"] ∧
    (sampleStore.ListStacks.1.map (fun stack => stack.ID)).Nodup :=
  ⟨run_keyed sampleStoreOps NewFakeStackStore newFakeStackStore_keyed, by decide, by decide,
    (listStacks_spec sampleStore
      (run_keyed sampleStoreOps NewFakeStackStore newFakeStackStore_keyed)).2.2.2.2.1⟩

/-! ## Reading the goal set -/

theorem getGoalResources_eq (p : AlgorithmPlugin) :
    p.getGoalResources = p.goals.map (fun entry => entry.2) := by
  cases p <;> rfl

/-- Claim C34: for each plugin whose goal map stores every goal under its own Name,
`getGoalResource(n)` returns what the direct map lookup `goals[n]` returns: the goal stored
under key `n` if there is one and nil otherwise; `getGoalResources` returns every registered
goal exactly once: as many goals as the map has entries, none twice, a goal is returned exactly
when it is stored under some key, and exactly when `getGoalResource` of its Name returns it. -/
theorem goal_lookup_consistent (p : AlgorithmPlugin) (hw : WellKeyed p.goals) :
    (∀ n, p.getGoalResource n = mapGet p.goals n) ∧
    (∀ n, p.getGoalResource n = none ↔ n ∉ p.goals.map Prod.fst) ∧
    (∀ r, r ∈ p.getGoalResources ↔ ∃ key, mapGet p.goals key = some r) ∧
    p.getGoalResources.length = p.goals.length ∧
    p.getGoalResources.Nodup ∧
    (∀ r, r ∈ p.getGoalResources ↔ p.getGoalResource r.Name = some r) := by
  have hget : ∀ n, p.getGoalResource n = mapGet p.goals n := by
    intro n
    cases p <;> exact find_by_name_eq_mapGet _ hw.2 n
  have hmem : ∀ r, r ∈ p.getGoalResources ↔ ∃ key, mapGet p.goals key = some r := by
    intro r
    rw [getGoalResources_eq]
    constructor
    · intro h
      obtain ⟨e, he, rfl⟩ := List.mem_map.mp h
      exact ⟨e.1, mapGet_of_mem _ _ _ hw.1 he⟩
    · rintro ⟨key, hkey⟩
      exact List.mem_map.mpr ⟨(key, r), mem_of_mapGet _ _ _ hkey, rfl⟩
  refine ⟨hget, ?_, hmem, ?_, ?_, ?_⟩
  · intro n
    rw [hget, ← mapGet_isSome_iff]
    cases mapGet p.goals n <;> simp
  · rw [getGoalResources_eq, List.length_map]
  · rw [getGoalResources_eq]
    have hnames : (p.goals.map (fun entry => entry.2)).map (fun r => r.Name)
        = p.goals.map Prod.fst := by
      rw [List.map_map]
      exact List.map_congr_left (fun e he => hw.2 e he)
    exact List.Nodup.of_map (fun r : ReconcileResource => r.Name) (hnames ▸ hw.1)
  · intro r
    rw [hmem, hget]
    constructor
    · rintro ⟨key, hkey⟩
      have := hw.2 _ (mem_of_mapGet _ _ _ hkey)
      simp only at this
      rw [this]
      exact hkey
    · intro h
      exact ⟨r.Name, h⟩

theorem goal_lookup_consistent_witness :
    WellKeyed registeredPlugin.goals ∧
    registeredPlugin.getGoalResource "db" = some dbGoal ∧
    registeredPlugin.getGoalResource "cache" = none ∧
    registeredPlugin.getGoalResources = [foreignGoal, dbGoal] ∧
    registeredPlugin.getGoalResources.Nodup :=
  ⟨⟨by decide, by decide⟩, by decide, by decide, by decide,
    (goal_lookup_consistent registeredPlugin ⟨by decide, by decide⟩).2.2.2.2.1⟩

/-! ## The goal map stays keyed by name -/

theorem applyOp_wellKeyed (p : AlgorithmPlugin) (op : GoalOp) (hw : WellKeyed p.goals)
    (h : op.admissible p = true) :
    ∃ p1, p.applyOp op = some p1 ∧ WellKeyed p1.goals := by
  obtain ⟨p1, key, resource, h1, h2, h3, _⟩ := applyOp_spec p op h
  exact ⟨p1, h1, h3 ▸ wellKeyed_mapSet _ _ _ h2 hw⟩

theorem addRemoveResourceGoal_other_kind (p : AlgorithmPlugin) (activeResource : ActiveResource)
    (hk : activeResource.kind ≠ p.GetKind) : p.addRemoveResourceGoal activeResource = none := by
  cases p <;> cases activeResource <;> first
    | exact absurd rfl hk
    | rfl

/-- Claim C35: the invariant that every goal of the goal map is stored under a key equal to its
own Name (in a map, so no key occurs twice) holds for the empty goal map and, for each of the
four plugins, is preserved by `addCreateResourceGoal` for every declared name and by
`addRemoveResourceGoal` for every active resource it accepts (one of the plugin's kind; on
another kind it panics and registers nothing), hence by every sequence of such
registrations. -/
theorem wellKeyed_preserved (p : AlgorithmPlugin) (hw : WellKeyed p.goals) :
    WellKeyed ([] : List (String × ReconcileResource)) ∧
    (∀ n, n ∈ p.getSpecifiedResourceNames →
      ∃ goal p1, p.addCreateResourceGoal n = some (goal, p1) ∧ WellKeyed p1.goals) ∧
    (∀ activeResource, activeResource.kind = p.GetKind →
      ∃ goal p1, p.addRemoveResourceGoal activeResource = some (goal, p1) ∧
        WellKeyed p1.goals) ∧
    (∀ activeResource goal p1, p.addRemoveResourceGoal activeResource = some (goal, p1) →
      WellKeyed p1.goals) ∧
    (∀ ops : List GoalOp, (∀ op ∈ ops, op.admissible p = true) →
      ∃ p1, p.applyOps ops = some p1 ∧ WellKeyed p1.goals) := by
  have hremove : ∀ activeResource, activeResource.kind = p.GetKind →
      ∃ goal p1, p.addRemoveResourceGoal activeResource = some (goal, p1) ∧
        WellKeyed p1.goals := by
    intro activeResource hk
    obtain ⟨p1, h1, h2⟩ := applyOp_wellKeyed p (GoalOp.remove activeResource) hw
      (by simp [GoalOp.admissible, hk])
    simp only [AlgorithmPlugin.applyOp] at h1
    cases hadd : p.addRemoveResourceGoal activeResource with
    | none => simp [hadd] at h1
    | some r =>
      simp only [hadd, Option.map_some', Option.some.injEq] at h1
      exact ⟨r.1, r.2, rfl, h1 ▸ h2⟩
  refine ⟨⟨List.nodup_nil, fun _ he => absurd he (List.not_mem_nil _)⟩, ?_, hremove, ?_, ?_⟩
  · intro n hn
    obtain ⟨p1, h1, h2⟩ := applyOp_wellKeyed p (GoalOp.create n) hw
      (by simp [GoalOp.admissible, hn])
    simp only [AlgorithmPlugin.applyOp] at h1
    cases hadd : p.addCreateResourceGoal n with
    | none => simp [hadd] at h1
    | some r =>
      simp only [hadd, Option.map_some', Option.some.injEq] at h1
      exact ⟨r.1, r.2, rfl, h1 ▸ h2⟩
  · intro activeResource goal p1 hadd
    by_cases hk : activeResource.kind = p.GetKind
    · obtain ⟨goal2, p2, h1, h2⟩ := hremove activeResource hk
      rw [hadd] at h1
      simp only [Option.some.injEq, Prod.mk.injEq] at h1
      exact h1.2 ▸ h2
    · rw [addRemoveResourceGoal_other_kind p activeResource hk] at hadd
      exact absurd hadd (by simp)
  · intro ops hops
    obtain ⟨p1, h1, h2, _⟩ := applyOps_wellKeyed ops p hw hops
    exact ⟨p1, h1, h2⟩

theorem wellKeyed_preserved_witness :
    WellKeyed registeredPlugin.goals ∧
    "web" ∈ registeredPlugin.getSpecifiedResourceNames ∧
    ∃ goal p1, registeredPlugin.addCreateResourceGoal "web" = some (goal, p1) ∧
      WellKeyed p1.goals :=
  ⟨⟨by decide, by decide⟩, by decide,
    (wellKeyed_preserved registeredPlugin ⟨by decide, by decide⟩).2.1 "web" (by decide)⟩

/-! ## Create submits the declared spec -/

/-- Claim C36: for each plugin and every goal whose Config points to a declared spec,
`CreateResource` issues one create call whose submitted spec equals the declared spec in every
field but the label map (the name included), whose label map agrees with the declared one on
every label other than `com.docker.stack.namespace`, and carries the stack ID under that
label; the service create call is made with the default remaining arguments. -/
theorem createResource_submits_declared_spec {σ : Type} (cli : BackendClient σ) (w : World σ)
    (sr : SnapshotResource) (mark : ReconcileState) (kind : ReconcileKind) :
    (∀ (a : algorithmService) (spec : ServiceSpec),
      ∃ out submitted,
        a.CreateResource cli ⟨sr, mark, kind, ConfigValue.servicePtr (some spec)⟩ w = some out ∧
        out.world.calls = w.calls ++
          [BackendCall.CreateService submitted DefaultCreateServiceArg2
            DefaultCreateServiceArg3] ∧
        submitted = { spec with
          Annotations := ⟨spec.Annotations.Name, submitted.Annotations.Labels⟩ } ∧
        (∀ key, key ≠ StackLabel →
          labelGet submitted.Annotations.Labels key = labelGet spec.Annotations.Labels key) ∧
        labelGet submitted.Annotations.Labels StackLabel = some a.stackID) ∧
    (∀ (a : algorithmNetwork) (request : NetworkCreateRequest),
      ∃ out submitted,
        a.CreateResource cli ⟨sr, mark, kind, ConfigValue.networkPtr (some request)⟩ w
          = some out ∧
        out.world.calls = w.calls ++ [BackendCall.CreateNetwork submitted] ∧
        submitted = { request with
          NetworkCreate := ⟨submitted.NetworkCreate.Labels, request.NetworkCreate.Settings⟩ } ∧
        (∀ key, key ≠ StackLabel →
          labelGet submitted.NetworkCreate.Labels key
            = labelGet request.NetworkCreate.Labels key) ∧
        labelGet submitted.NetworkCreate.Labels StackLabel = some a.stackID) ∧
    (∀ (a : algorithmSecret) (spec : SecretSpec),
      ∃ out submitted,
        a.CreateResource cli ⟨sr, mark, kind, ConfigValue.secretPtr (some spec)⟩ w = some out ∧
        out.world.calls = w.calls ++ [BackendCall.CreateSecret submitted] ∧
        submitted = { spec with
          Annotations := ⟨spec.Annotations.Name, submitted.Annotations.Labels⟩ } ∧
        (∀ key, key ≠ StackLabel →
          labelGet submitted.Annotations.Labels key = labelGet spec.Annotations.Labels key) ∧
        labelGet submitted.Annotations.Labels StackLabel = some a.stackID) ∧
    (∀ (a : algorithmConfig) (spec : ConfigSpec),
      ∃ out submitted,
        a.CreateResource cli ⟨sr, mark, kind, ConfigValue.configPtr (some spec)⟩ w = some out ∧
        out.world.calls = w.calls ++ [BackendCall.CreateConfig submitted] ∧
        submitted = { spec with
          Annotations := ⟨spec.Annotations.Name, submitted.Annotations.Labels⟩ } ∧
        (∀ key, key ≠ StackLabel →
          labelGet submitted.Annotations.Labels key = labelGet spec.Annotations.Labels key) ∧
        labelGet submitted.Annotations.Labels StackLabel = some a.stackID) := by
  refine ⟨?_, ?_, ?_, ?_⟩
  · intro a spec
    obtain ⟨⟨name, labels⟩, f1, f2, f3, f4, f5, f6⟩ := spec
    simp only [algorithmService.CreateResource, BackendClient.callCreateService]
    generalize cli.CreateService _ _ _ _ = r
    obtain ⟨r1, s1⟩ := r
    cases labels with
    | none =>
      cases r1 <;>
        exact ⟨_, _, rfl, rfl, rfl,
          fun key hk => (labelGet_mapSet_stackLabel none a.stackID key hk).symm,
          by simp [labelGet, mapGet_mapSet_self]⟩
    | some m =>
      cases r1 <;>
        exact ⟨_, _, rfl, rfl, rfl,
          fun key hk => (labelGet_mapSet_stackLabel (some m) a.stackID key hk).symm,
          by simp [labelGet, mapGet_mapSet_self]⟩
  · intro a request
    obtain ⟨name, labels, settings⟩ := request
    simp only [algorithmNetwork.CreateResource, BackendClient.callCreateNetwork]
    generalize cli.CreateNetwork _ _ = r
    obtain ⟨r1, s1⟩ := r
    cases labels with
    | none =>
      cases r1 <;>
        exact ⟨_, _, rfl, rfl, rfl,
          fun key hk => (labelGet_mapSet_stackLabel none a.stackID key hk).symm,
          by simp [labelGet, mapGet_mapSet_self]⟩
    | some m =>
      cases r1 <;>
        exact ⟨_, _, rfl, rfl, rfl,
          fun key hk => (labelGet_mapSet_stackLabel (some m) a.stackID key hk).symm,
          by simp [labelGet, mapGet_mapSet_self]⟩
  · intro a spec
    obtain ⟨⟨name, labels⟩, f1, f2, f3⟩ := spec
    simp only [algorithmSecret.CreateResource, BackendClient.callCreateSecret]
    generalize cli.CreateSecret _ _ = r
    obtain ⟨r1, s1⟩ := r
    cases labels with
    | none =>
      cases r1 <;>
        exact ⟨_, _, rfl, rfl, rfl,
          fun key hk => (labelGet_mapSet_stackLabel none a.stackID key hk).symm,
          by simp [labelGet, mapGet_mapSet_self]⟩
    | some m =>
      cases r1 <;>
        exact ⟨_, _, rfl, rfl, rfl,
          fun key hk => (labelGet_mapSet_stackLabel (some m) a.stackID key hk).symm,
          by simp [labelGet, mapGet_mapSet_self]⟩
  · intro a spec
    obtain ⟨⟨name, labels⟩, f1, f2⟩ := spec
    simp only [algorithmConfig.CreateResource, BackendClient.callCreateConfig]
    generalize cli.CreateConfig _ _ = r
    obtain ⟨r1, s1⟩ := r
    cases labels with
    | none =>
      cases r1 <;>
        exact ⟨_, _, rfl, rfl, rfl,
          fun key hk => (labelGet_mapSet_stackLabel none a.stackID key hk).symm,
          by simp [labelGet, mapGet_mapSet_self]⟩
    | some m =>
      cases r1 <;>
        exact ⟨_, _, rfl, rfl, rfl,
          fun key hk => (labelGet_mapSet_stackLabel (some m) a.stackID key hk).symm,
          by simp [labelGet, mapGet_mapSet_self]⟩

/-! ## Update issues one backend update -/

/-- Claim C37: for the service, secret and config plugins and every goal whose Config points to
a declared spec, `UpdateResource` issues exactly one backend call, the update of the plugin's
kind addressed to the goal's ID with expected version the goal's `Meta.Version.Index` and the
declared spec as it is (for a service with the default remaining arguments); it returns the
backend's error when the update fails and nil otherwise, and leaves the backend in the state
that update left.  The goal is passed by value and nothing is written through its Config
pointer, so the caller's goal is as before. -/
theorem updateResource_issues_one_update {σ : Type} (cli : BackendClient σ) (w : World σ)
    (sr : SnapshotResource) (mark : ReconcileState) (kind : ReconcileKind) :
    (∀ (a : algorithmService) (spec : ServiceSpec),
      ∃ err,
        a.UpdateResource cli ⟨sr, mark, kind, ConfigValue.servicePtr (some spec)⟩ w
          = some (err,
              ⟨(cli.UpdateService sr.ID sr.Meta.Version.Index spec DefaultUpdateServiceArg4
                  DefaultUpdateServiceArg5 w.backend).2,
                w.calls ++ [BackendCall.UpdateService sr.ID sr.Meta.Version.Index spec
                  DefaultUpdateServiceArg4 DefaultUpdateServiceArg5]⟩) ∧
        (∀ e, (cli.UpdateService sr.ID sr.Meta.Version.Index spec DefaultUpdateServiceArg4
            DefaultUpdateServiceArg5 w.backend).1 = Except.error e → err = some e) ∧
        (∀ resp, (cli.UpdateService sr.ID sr.Meta.Version.Index spec DefaultUpdateServiceArg4
            DefaultUpdateServiceArg5 w.backend).1 = Except.ok resp → err = none)) ∧
    (∀ (a : algorithmSecret) (spec : SecretSpec),
      a.UpdateResource cli ⟨sr, mark, kind, ConfigValue.secretPtr (some spec)⟩ w
        = some ((cli.UpdateSecret sr.ID sr.Meta.Version.Index spec w.backend).1,
            ⟨(cli.UpdateSecret sr.ID sr.Meta.Version.Index spec w.backend).2,
              w.calls ++ [BackendCall.UpdateSecret sr.ID sr.Meta.Version.Index spec]⟩)) ∧
    (∀ (a : algorithmConfig) (spec : ConfigSpec),
      a.UpdateResource cli ⟨sr, mark, kind, ConfigValue.configPtr (some spec)⟩ w
        = some ((cli.UpdateConfig sr.ID sr.Meta.Version.Index spec w.backend).1,
            ⟨(cli.UpdateConfig sr.ID sr.Meta.Version.Index spec w.backend).2,
              w.calls ++ [BackendCall.UpdateConfig sr.ID sr.Meta.Version.Index spec]⟩)) := by
  refine ⟨?_, ?_, ?_⟩
  · intro a spec
    simp only [algorithmService.UpdateResource, BackendClient.callUpdateService, World.after]
    generalize cli.UpdateService _ _ _ _ _ _ = r
    obtain ⟨r1, s1⟩ := r
    cases r1 with
    | error e =>
      exact ⟨some e, rfl, fun e1 h => (by cases h; rfl), fun resp h => (by cases h)⟩
    | ok resp => exact ⟨none, rfl, fun e1 h => (by cases h), fun resp1 h => rfl⟩
  · intro a spec
    simp only [algorithmSecret.UpdateResource, BackendClient.callUpdateSecret, World.after]
    generalize cli.UpdateSecret _ _ _ _ = r
    obtain ⟨r1, s1⟩ := r
    cases r1 <;> rfl
  · intro a spec
    simp only [algorithmConfig.UpdateResource, BackendClient.callUpdateConfig, World.after]
    generalize cli.UpdateConfig _ _ _ _ = r
    obtain ⟨r1, s1⟩ := r
    cases r1 <;> rfl

/-! ## Type assertions on registered create goals -/

theorem declaredSpec_no_panic {σ : Type} (cli : BackendClient σ) (p : AlgorithmPlugin)
    (resource : ReconcileResource) (w : World σ)
    (h : resource.Config.isDeclaredSpec p.GetKind = true) :
    (p.CreateResource cli resource w).isSome = true ∧
    (p.UpdateResource cli resource w).isSome = true ∧
    (∀ actual : ActiveResource, actual.kind = p.GetKind →
      (p.hasSameConfiguration resource actual).isSome = true) ∧
    ∀ out, p.CreateResource cli resource w = some out →
      out.resource.Config.isDeclaredSpec p.GetKind = true := by
  obtain ⟨sr, mark, kind, cfg⟩ := resource
  cases p with
  | service a =>
    rcases cfg with _ | (_ | spec) | _ | (_ | _) | _ | (_ | _) | _ | (_ | _) <;>
      simp [ConfigValue.isDeclaredSpec, AlgorithmPlugin.GetKind, algorithmService.GetKind] at h
    refine ⟨?_, ?_, ?_, ?_⟩
    · simp only [AlgorithmPlugin.CreateResource, algorithmService.CreateResource,
        BackendClient.callCreateService]
      generalize cli.CreateService _ _ _ _ = r
      obtain ⟨r1, s1⟩ := r
      cases r1 <;> rfl
    · simp only [AlgorithmPlugin.UpdateResource, algorithmService.UpdateResource,
        BackendClient.callUpdateService]
      generalize cli.UpdateService _ _ _ _ _ _ = r
      obtain ⟨r1, s1⟩ := r
      cases r1 <;> rfl
    · intro actual hk
      cases actual <;>
        simp [ActiveResource.kind, AlgorithmPlugin.GetKind, algorithmService.GetKind] at hk
      rfl
    · intro out hout
      simp only [AlgorithmPlugin.CreateResource, algorithmService.CreateResource,
        BackendClient.callCreateService] at hout
      generalize cli.CreateService _ _ _ _ = r at hout
      obtain ⟨r1, s1⟩ := r
      cases r1 <;> (simp only [Option.some.injEq] at hout; subst hout; rfl)
  | network a =>
    rcases cfg with _ | (_ | _) | _ | (_ | _) | _ | (_ | _) | _ | (_ | spec) <;>
      simp [ConfigValue.isDeclaredSpec, AlgorithmPlugin.GetKind, algorithmNetwork.GetKind] at h
    refine ⟨?_, rfl, fun _ _ => rfl, ?_⟩
    · simp only [AlgorithmPlugin.CreateResource, algorithmNetwork.CreateResource,
        BackendClient.callCreateNetwork]
      generalize cli.CreateNetwork _ _ = r
      obtain ⟨r1, s1⟩ := r
      cases r1 <;> rfl
    · intro out hout
      simp only [AlgorithmPlugin.CreateResource, algorithmNetwork.CreateResource,
        BackendClient.callCreateNetwork] at hout
      generalize cli.CreateNetwork _ _ = r at hout
      obtain ⟨r1, s1⟩ := r
      cases r1 <;> (simp only [Option.some.injEq] at hout; subst hout; rfl)
  | secret a =>
    rcases cfg with _ | (_ | _) | _ | (_ | spec) | _ | (_ | _) | _ | (_ | _) <;>
      simp [ConfigValue.isDeclaredSpec, AlgorithmPlugin.GetKind, algorithmSecret.GetKind] at h
    refine ⟨?_, ?_, ?_, ?_⟩
    · simp only [AlgorithmPlugin.CreateResource, algorithmSecret.CreateResource,
        BackendClient.callCreateSecret]
      generalize cli.CreateSecret _ _ = r
      obtain ⟨r1, s1⟩ := r
      cases r1 <;> rfl
    · simp only [AlgorithmPlugin.UpdateResource, algorithmSecret.UpdateResource,
        BackendClient.callUpdateSecret]
      generalize cli.UpdateSecret _ _ _ _ = r
      obtain ⟨r1, s1⟩ := r
      cases r1 <;> rfl
    · intro actual hk
      cases actual <;>
        simp [ActiveResource.kind, AlgorithmPlugin.GetKind, algorithmSecret.GetKind] at hk
      rfl
    · intro out hout
      simp only [AlgorithmPlugin.CreateResource, algorithmSecret.CreateResource,
        BackendClient.callCreateSecret] at hout
      generalize cli.CreateSecret _ _ = r at hout
      obtain ⟨r1, s1⟩ := r
      cases r1 <;> (simp only [Option.some.injEq] at hout; subst hout; rfl)
  | config a =>
    rcases cfg with _ | (_ | _) | _ | (_ | _) | _ | (_ | spec) | _ | (_ | _) <;>
      simp [ConfigValue.isDeclaredSpec, AlgorithmPlugin.GetKind, algorithmConfig.GetKind] at h
    refine ⟨?_, ?_, ?_, ?_⟩
    · simp only [AlgorithmPlugin.CreateResource, algorithmConfig.CreateResource,
        BackendClient.callCreateConfig]
      generalize cli.CreateConfig _ _ = r
      obtain ⟨r1, s1⟩ := r
      cases r1 <;> rfl
    · simp only [AlgorithmPlugin.UpdateResource, algorithmConfig.UpdateResource,
        BackendClient.callUpdateConfig]
      generalize cli.UpdateConfig _ _ _ _ = r
      obtain ⟨r1, s1⟩ := r
      cases r1 <;> rfl
    · intro actual hk
      cases actual <;>
        simp [ActiveResource.kind, AlgorithmPlugin.GetKind, algorithmConfig.GetKind] at hk
      rfl
    · intro out hout
      simp only [AlgorithmPlugin.CreateResource, algorithmConfig.CreateResource,
        BackendClient.callCreateConfig] at hout
      generalize cli.CreateConfig _ _ = r at hout
      obtain ⟨r1, s1⟩ := r
      cases r1 <;> (simp only [Option.some.injEq] at hout; subst hout; rfl)

theorem addCreateResourceGoal_config (p : AlgorithmPlugin) (n : String)
    (hn : n ∈ p.getSpecifiedResourceNames) :
    ∃ goal p1, p.addCreateResourceGoal n = some (goal, p1) ∧
      goal.Config.isDeclaredSpec p.GetKind = true ∧ p1.GetKind = p.GetKind := by
  cases p with
  | service a =>
    obtain ⟨spec, hl, _⟩ := a.lookupServiceSpec_declared n hn
    simp only [AlgorithmPlugin.addCreateResourceGoal, algorithmService.addCreateResourceGoal, hl,
      Option.map_some']
    exact ⟨_, _, rfl, rfl, rfl⟩
  | network a =>
    obtain ⟨spec, hl, _⟩ := a.lookupNetworkSpec_declared n hn
    simp only [AlgorithmPlugin.addCreateResourceGoal, algorithmNetwork.addCreateResourceGoal, hl,
      Option.map_some']
    exact ⟨_, _, rfl, rfl, rfl⟩
  | secret a =>
    obtain ⟨spec, hl, _⟩ := a.lookupSecretSpec_declared n hn
    simp only [AlgorithmPlugin.addCreateResourceGoal, algorithmSecret.addCreateResourceGoal, hl,
      Option.map_some']
    exact ⟨_, _, rfl, rfl, rfl⟩
  | config a =>
    obtain ⟨spec, hl, _⟩ := a.lookupConfigSpec_declared n hn
    simp only [AlgorithmPlugin.addCreateResourceGoal, algorithmConfig.addCreateResourceGoal, hl,
      Option.map_some']
    exact ⟨_, _, rfl, rfl, rfl⟩

/-- Claim C38: for each plugin and every name declared for its kind, the goal that
`addCreateResourceGoal` registers has as Config a non-nil pointer to the kind's declared spec
type, so on that goal `CreateResource` and `UpdateResource` return (no type assertion fails, no
nil pointer is dereferenced), whatever the backend answers, and `hasSameConfiguration` returns
for every active resource of the plugin's kind. -/
theorem registered_goal_assertions_hold {σ : Type} (cli : BackendClient σ) (w : World σ)
    (p : AlgorithmPlugin) (n : String) (hn : n ∈ p.getSpecifiedResourceNames) :
    ∃ goal p1, p.addCreateResourceGoal n = some (goal, p1) ∧
      goal.Config.isDeclaredSpec p.GetKind = true ∧
      (p1.CreateResource cli goal w).isSome = true ∧
      (p1.UpdateResource cli goal w).isSome = true ∧
      (∀ actual : ActiveResource, actual.kind = p.GetKind →
        (p1.hasSameConfiguration goal actual).isSome = true) ∧
      (∀ out, p1.CreateResource cli goal w = some out →
        out.resource.Config.isDeclaredSpec p.GetKind = true) := by
  obtain ⟨goal, p1, hadd, hcfg, hkind⟩ := addCreateResourceGoal_config p n hn
  obtain ⟨h1, h2, h3, h4⟩ := declaredSpec_no_panic cli p1 goal w (hkind ▸ hcfg)
  exact ⟨goal, p1, hadd, hcfg, h1, h2, fun actual hk => h3 actual (hkind ▸ hk),
    fun out hout => hkind ▸ h4 out hout⟩

theorem registered_goal_assertions_hold_witness :
    "web" ∈ samplePlugin.getSpecifiedResourceNames ∧
    ∃ goal p1, samplePlugin.addCreateResourceGoal "web" = some (goal, p1) ∧
      goal.Config.isDeclaredSpec samplePlugin.GetKind = true ∧
      (p1.CreateResource Store.client goal sampleWorld).isSome = true :=
  ⟨by decide,
    (registered_goal_assertions_hold Store.client sampleWorld samplePlugin "web"
      (by decide)).imp fun _ h => h.imp fun _ h => ⟨h.1, h.2.1, h.2.2.1⟩⟩

/-! ## Create then delete against any backend -/

theorem store_remove_notFound (p : AlgorithmPlugin) (id : String) (st : Store) (err : Error)
    (h : (p.backendRemove Store.client id st).1 = some err) : IsNotFound err = true := by
  cases p <;>
    simp only [AlgorithmPlugin.backendRemove, Store.client, Store.RemoveService,
      Store.RemoveNetwork, Store.RemoveSecret, Store.RemoveConfig] at h <;>
    split_ifs at h <;> simp at h <;> subst h <;> rfl

theorem store_removes (st : Store) : Store.client.RemovesAt st := by
  intro p id _
  refine ⟨Store.errNotFound id, ?_, rfl⟩
  rw [store_backendGet]
  have hgone : Store.lookup (p.backendRemove Store.client id st).2 p.GetKind id = none := by
    cases p with
    | service a => exact (store_removeService_lookup st id ReconcileKind.ReconcileService id).2
    | network a => exact (store_removeNetwork_lookup st id ReconcileKind.ReconcileNetwork id).2
    | secret a => exact (store_removeSecret_lookup st id ReconcileKind.ReconcileSecret id).2
    | config a => exact (store_removeConfig_lookup st id ReconcileKind.ReconcileConfig id).2
  simp only [hgone]

theorem createResource_some_declared {σ : Type} (cli : BackendClient σ) (p : AlgorithmPlugin)
    (resource : ReconcileResource) (w : World σ) (out : Outcome σ)
    (hc : p.CreateResource cli resource w = some out) :
    resource.Config.isDeclaredSpec p.GetKind = true := by
  obtain ⟨sr, mark, kind, cfg⟩ := resource
  cases p with
  | service a =>
    rcases cfg with _ | (_ | spec) | _ | (_ | _) | _ | (_ | _) | _ | (_ | _) <;>
      first
        | rfl
        | simp [AlgorithmPlugin.CreateResource, algorithmService.CreateResource] at hc
  | network a =>
    rcases cfg with _ | (_ | _) | _ | (_ | _) | _ | (_ | _) | _ | (_ | spec) <;>
      first
        | rfl
        | simp [AlgorithmPlugin.CreateResource, algorithmNetwork.CreateResource] at hc
  | secret a =>
    rcases cfg with _ | (_ | _) | _ | (_ | spec) | _ | (_ | _) | _ | (_ | _) <;>
      first
        | rfl
        | simp [AlgorithmPlugin.CreateResource, algorithmSecret.CreateResource] at hc
  | config a =>
    rcases cfg with _ | (_ | _) | _ | (_ | _) | _ | (_ | spec) | _ | (_ | _) <;>
      first
        | rfl
        | simp [AlgorithmPlugin.CreateResource, algorithmConfig.CreateResource] at hc

theorem backendRemove_of_kind {σ : Type} (cli : BackendClient σ) (p p1 : AlgorithmPlugin)
    (hk : p1.GetKind = p.GetKind) :
    p1.backendRemove cli = p.backendRemove cli ∧ p1.backendGet cli = p.backendGet cli ∧
    p1.removeCall = p.removeCall := by
  cases p <;> cases p1 <;> first
    | exact ⟨rfl, rfl, rfl⟩
    | simp [AlgorithmPlugin.GetKind, algorithmService.GetKind, algorithmNetwork.GetKind,
        algorithmSecret.GetKind, algorithmConfig.GetKind] at hk

/-- Counterexample to C10 as stated, which names no condition on the backend: against a
backend that refuses removal with a transient error, `CreateResource` of the sample goal
succeeds and gives it the ID `1`, yet `DeleteResource` of the created goal returns that
transient error, the goal keeps the ID `1`, and the backend still holds the service `1`. -/
theorem deleteResource_fails_after_create :
    samplePlugin.CreateResource refusingClient sampleGoal sampleWorld = some sampleCreated ∧
    sampleCreated.err = none ∧ sampleCreated.resource.ID = "1" ∧
    (samplePlugin.DeleteResource refusingClient sampleCreated.resource sampleCreated.world).err
      = some ⟨ErrorKind.Transient, "backend unavailable"⟩ ∧
    (samplePlugin.DeleteResource refusingClient sampleCreated.resource
      sampleCreated.world).resource.ID = "1" ∧
    (Store.lookup
      (samplePlugin.DeleteResource refusingClient sampleCreated.resource
        sampleCreated.world).world.backend
      ReconcileKind.ReconcileService "1").isSome = true := by
  refine ⟨rfl, rfl, rfl, rfl, rfl, ?_⟩
  decide

/-- Claim C10, amended: create then delete is a round trip against a backend whose Remove of
the created ID succeeds or answers NotFound and which then no longer finds what was removed.
For every kind, every backend client and every goal, if `CreateResource(goal)` succeeds on a
plugin of that kind, the goal's ID is the ID the backend's create call returned, and
`DeleteResource(goal)` on a plugin of that kind, bound to the same or to a different stack ID,
issues exactly one backend call, the Remove of that kind for the created ID; when that Remove
succeeds or answers NotFound, `DeleteResource` returns nil and `goal.ID` is empty afterwards,
and on a backend that removes what it is asked to remove the lookup of the created ID then
fails with NotFound. -/
theorem create_then_delete_roundtrip {σ : Type} (cli : BackendClient σ)
    (p p1 : AlgorithmPlugin) (resource : ReconcileResource)
    (w : World σ) (out : Outcome σ) (hk : p1.GetKind = p.GetKind)
    (hc : p.CreateResource cli resource w = some out) (hs : out.err = none)
    (hremove : ∀ err, (p.backendRemove cli out.resource.ID out.world.backend).1 = some err →
      IsNotFound err = true)
    (hlaw : cli.RemovesAt out.world.backend) :
    (∃ c id st1, c.createKind = some p.GetKind ∧
      cli.createResult c w.backend = some (Except.ok id, st1) ∧
      out.world = w.after c st1 ∧ out.resource.ID = id) ∧
    (p1.DeleteResource cli out.resource out.world).world
      = out.world.after (p.removeCall out.resource.ID)
          (p.backendRemove cli out.resource.ID out.world.backend).2 ∧
    (p1.DeleteResource cli out.resource out.world).err = none ∧
    (p1.DeleteResource cli out.resource out.world).resource.ID = "" ∧
    (∃ err, (p.backendGet cli out.resource.ID
        (p1.DeleteResource cli out.resource out.world).world.backend).1 = Except.error err ∧
      IsNotFound err = true) := by
  obtain ⟨hrem, hget, hcall⟩ := backendRemove_of_kind cli p p1 hk
  obtain ⟨herr, hres⟩ := deleteResource_result cli p1 out.resource out.world
  have hworld := deleteResource_world cli p1 out.resource out.world
  rw [hrem] at herr hworld
  rw [hcall] at hworld
  have hnone : (p1.DeleteResource cli out.resource out.world).err = none := by
    rw [herr]
    cases hr : (p.backendRemove cli out.resource.ID out.world.backend).1 with
    | none => rfl
    | some err => simp [hremove err hr]
  refine ⟨?_, hworld, hnone, ?_, ?_⟩
  · obtain ⟨out1, c, r, st1, hc1, hkind, hcreate, hw1, _, _, _, _, hmatch⟩ :=
      createResource_result cli p resource w (createResource_some_declared cli p resource w out hc)
    rw [hc] at hc1
    simp only [Option.some.injEq] at hc1
    subst hc1
    cases r with
    | ok id => exact ⟨c, id, st1, hkind, hcreate, hw1, hmatch.2⟩
    | error err =>
      simp only at hmatch
      rw [hmatch.1] at hs
      exact absurd hs (by simp)
  · rw [hres, hnone]
  · rw [hworld]
    exact hlaw p out.resource.ID hremove

/-- Witness of C10 on the keyed store, whose Remove fails only with NotFound and removes what
it is asked to remove: the goal created through the plugin bound to `s1` is deleted through
the plugin bound to `foobar`. -/
theorem create_then_delete_roundtrip_witness :
    otherPlugin.GetKind = samplePlugin.GetKind ∧
    samplePlugin.CreateResource Store.client sampleGoal sampleWorld = some sampleCreated ∧
    sampleCreated.err = none ∧
    (Store.lookup sampleCreated.world.backend samplePlugin.GetKind
      sampleCreated.resource.ID).isSome = true ∧
    (otherPlugin.DeleteResource Store.client sampleCreated.resource sampleCreated.world).err
      = none ∧
    (otherPlugin.DeleteResource Store.client sampleCreated.resource
      sampleCreated.world).resource.ID = "" ∧
    Store.lookup
      (otherPlugin.DeleteResource Store.client sampleCreated.resource
        sampleCreated.world).world.backend
      samplePlugin.GetKind sampleCreated.resource.ID = none ∧
    (∃ err, (samplePlugin.backendGet Store.client sampleCreated.resource.ID
        (otherPlugin.DeleteResource Store.client sampleCreated.resource
          sampleCreated.world).world.backend).1 = Except.error err ∧
      IsNotFound err = true) :=
  ⟨rfl, rfl, rfl,
    (store_create_holds samplePlugin sampleGoal sampleWorld sampleCreated rfl).2,
    (create_then_delete_roundtrip Store.client samplePlugin otherPlugin sampleGoal sampleWorld
      sampleCreated rfl rfl rfl
      (fun err h => store_remove_notFound samplePlugin _ _ err h)
      (store_removes _)).2.2.1,
    (create_then_delete_roundtrip Store.client samplePlugin otherPlugin sampleGoal sampleWorld
      sampleCreated rfl rfl rfl
      (fun err h => store_remove_notFound samplePlugin _ _ err h)
      (store_removes _)).2.2.2.1,
    by decide,
    (create_then_delete_roundtrip Store.client samplePlugin otherPlugin sampleGoal sampleWorld
      sampleCreated rfl rfl rfl
      (fun err h => store_remove_notFound samplePlugin _ _ err h)
      (store_removes _)).2.2.2.2⟩

end Stacks
